import Mathlib

/-!
# zonar: zone / blockgroup correlator and wire codec

A shallow embedding of `src/znr_bg.c`, `src/znr_device.c`, `src/znr_net.c`,
`src/znr_xfs.c`, `src/znr_fs.c` and `src/znr.c`, with the records of
`src/znr_fs.h` and `src/znr_net.h` they exchange.

Conventions of the embedding.

* C unsigned integers are natural numbers; every operation that can leave the
  range of its C type is reduced modulo `2 ^ 32` or `2 ^ 64` explicitly
  (`unsigned long` is 64 bits wide on the Linux targets of the program).
* A C array handed over as pointer plus element count is a `List`; the count
  is its length and the pointer is not NULL.  Arrays hold fewer than `2 ^ 31`
  elements: the `unsigned int` counters that walk them never wrap, and a count
  returned as `int` is the count.
* A pointer into the zone array is the index of the zone it points to, `none`
  is the NULL pointer.
* `int` results are integers, errors are the negated errno values.
* A call that does not return (a division by zero, a read through a NULL
  pointer, a write past the end of a buffer) has the result `none`.
* What the program obtains from outside (kernel ioctls, the peer of a
  connection) is a parameter of the model; memory allocation succeeds.
-/

namespace Zonar

/-! ## Constants -/

/-- Number of values of a 32-bit unsigned integer. -/
def U32 : Nat := 2 ^ 32

/-- Number of values of a 64-bit unsigned integer. -/
def U64 : Nat := 2 ^ 64

/-- Value of errno `EINVAL` on Linux. -/
def EINVAL : Int := 22

/-- Size of the zone pointer array of a blockgroup (`znr_bg.h`). -/
def ZNR_BG_MAX_ZONES : Nat := 512

/-- Zone type of a conventional zone (`linux/blkzoned.h`). -/
def BLK_ZONE_TYPE_CONVENTIONAL : Nat := 1

/-- Zone type of a sequential-write-required zone (`linux/blkzoned.h`). -/
def BLK_ZONE_TYPE_SEQWRITE_REQ : Nat := 2

/-! ## Data model -/

/-- Kernel zone descriptor `struct blk_zone` (`linux/blkzoned.h`):
`start`, `len`, `wp` and `capacity` are 64-bit sector values, the other fields
are bytes. -/
structure blk_zone where
  start : Nat
  len : Nat
  wp : Nat
  type : Nat
  cond : Nat
  non_seq : Nat
  reset : Nat
  capacity : Nat
deriving DecidableEq, Repr, Inhabited

/-- Block group information `struct znr_bg` (`znr_bg.h`).  `zones` is the array
of `ZNR_BG_MAX_ZONES` zone pointers. -/
structure znr_bg where
  sector : Nat
  nr_sectors : Nat
  wp_sector : Nat
  flags : Nat
  zones : List (Option Nat)
  nr_zones : Nat
deriving DecidableEq, Repr, Inhabited

/-- Device descriptor `struct znr_device` (`znr_device.h`), numeric part. -/
structure znr_device where
  nr_sectors : Nat
  nr_lblocks : Nat
  nr_pblocks : Nat
  zone_size : Nat
  zone_sectors : Nat
  lblock_size : Nat
  pblock_size : Nat
  nr_zones : Nat
  max_nr_open_zones : Nat
  max_nr_active_zones : Nat
  is_zoned : Bool
deriving DecidableEq, Repr, Inhabited

/-- The fields of the process-wide `struct znr` (`znr.h`) read by the
correlator: the sizes of the session zone and blockgroup arrays and the
client-mode flag. -/
structure znr where
  nr_zones : Nat
  nr_blockgroups : Nat
  is_net_client : Bool
deriving DecidableEq, Repr, Inhabited

/-! ## `znr_bg_map_zones_to_blockgroups` (`znr_bg.c`) -/

/-- Dereference of a zone pointer held by a blockgroup. -/
def zone_at (zones : List blk_zone) (p : Option Nat) : blk_zone :=
  match p with
  | some j => zones.getD j default
  | none => default

/-- The inner loop `for (; j < nr_zones; ++j)` of
`znr_bg_map_zones_to_blockgroups` for one blockgroup.  The list argument is
`zones[j .. nr_zones)`.  The result is `(returned, zone_start_idx, bg)`:
`returned` is true when the loop left the function through
`return -EINVAL` (too many zones). -/
def map_scan (bg_sector_end : Nat) :
    List blk_zone → Nat → Nat → Nat → znr_bg → Bool × Nat × znr_bg
  | [], _, _, zone_start_idx, bg => (false, zone_start_idx, bg)
  | z :: rest, j, bg_zone_idx, zone_start_idx, bg =>
    let zone_sector_end := (z.start + z.len) % U64
    if zone_sector_end ≤ bg.sector then
      map_scan bg_sector_end rest (j + 1) bg_zone_idx (j + 1) bg
    else if z.start ≥ bg_sector_end then
      (false, zone_start_idx, bg)
    else
      let bg1 := { bg with zones := bg.zones.set bg_zone_idx (some j) }
      if bg_zone_idx + 1 ≥ ZNR_BG_MAX_ZONES then
        (true, zone_start_idx, bg1)
      else
        map_scan bg_sector_end rest (j + 1) (bg_zone_idx + 1) zone_start_idx
          { bg1 with nr_zones := bg_zone_idx + 1 }

/-- The outer loop `for (i = 0; i < nr_blockgroups; ++i)` of
`znr_bg_map_zones_to_blockgroups`, from blockgroup `i` on.  The list argument
is `blockgroups[i .. nr_blockgroups)`; the result is the return value and the
new contents of these blockgroups. -/
def map_loop (zones : List blk_zone) : List znr_bg → Nat → Int × List znr_bg
  | [], _ => (0, [])
  | bg :: rest, zone_start_idx =>
    let bg0 := { bg with zones := List.replicate ZNR_BG_MAX_ZONES none, nr_zones := 0 }
    let bg_sector_end := (bg.sector + bg.nr_sectors) % U64
    let j := if zone_start_idx > 1 then zone_start_idx - 1 else 0
    match map_scan bg_sector_end (zones.drop j) j 0 zone_start_idx bg0 with
    | (true, _, bg1) => (-EINVAL, bg1 :: rest)
    | (false, zone_start_idx1, bg1) =>
      if bg1.nr_zones = 0 then
        (-EINVAL, bg1 :: rest)
      else
        let first := zone_at zones (bg1.zones.getD 0 none)
        let bg2 := { bg1 with flags := first.type }
        let bg3 :=
          if bg2.flags = BLK_ZONE_TYPE_SEQWRITE_REQ then
            { bg2 with wp_sector := (first.wp + U64 - bg2.sector) % U64 }
          else
            { bg2 with wp_sector := 0 }
        let r := map_loop zones rest zone_start_idx1
        (r.1, bg3 :: r.2)

/-- Model of `znr_bg_map_zones_to_blockgroups`: the return value and the
blockgroup array after the call.  `g` is the session (`znr.nr_blockgroups`,
`znr.nr_zones`). -/
def znr_bg_map_zones_to_blockgroups (g : znr) (blockgroups : List znr_bg)
    (zones : List blk_zone) : Int × List znr_bg :=
  if zones.length < blockgroups.length then (-EINVAL, blockgroups)
  else if blockgroups.length > g.nr_blockgroups then (-EINVAL, blockgroups)
  else if zones.length > g.nr_zones then (-EINVAL, blockgroups)
  else map_loop zones blockgroups 0

/-! ## `znr_dev_report_zones` (`znr_device.c`) -/

/-- Value of errno `ENOTTY` on Linux. -/
def ENOTTY : Int := 25

/-- Maximum number of zones asked of the kernel in one ioctl
(`znr_device.c`). -/
def ZNR_DEV_REPORT_MAX_NR_ZONES : Nat := 8192

/-- Conversion `(unsigned int)ret` of an `int`. -/
def to_u32 (i : Int) : Nat := (i % (U32 : Int)).toNat

/-- What lies outside the program during a zone report: the answer of the
kernel to the `BLKREPORTZONEV2` and `BLKREPORTZONE` ioctls for a start sector
and a buffer of `nr_zones` descriptors (the zones reported, or errno), and the
answer of the remote server to `znr_net_get_dev_rep_zones` (return value and
zones written). -/
structure report_env where
  ioctl_v2 : Nat → Nat → Except Int (List blk_zone)
  ioctl_legacy : Nat → Nat → Except Int (List blk_zone)
  net_get_dev_rep_zones : Nat → Nat → Int × List blk_zone

/-- The two ioctl attempts of one loop iteration: the cached report first,
the legacy report when the first fails with `ENOTTY`.  The kernel fills at
most `rep_nr_zones` descriptors. -/
def report_ioctl (env : report_env) (sector rep_nr_zones : Nat) : Except Int (List blk_zone) :=
  match env.ioctl_v2 sector rep_nr_zones with
  | .ok zs => .ok (zs.take rep_nr_zones)
  | .error e =>
    if e = ENOTTY then
      match env.ioctl_legacy sector rep_nr_zones with
      | .ok zs => .ok (zs.take rep_nr_zones)
      | .error e1 => .error e1
    else .error e

/-- The copy loop `for (i = 0; i < rep->nr_zones; i++)` of
`znr_dev_report_zones`: the new `n`, the new `sector` and the zones copied to
`zones[n ..]`. -/
def report_copy (nr_zones end_sector : Nat) :
    List blk_zone → Nat → Nat → Nat × Nat × List blk_zone
  | [], n, sector => (n, sector, [])
  | blkz :: rest, n, sector =>
    if n ≥ nr_zones ∨ sector ≥ end_sector then (n, sector, [])
    else
      let r := report_copy nr_zones end_sector rest (n + 1) ((blkz.start + blkz.len) % U64)
      (r.1, r.2.1, blkz :: r.2.2)

/-- The loop `while (n < nr_zones && sector < end_sector)` of
`znr_dev_report_zones`.  Every iteration that does not leave the loop copies
at least one zone, so `nr_zones` iterations (the fuel) are enough.  The result
is the return value and the zones copied to `zones[n ..]`. -/
def report_loop (env : report_env) (nr_zones rep_nr_zones end_sector : Nat) :
    Nat → Nat → Nat → Int × List blk_zone
  | 0, n, _ => ((n : Int), [])
  | fuel + 1, n, sector =>
    if n < nr_zones ∧ sector < end_sector then
      match report_ioctl env sector rep_nr_zones with
      | .error e => (-e, [])
      | .ok [] => ((n : Int), [])
      | .ok (blkz :: rest) =>
        let c := report_copy nr_zones end_sector (blkz :: rest) n sector
        let r := report_loop env nr_zones rep_nr_zones end_sector fuel c.1 c.2.1
        (r.1, c.2.2 ++ r.2)
    else ((n : Int), [])

/-- Model of `znr_dev_report_zones`: the return value and the zones written
to the output buffer from its first element on. -/
def znr_dev_report_zones (env : report_env) (g : znr) (dev : znr_device)
    (start_zone_no nr_zones : Nat) : Int × List blk_zone :=
  if nr_zones = 0 ∨ start_zone_no ≥ dev.nr_zones then (-EINVAL, [])
  else if g.is_net_client then env.net_get_dev_rep_zones start_zone_no nr_zones
  else
    let zone_mask := (dev.zone_sectors + U32 - 1) % U32
    let sector := dev.zone_sectors * start_zone_no
    let end_sector0 := Nat.land ((sector + dev.nr_sectors + zone_mask) % U64) (U64 - 1 - zone_mask)
    let end_sector := if end_sector0 > dev.nr_sectors then dev.nr_sectors else end_sector0
    let rep_nr_zones :=
      if nr_zones < ZNR_DEV_REPORT_MAX_NR_ZONES then nr_zones else ZNR_DEV_REPORT_MAX_NR_ZONES
    report_loop env nr_zones rep_nr_zones end_sector nr_zones 0 sector

/-! ## `znr_bg_to_zno`, `znr_bg_report`, `znr_bg_refresh` (`znr_bg.c`) -/

/-- Model of `znr_bg_to_zno`: the error code, or the zone numbers stored to
`*zno_start` and `*zno_end`.  The quotients are assigned to `unsigned int`
variables.  The result is `none` when the call does not return: with
`dev->zone_sectors = 0` the divisions trap. -/
def znr_bg_to_zno (dev : znr_device) (blockgroup_start blockgroup_end : znr_bg) :
    Option (Except Int (Nat × Nat)) :=
  if blockgroup_start.sector > blockgroup_end.sector then some (.error (-EINVAL))
  else if dev.zone_sectors = 0 then none
  else
    let start_zone_no := (blockgroup_start.sector / dev.zone_sectors) % U32
    let end_zone_no :=
      ((blockgroup_end.sector + blockgroup_end.nr_sectors) % U64 / dev.zone_sectors) % U32
    if end_zone_no > dev.nr_zones then some (.error (-EINVAL))
    else some (.ok (start_zone_no, end_zone_no))

/-- Stores of consecutive zone descriptors `zones[pos] = z0, zones[pos+1] = z1,
...` into the zone array. -/
def store_zones : List blk_zone → Nat → List blk_zone → List blk_zone
  | zones, _, [] => zones
  | zones, pos, z :: rest => store_zones (zones.set pos z) (pos + 1) rest

/-- The state after a call of `znr_bg_report`: return value, blockgroup array,
zone array, and the calls of `znr_dev_report_zones` it made, each as
`(start_zone_no, nr_zones)`.  The return value is `none` when the call does
not return because the division in `znr_bg_to_zno` traps; the other fields
then hold the state at the trap. -/
structure report_result where
  ret : Option Int
  blockgroups : List znr_bg
  zones : List blk_zone
  reports : List (Nat × Nat)

/-- Model of `znr_bg_report`.  The blockgroup array is `blockgroups` with
`nr_blockgroups` its length; `zones` is the session zone array.  A zone pointer
stored by the mapping is the index of the zone in the array `&zones[start_zone_no]`
handed to the mapping. -/
def znr_bg_report (env : report_env) (g : znr) (dev : znr_device) (zones : List blk_zone)
    (max_zones : Nat) (blockgroups : List znr_bg) (blockgroup_no : Nat) : report_result :=
  let nr_blockgroups := blockgroups.length
  if nr_blockgroups = 0 ∨ (blockgroup_no + nr_blockgroups) % U32 > g.nr_blockgroups then
    ⟨some (-EINVAL), blockgroups, zones, []⟩
  else if ¬ dev.is_zoned then
    ⟨some (nr_blockgroups : Int),
      blockgroups.map (fun bg => { bg with flags := BLK_ZONE_TYPE_CONVENTIONAL }), zones, []⟩
  else if max_zones = 0 ∨ max_zones > dev.nr_zones then
    ⟨some (-EINVAL), blockgroups, zones, []⟩
  else
    let last := blockgroups.getD (nr_blockgroups - 1) default
    let max_sector := (last.sector + last.nr_sectors) % U64
    if max_sector > dev.nr_sectors then ⟨some (-EINVAL), blockgroups, zones, []⟩
    else
      match znr_bg_to_zno dev (blockgroups.getD 0 default) last with
      | none => ⟨none, blockgroups, zones, []⟩
      | some (.error e) => ⟨some e, blockgroups, zones, []⟩
      | some (.ok (start_zone_no, last_zone_no)) =>
        let nr_zones := (last_zone_no + U32 - start_zone_no) % U32
        if nr_zones = 0 ∨ nr_zones > max_zones then ⟨some (-EINVAL), blockgroups, zones, []⟩
        else
          let rep := znr_dev_report_zones env g dev start_zone_no nr_zones
          let zones1 := store_zones zones start_zone_no rep.2
          if to_u32 rep.1 ≠ nr_zones then
            ⟨some (-EINVAL), blockgroups, zones1, [(start_zone_no, nr_zones)]⟩
          else
            let m := znr_bg_map_zones_to_blockgroups g blockgroups
              ((zones1.drop start_zone_no).take nr_zones)
            if m.1 ≠ 0 then ⟨some m.1, m.2, zones1, [(start_zone_no, nr_zones)]⟩
            else ⟨some (nr_blockgroups : Int), m.2, zones1, [(start_zone_no, nr_zones)]⟩

/-- Model of `znr_bg_refresh`. -/
def znr_bg_refresh (env : report_env) (g : znr) (dev : znr_device) (zones : List blk_zone)
    (max_zones : Nat) (blockgroups : List znr_bg) (blockgroup_no : Nat) : report_result :=
  znr_bg_report env g dev zones max_zones blockgroups blockgroup_no

/-! ## Wire codec: requests (`znr_net.h`, `znr_net.c`) -/

/-- Value of errno `ECONNRESET` on Linux. -/
def ECONNRESET : Int := 104

/-- Size of a path buffer (`PATH_MAX` of `linux/limits.h`). -/
def PATH_MAX : Nat := 4096

/-- The request and reply magic `ZNR_NET_MAGIC`: the characters `z`, `o`, `n`,
`e` from the most significant byte down. -/
def ZNR_NET_MAGIC : Nat := 122 * 2 ^ 24 + 111 * 2 ^ 16 + 110 * 2 ^ 8 + 101

/-- Request identifier `ZNR_NET_MNTDIR_INFO` of `enum znr_net_req_id`. -/
def ZNR_NET_MNTDIR_INFO : Nat := 1

/-- Request identifier `ZNR_NET_DEV_INFO`. -/
def ZNR_NET_DEV_INFO : Nat := 2

/-- Request identifier `ZNR_NET_DEV_REP_ZONES`. -/
def ZNR_NET_DEV_REP_ZONES : Nat := 3

/-- Request identifier `ZNR_NET_FILE_EXTENTS`. -/
def ZNR_NET_FILE_EXTENTS : Nat := 4

/-- Request identifier `ZNR_NET_EXTENTS_IN_RANGE`. -/
def ZNR_NET_EXTENTS_IN_RANGE : Nat := 5

/-- Request identifier `ZNR_NET_BLOCKGROUPS`. -/
def ZNR_NET_BLOCKGROUPS : Nat := 6

/-- The four bytes of a 32-bit value, most significant first. -/
def be32 (x : Nat) : List Nat := [x / 2 ^ 24 % 256, x / 2 ^ 16 % 256, x / 2 ^ 8 % 256, x % 256]

/-- The eight bytes of a 64-bit value, most significant first. -/
def be64 (x : Nat) : List Nat := be32 (x / 2 ^ 32) ++ be32 (x % 2 ^ 32)

/-- The bytes a 32-bit field occupies in the memory of the host: least
significant byte first on a little-endian host (`le = true`), most significant
first on a big-endian one. -/
def store32 (le : Bool) (v : Nat) : List Nat := if le then (be32 v).reverse else be32 v

/-- The bytes a 64-bit field occupies in the memory of the host. -/
def store64 (le : Bool) (v : Nat) : List Nat := if le then (be64 v).reverse else be64 v

/-- Read of a 32-bit field from the first four bytes of a buffer: the value
the host sees and the bytes that follow. -/
def load32 (le : Bool) : List Nat → Nat × List Nat
  | b0 :: b1 :: b2 :: b3 :: rest =>
    (if le then b3 * 2 ^ 24 + b2 * 2 ^ 16 + b1 * 2 ^ 8 + b0
      else b0 * 2 ^ 24 + b1 * 2 ^ 16 + b2 * 2 ^ 8 + b3, rest)
  | _ => (0, [])

/-- Read of a 64-bit field from the first eight bytes of a buffer. -/
def load64 (le : Bool) : List Nat → Nat × List Nat
  | b0 :: b1 :: b2 :: b3 :: b4 :: b5 :: b6 :: b7 :: rest =>
    (if le then
        b7 * 2 ^ 56 + b6 * 2 ^ 48 + b5 * 2 ^ 40 + b4 * 2 ^ 32 +
          b3 * 2 ^ 24 + b2 * 2 ^ 16 + b1 * 2 ^ 8 + b0
      else
        b0 * 2 ^ 56 + b1 * 2 ^ 48 + b2 * 2 ^ 40 + b3 * 2 ^ 32 +
          b4 * 2 ^ 24 + b5 * 2 ^ 16 + b6 * 2 ^ 8 + b7, rest)
  | _ => (0, [])

/-- The libc function `htonl`: the 32-bit value whose bytes in host memory are
the big-endian bytes of the argument (the argument is converted to
`uint32_t`). -/
def htonl (le : Bool) (x : Nat) : Nat := (load32 le (be32 (x % U32))).1

/-- The libc function `ntohl`: the 32-bit value whose big-endian bytes are the
bytes of the argument in host memory. -/
def ntohl (le : Bool) (x : Nat) : Nat := (load32 false (store32 le (x % U32))).1

/-- The macro `htonll` of `znr_net.h`: the identity on a big-endian host,
otherwise `((__u64)htonl(x & 0xFFFFFFFF) << 32) | htonl(x >> 32)`. -/
def htonll (le : Bool) (x : Nat) : Nat :=
  if le then (htonl le (x &&& 0xFFFFFFFF) <<< 32) ||| htonl le (x >>> 32) else x

/-- The macro `ntohll` of `znr_net.h`. -/
def ntohll (le : Bool) (x : Nat) : Nat :=
  if le then (ntohl le (x &&& 0xFFFFFFFF) <<< 32) ||| ntohl le (x >>> 32) else x

/-- The request header `struct znr_net_req` (packed); `path` is the array of
`PATH_MAX` bytes. -/
structure znr_net_req where
  magic : Nat
  id : Nat
  zno : Nat
  nr_zones : Nat
  sector : Nat
  nr_sectors : Nat
  path : List Nat
deriving DecidableEq, Repr, Inhabited

/-- Size of `struct znr_net_req` in bytes. -/
def sizeof_znr_net_req : Nat := 4 + 4 + 4 + 4 + 8 + 8 + PATH_MAX

/-- The bytes of a request header in host memory, as `znr_net_send` transmits
them. -/
def req_bytes (le : Bool) (req : znr_net_req) : List Nat :=
  store32 le req.magic ++ (store32 le req.id ++ (store32 le req.zno ++
    (store32 le req.nr_zones ++ (store64 le req.sector ++ (store64 le req.nr_sectors ++
      req.path)))))

/-- The request header a host sees in a buffer of received bytes. -/
def req_of_bytes (le : Bool) (buf : List Nat) : znr_net_req :=
  let magic := load32 le buf
  let id := load32 le magic.2
  let zno := load32 le id.2
  let nr_zones := load32 le zno.2
  let sector := load64 le nr_zones.2
  let nr_sectors := load64 le sector.2
  { magic := magic.1, id := id.1, zno := zno.1, nr_zones := nr_zones.1, sector := sector.1,
    nr_sectors := nr_sectors.1, path := nr_sectors.2.take PATH_MAX }

/-- The characters of a C string held in a byte buffer: the bytes before the
first NUL. -/
def cstr (s : List Nat) : List Nat := s.takeWhile (fun c => c ≠ 0)

/-- The libc function `strncpy(dst, src, n)`: the first `n` bytes of `dst`
become the string `src` cut to `n` characters and padded with NUL. -/
def strncpy (dst src : List Nat) (n : Nat) : List Nat :=
  ((cstr src).take n ++ List.replicate (n - (cstr src).length) 0) ++ dst.drop n

/-- Model of `znr_net_send_req` on a host of the given byte order: the bytes
handed to `znr_net_send`.  `path` is `none` for a NULL pointer. -/
def znr_net_send_req (le : Bool) (id zno nr_zones sector nr_sectors : Nat)
    (path : Option (List Nat)) : List Nat :=
  let req : znr_net_req :=
    { magic := htonl le ZNR_NET_MAGIC, id := htonl le id, zno := htonl le zno,
      nr_zones := htonl le nr_zones, sector := htonll le sector,
      nr_sectors := htonll le nr_sectors, path := List.replicate PATH_MAX 0 }
  let req1 :=
    match path with
    | some p => { req with path := strncpy req.path p (PATH_MAX - 1) }
    | none => req
  req_bytes le req1

/-- Model of `znr_net_recv_req` on a host of the given byte order, for the
bytes that arrive before the connection ends: the return value and the
contents of `*req`. -/
def znr_net_recv_req (le : Bool) (wire : List Nat) : Int × znr_net_req :=
  if wire.length < sizeof_znr_net_req then
    (-ECONNRESET,
      req_of_bytes le (wire ++ List.replicate (sizeof_znr_net_req - wire.length) 0))
  else
    let req0 := req_of_bytes le wire
    let req1 := { req0 with magic := ntohl le req0.magic }
    if req1.magic ≠ ZNR_NET_MAGIC then (-1, req1)
    else
      let req2 := { req1 with id := ntohl le req1.id }
      if req2.id = ZNR_NET_MNTDIR_INFO ∨ req2.id = ZNR_NET_DEV_INFO ∨
          req2.id = ZNR_NET_FILE_EXTENTS ∨ req2.id = ZNR_NET_BLOCKGROUPS then
        (0, req2)
      else if req2.id = ZNR_NET_DEV_REP_ZONES then
        (0, { req2 with zno := ntohl le req2.zno, nr_zones := ntohl le req2.nr_zones })
      else if req2.id = ZNR_NET_EXTENTS_IN_RANGE then
        (0, { req2 with zno := ntohl le req2.zno, sector := ntohll le req2.sector,
                        nr_sectors := ntohll le req2.nr_sectors })
      else (-1, req2)

/-! ## Wire codec: replies (`znr_net.h`, `znr_net.c`)

The transport is taken to deliver every byte handed to `znr_net_send`, so the
sending functions are modelled by the bytes they transmit and return 0. -/

/-- Conversion of a 32-bit unsigned value to `int`. -/
def to_i32 (x : Nat) : Int :=
  if x % U32 < 2 ^ 31 then ((x % U32 : Nat) : Int) else ((x % U32 : Nat) : Int) - (U32 : Int)

/-- Maximum length of the vendor string (`znr_device.h`). -/
def ZNR_DEV_VENDOR_ID_LEN : Nat := 32

/-- Size of the annotation string of an extent (`znr_fs.h`). -/
def ZNR_FS_EXT_INFO_SIZE : Nat := 352

/-- The reply header `struct znr_net_rep` (packed). -/
structure znr_net_rep where
  magic : Nat
  id : Nat
  err : Nat
  data_size : Nat
deriving DecidableEq, Repr, Inhabited

/-- Size of `struct znr_net_rep` in bytes. -/
def sizeof_znr_net_rep : Nat := 4 + 4 + 4 + 4

/-- The bytes of a reply header in host memory. -/
def rep_bytes (le : Bool) (rep : znr_net_rep) : List Nat :=
  store32 le rep.magic ++ (store32 le rep.id ++ (store32 le rep.err ++ store32 le rep.data_size))

/-- Model of `znr_net_send_rep`: the bytes transmitted, the header followed by
`data_size` bytes of `data` when there is no error. -/
def znr_net_send_rep (le : Bool) (id : Nat) (err : Int) (data : List Nat) (data_size : Nat) :
    List Nat :=
  let data_size1 := if err ≠ 0 then 0 else data_size
  rep_bytes le
      { magic := htonl le ZNR_NET_MAGIC, id := htonl le id, err := htonl le (to_u32 err),
        data_size := htonl le data_size1 } ++
    (if data_size1 ≠ 0 then data.take data_size1 else [])

/-- What `znr_net_recv_rep` hands back: the return value, `*err`, `*data`
(`none` for NULL), `*data_size`, and the bytes of the stream it has not read. -/
structure recv_rep_result where
  ret : Int
  err : Int
  data : Option (List Nat)
  data_size : Nat
  rest : List Nat
deriving DecidableEq, Repr, Inhabited

/-- Model of `znr_net_recv_rep` for a reply to the request `id`; `wire` holds
the bytes that arrive before the connection ends. -/
def znr_net_recv_rep (le : Bool) (id : Nat) (wire : List Nat) : recv_rep_result :=
  if wire.length < sizeof_znr_net_rep then ⟨-ECONNRESET, 0, none, 0, []⟩
  else
    let magic := load32 le wire
    let rid := load32 le magic.2
    let rerr := load32 le rid.2
    let rsize := load32 le rerr.2
    if ntohl le magic.1 ≠ ZNR_NET_MAGIC then ⟨-1, 0, none, 0, rsize.2⟩
    else if ntohl le rid.1 ≠ id then ⟨-1, 0, none, 0, rsize.2⟩
    else if to_i32 (ntohl le rerr.1) ≠ 0 then ⟨0, to_i32 (ntohl le rerr.1), none, 0, rsize.2⟩
    else if ntohl le rsize.1 ≠ 0 then
      if rsize.2.length < ntohl le rsize.1 then ⟨-ECONNRESET, 0, none, 0, []⟩
      else
        ⟨0, 0, some (rsize.2.take (ntohl le rsize.1)), ntohl le rsize.1,
          rsize.2.drop (ntohl le rsize.1)⟩
    else ⟨0, 0, none, 0, rsize.2⟩

/-! ### Device information -/

/-- The payload `struct znr_net_dev_info` (packed); `path` holds `PATH_MAX`
bytes, `vendor_id` holds `ZNR_DEV_VENDOR_ID_LEN + 1` bytes, `is_zoned` is a
byte. -/
structure znr_net_dev_info where
  path : List Nat
  vendor_id : List Nat
  nr_sectors : Nat
  nr_lblocks : Nat
  nr_pblocks : Nat
  zone_size : Nat
  zone_sectors : Nat
  lblock_size : Nat
  pblock_size : Nat
  nr_zones : Nat
  max_nr_open_zones : Nat
  max_nr_active_zones : Nat
  is_zoned : Nat
deriving DecidableEq, Repr, Inhabited

/-- Size of `struct znr_net_dev_info` in bytes. -/
def sizeof_znr_net_dev_info : Nat :=
  PATH_MAX + (ZNR_DEV_VENDOR_ID_LEN + 1) + 4 * 8 + 6 * 4 + 1

/-- The bytes of a device information payload in host memory. -/
def dev_info_bytes (le : Bool) (di : znr_net_dev_info) : List Nat :=
  di.path ++ (di.vendor_id ++ (store64 le di.nr_sectors ++ (store64 le di.nr_lblocks ++
    (store64 le di.nr_pblocks ++ (store64 le di.zone_size ++ (store32 le di.zone_sectors ++
      (store32 le di.lblock_size ++ (store32 le di.pblock_size ++ (store32 le di.nr_zones ++
        (store32 le di.max_nr_open_zones ++ (store32 le di.max_nr_active_zones ++
          [di.is_zoned])))))))))))

/-- The device information payload a host sees in a buffer of received
bytes. -/
def dev_info_of_bytes (le : Bool) (buf : List Nat) : znr_net_dev_info :=
  let b1 := buf.drop PATH_MAX
  let b2 := b1.drop (ZNR_DEV_VENDOR_ID_LEN + 1)
  let nr_sectors := load64 le b2
  let nr_lblocks := load64 le nr_sectors.2
  let nr_pblocks := load64 le nr_lblocks.2
  let zone_size := load64 le nr_pblocks.2
  let zone_sectors := load32 le zone_size.2
  let lblock_size := load32 le zone_sectors.2
  let pblock_size := load32 le lblock_size.2
  let nr_zones := load32 le pblock_size.2
  let max_nr_open_zones := load32 le nr_zones.2
  let max_nr_active_zones := load32 le max_nr_open_zones.2
  { path := buf.take PATH_MAX, vendor_id := b1.take (ZNR_DEV_VENDOR_ID_LEN + 1),
    nr_sectors := nr_sectors.1, nr_lblocks := nr_lblocks.1, nr_pblocks := nr_pblocks.1,
    zone_size := zone_size.1, zone_sectors := zone_sectors.1, lblock_size := lblock_size.1,
    pblock_size := pblock_size.1, nr_zones := nr_zones.1,
    max_nr_open_zones := max_nr_open_zones.1, max_nr_active_zones := max_nr_active_zones.1,
    is_zoned := max_nr_active_zones.2.headD 0 }

/-- Model of `znr_net_send_dev_info_rep`: the bytes transmitted for the
session device path `znr.dev_path`, the vendor string `dev->vendor_id` and the
device descriptor. -/
def znr_net_send_dev_info_rep (le : Bool) (dev_path vendor_id : List Nat) (dev : znr_device) :
    List Nat :=
  let di : znr_net_dev_info :=
    { path := strncpy (List.replicate PATH_MAX 0) dev_path (PATH_MAX - 1),
      vendor_id := strncpy (List.replicate (ZNR_DEV_VENDOR_ID_LEN + 1) 0) vendor_id
        (ZNR_DEV_VENDOR_ID_LEN + 1),
      nr_sectors := htonll le dev.nr_sectors, nr_lblocks := htonll le dev.nr_lblocks,
      nr_pblocks := htonll le dev.nr_pblocks, zone_size := htonll le dev.zone_size,
      zone_sectors := htonl le dev.zone_sectors, lblock_size := htonl le dev.lblock_size,
      pblock_size := htonl le dev.pblock_size, nr_zones := htonl le dev.nr_zones,
      max_nr_open_zones := htonl le dev.max_nr_open_zones,
      max_nr_active_zones := htonl le dev.max_nr_active_zones,
      is_zoned := if dev.is_zoned then 1 else 0 }
  znr_net_send_rep le ZNR_NET_DEV_INFO 0 (dev_info_bytes le di) sizeof_znr_net_dev_info

/-- The state `znr_net_get_dev_info` leaves: the return value, the session
device path `znr.dev_path`, the vendor buffer and the device descriptor. -/
structure dev_info_result where
  ret : Int
  dev_path : Option (List Nat)
  vendor_id : List Nat
  dev : znr_device
deriving DecidableEq, Repr, Inhabited

/-- Model of the reply handling of `znr_net_get_dev_info` on the client:
`dev_path0`, `vendor0` and `dev0` are the session values before the call,
`reply` the bytes the server sent. -/
def znr_net_get_dev_info (le : Bool) (dev_path0 : Option (List Nat)) (vendor0 : List Nat)
    (dev0 : znr_device) (reply : List Nat) : dev_info_result :=
  let r := znr_net_recv_rep le ZNR_NET_DEV_INFO reply
  if r.ret ≠ 0 then ⟨r.ret, dev_path0, vendor0, dev0⟩
  else if r.err ≠ 0 then ⟨-1, dev_path0, vendor0, dev0⟩
  else if r.data_size ≠ sizeof_znr_net_dev_info then ⟨-1, dev_path0, vendor0, dev0⟩
  else
    let di := dev_info_of_bytes le (r.data.getD [])
    ⟨0, some (cstr di.path), strncpy vendor0 di.vendor_id (ZNR_DEV_VENDOR_ID_LEN + 1),
      { nr_sectors := ntohll le di.nr_sectors, nr_lblocks := ntohll le di.nr_lblocks,
        nr_pblocks := ntohll le di.nr_pblocks, zone_size := ntohll le di.zone_size,
        zone_sectors := ntohl le di.zone_sectors, lblock_size := ntohl le di.lblock_size,
        pblock_size := ntohl le di.pblock_size, nr_zones := ntohl le di.nr_zones,
        max_nr_open_zones := ntohl le di.max_nr_open_zones,
        max_nr_active_zones := ntohl le di.max_nr_active_zones,
        is_zoned := decide (di.is_zoned ≠ 0) }⟩

/-! ### Extents (`znr_fs.h`) -/

/-- The extent record `struct znr_extent` (packed): `type` is the 32-bit
enumeration value, `info` holds `ZNR_FS_EXT_INFO_SIZE` bytes. -/
structure znr_extent where
  type : Nat
  idx : Nat
  ino : Nat
  sector : Nat
  nr_sectors : Nat
  info : List Nat
deriving DecidableEq, Repr, Inhabited

/-- Size of `struct znr_extent` in bytes. -/
def sizeof_znr_extent : Nat := 4 + 4 + 8 + 8 + 8 + ZNR_FS_EXT_INFO_SIZE

/-- The bytes of one extent record in host memory. -/
def extent_bytes (le : Bool) (e : znr_extent) : List Nat :=
  store32 le e.type ++ (store32 le e.idx ++ (store64 le e.ino ++ (store64 le e.sector ++
    (store64 le e.nr_sectors ++ e.info))))

/-- The bytes of an array of extent records in host memory. -/
def extents_bytes (le : Bool) : List znr_extent → List Nat
  | [] => []
  | e :: rest => extent_bytes le e ++ extents_bytes le rest

/-- The extent record a host sees at the start of a buffer. -/
def extent_of_bytes (le : Bool) (buf : List Nat) : znr_extent :=
  let type := load32 le buf
  let idx := load32 le type.2
  let ino := load64 le idx.2
  let sector := load64 le ino.2
  let nr_sectors := load64 le sector.2
  { type := type.1, idx := idx.1, ino := ino.1, sector := sector.1,
    nr_sectors := nr_sectors.1, info := nr_sectors.2.take ZNR_FS_EXT_INFO_SIZE }

/-- The array of `n` extent records a host sees in a buffer. -/
def extents_of_bytes (le : Bool) : Nat → List Nat → List znr_extent
  | 0, _ => []
  | n + 1, buf => extent_of_bytes le buf :: extents_of_bytes le n (buf.drop sizeof_znr_extent)

/-- The conversion loop of the extent senders: `idx`, `sector`, `nr_sectors`
and `ino` of every record go through `htonl` or `htonll`. -/
def extents_hton (le : Bool) (extents : List znr_extent) : List znr_extent :=
  extents.map fun ext =>
    { ext with idx := htonl le ext.idx, sector := htonll le ext.sector,
               nr_sectors := htonll le ext.nr_sectors, ino := htonll le ext.ino }

/-- The conversion loop of the extent receivers. -/
def extents_ntoh (le : Bool) (extents : List znr_extent) : List znr_extent :=
  extents.map fun ext =>
    { ext with idx := ntohl le ext.idx, sector := ntohll le ext.sector,
               nr_sectors := ntohll le ext.nr_sectors, ino := ntohll le ext.ino }

/-- The filesystem layer as the server handlers see it: each function gives
its return value and the array it hands back (the count is the length). -/
structure fs_env where
  get_file_extents_by_path : List Nat → Int × List znr_extent
  get_extents_in_range : Nat → Nat → Int × List znr_extent
  get_blockgroups : Int × List znr_bg

/-- Model of `znr_net_send_file_extents_rep`: the bytes transmitted. -/
def znr_net_send_file_extents_rep (le : Bool) (fs : fs_env) (req : znr_net_req) : List Nat :=
  let r := fs.get_file_extents_by_path (cstr req.path)
  if r.1 < 0 then znr_net_send_rep le ZNR_NET_FILE_EXTENTS (-r.1) [] 0
  else
    let nr_extents := r.2.length
    let extents := if nr_extents ≠ 0 then extents_hton le r.2 else r.2
    let data_size := if nr_extents ≠ 0 then (nr_extents * sizeof_znr_extent) % U32 else 0
    znr_net_send_rep le ZNR_NET_FILE_EXTENTS 0 (extents_bytes le extents) data_size

/-- What the range handler does: the bytes transmitted and the calls of
`znr_fs_get_extents_in_range` as `(sector, nr_sectors)`. -/
structure range_rep_result where
  wire : List Nat
  queries : List (Nat × Nat)
deriving DecidableEq, Repr, Inhabited

/-- Model of `znr_net_send_extents_in_range_rep`. -/
def znr_net_send_extents_in_range_rep (le : Bool) (fs : fs_env) (req : znr_net_req) :
    range_rep_result :=
  let r := fs.get_extents_in_range req.sector req.nr_sectors
  let queries := [(req.sector, req.nr_sectors)]
  if r.1 < 0 then ⟨znr_net_send_rep le ZNR_NET_EXTENTS_IN_RANGE (-r.1) [] 0, queries⟩
  else
    let nr_extents := r.2.length
    let extents := if nr_extents ≠ 0 then extents_hton le r.2 else r.2
    let data_size := if nr_extents ≠ 0 then (nr_extents * sizeof_znr_extent) % U32 else 0
    ⟨znr_net_send_rep le ZNR_NET_EXTENTS_IN_RANGE 0 (extents_bytes le extents) data_size,
      queries⟩

/-- Model of the reply handling shared by `znr_net_get_file_extents` and
`znr_net_get_extents_in_range` once the request is sent: the return value and
the array left in `*extents` (empty for NULL). -/
def recv_extents (le : Bool) (id : Nat) (reply : List Nat) : Int × List znr_extent :=
  let r := znr_net_recv_rep le id reply
  if r.ret ≠ 0 then (r.ret, [])
  else if r.err ≠ 0 then (-1, [])
  else if r.data_size % sizeof_znr_extent ≠ 0 then (-1, [])
  else
    let nr_ext := (r.data_size / sizeof_znr_extent) % U32
    (r.ret, extents_ntoh le (extents_of_bytes le nr_ext (r.data.getD [])))

/-- Model of `znr_net_get_file_extents` on the client; `path` is `none` for a
NULL pointer, `reply` the bytes the server sends back. -/
def znr_net_get_file_extents (le : Bool) (path : Option (List Nat)) (reply : List Nat) :
    Int × List znr_extent :=
  match path with
  | none => (-1, [])
  | some p =>
    if (cstr p).length = 0 then (-1, [])
    else recv_extents le ZNR_NET_FILE_EXTENTS reply

/-- Model of `znr_net_get_extents_in_range` on the client, for a device of
`dev.nr_sectors` sectors. -/
def znr_net_get_extents_in_range (le : Bool) (dev : znr_device) (sector nr_sectors : Nat)
    (reply : List Nat) : Int × List znr_extent :=
  if sector ≥ dev.nr_sectors ∨ (sector + nr_sectors) % U64 > dev.nr_sectors then
    (-(EINVAL : Int), [])
  else recv_extents le ZNR_NET_EXTENTS_IN_RANGE reply

/-! ### Blockgroups -/

/-- Size of `struct znr_bg` in bytes: three 64-bit fields, the 32-bit flags
with four bytes of padding, `ZNR_BG_MAX_ZONES` pointers and the 64-bit
`nr_zones`. -/
def sizeof_znr_bg : Nat := 8 + 8 + 8 + 4 + 4 + ZNR_BG_MAX_ZONES * 8 + 8

/-- The value of a zone pointer when the zone array starts at address
`base`; a zone record takes 64 bytes. -/
def zone_ptr (base : Nat) : Option Nat → Nat
  | none => 0
  | some j => base + 64 * j

/-- The bytes of the pointer array of a blockgroup in host memory. -/
def zone_ptrs_bytes (le : Bool) (base : Nat) : List (Option Nat) → List Nat
  | [] => []
  | p :: rest => store64 le (zone_ptr base p) ++ zone_ptrs_bytes le base rest

/-- The bytes of one blockgroup record in host memory (padding zero). -/
def bg_bytes (le : Bool) (base : Nat) (bg : znr_bg) : List Nat :=
  store64 le bg.sector ++ (store64 le bg.nr_sectors ++ (store64 le bg.wp_sector ++
    (store32 le bg.flags ++ (List.replicate 4 0 ++
      (zone_ptrs_bytes le base bg.zones ++ store64 le bg.nr_zones)))))

/-- The bytes of an array of blockgroup records in host memory. -/
def bgs_bytes (le : Bool) (base : Nat) : List znr_bg → List Nat
  | [] => []
  | bg :: rest => bg_bytes le base bg ++ bgs_bytes le base rest

/-- Model of `znr_net_send_blockgroups`: the bytes transmitted, the count
reply followed by the array reply, or one error reply. -/
def znr_net_send_blockgroups (le : Bool) (base : Nat) (fs : fs_env) : List Nat :=
  let r := fs.get_blockgroups
  if r.1 < 0 then znr_net_send_rep le ZNR_NET_BLOCKGROUPS r.1 [] 0
  else
    let nr_blockgroups := r.2.length
    let bg := r.2.map fun bg =>
      { bg with sector := htonll le bg.sector, nr_sectors := htonll le bg.nr_sectors,
                wp_sector := htonll le bg.wp_sector, flags := htonl le bg.flags }
    znr_net_send_rep le ZNR_NET_BLOCKGROUPS 0 (store32 le nr_blockgroups) 4 ++
      znr_net_send_rep le ZNR_NET_BLOCKGROUPS 0 (bgs_bytes le base bg)
        ((sizeof_znr_bg * nr_blockgroups) % U32)

/-! ### Zone reports -/

/-- Size of `struct blk_zone` in bytes. -/
def sizeof_blk_zone : Nat := 64

/-- The bytes of one zone record in host memory (reserved bytes zero). -/
def blk_zone_bytes (le : Bool) (z : blk_zone) : List Nat :=
  store64 le z.start ++ (store64 le z.len ++ (store64 le z.wp ++
    ([z.type, z.cond, z.non_seq, z.reset] ++ (List.replicate 4 0 ++
      (store64 le z.capacity ++ List.replicate 24 0)))))

/-- The bytes of an array of zone records in host memory. -/
def blk_zones_bytes (le : Bool) : List blk_zone → List Nat
  | [] => []
  | z :: rest => blk_zone_bytes le z ++ blk_zones_bytes le rest

/-- Apply `f` to the `count` records of an array from index `start` on. -/
def update_range (f : blk_zone → blk_zone) (zones : List blk_zone) (start count : Nat) :
    List blk_zone :=
  zones.take start ++ ((zones.drop start).take count).map f ++ (zones.drop start).drop count

/-- The conversion of the zone handler: `start`, `len`, `wp` and `capacity`
go through `conv`, which is `htonll` before sending and `ntohll` after. -/
def blk_zone_conv (conv : Nat → Nat) (z : blk_zone) : blk_zone :=
  { z with start := conv z.start, len := conv z.len, wp := conv z.wp,
           capacity := conv z.capacity }

/-- What the zone report handler does: the bytes transmitted, the session
zone array `znr.blk_zones` afterwards, and the calls of `znr_dev_report_zones`
as `(start_zone_no, nr_zones)`. -/
structure rep_zones_result where
  wire : List Nat
  zones : List blk_zone
  reports : List (Nat × Nat)
deriving DecidableEq, Repr, Inhabited

/-- Model of `znr_net_send_dev_rep_zones_rep` for the session device `dev` and
the session zone array `zones`. -/
def znr_net_send_dev_rep_zones_rep (le : Bool) (env : report_env) (g : znr) (dev : znr_device)
    (zones : List blk_zone) (req : znr_net_req) : rep_zones_result :=
  let zno := req.zno % U32
  let nr_zones := req.nr_zones % U32
  if zno ≥ dev.nr_zones then
    ⟨znr_net_send_rep le ZNR_NET_DEV_REP_ZONES EINVAL (blk_zones_bytes le (zones.drop zno)) 0,
      zones, []⟩
  else if nr_zones = 0 ∨ (zno + nr_zones + U32 - 1) % U32 ≥ dev.nr_zones then
    ⟨znr_net_send_rep le ZNR_NET_DEV_REP_ZONES EINVAL (blk_zones_bytes le (zones.drop zno)) 0,
      zones, []⟩
  else
    let r := znr_dev_report_zones env g dev zno nr_zones
    let reports := [(zno, nr_zones)]
    let zones1 := store_zones zones zno r.2
    if r.1 < 0 then
      ⟨znr_net_send_rep le ZNR_NET_DEV_REP_ZONES (-r.1) (blk_zones_bytes le (zones1.drop zno)) 0,
        zones1, reports⟩
    else if to_u32 r.1 ≠ nr_zones then
      ⟨znr_net_send_rep le ZNR_NET_DEV_REP_ZONES EINVAL (blk_zones_bytes le (zones1.drop zno)) 0,
        zones1, reports⟩
    else
      let zones2 := update_range (blk_zone_conv (htonll le)) zones1 zno nr_zones
      let data_size := (nr_zones * sizeof_blk_zone) % U32
      ⟨znr_net_send_rep le ZNR_NET_DEV_REP_ZONES 0 (blk_zones_bytes le (zones2.drop zno))
          data_size,
        if data_size ≠ 0 then update_range (blk_zone_conv (ntohll le)) zones2 zno nr_zones
        else zones2,
        reports⟩

/-! ## XFS provider (`znr_xfs.c`)

The filesystem geometry `fs_geo` and the answers of the kernel are parameters.
Signed 64-bit products (`off_t`) wrap, as they do in the compiled program. -/

/-- Value of errno `EIO` on Linux. -/
def EIO : Int := 5

/-- Value of errno `ENODEV` on Linux. -/
def ENODEV : Int := 19

/-- Value of errno `ENOSPC` on Linux. -/
def ENOSPC : Int := 28

/-- Value of errno `ENOTSUP` on Linux. -/
def ENOTSUP : Int := 95

/-- Size of a basic block (`BBSIZE` of `xfs/xfs.h`). -/
def BBSIZE : Nat := 512

/-- Largest `unsigned int`. -/
def UINT_MAX : Nat := U32 - 1

/-- Conversion of an integer to a signed 64-bit value (`off_t`, `long long`). -/
def to_i64 (x : Int) : Int := (x + 2 ^ 63) % 2 ^ 64 - 2 ^ 63

/-- Conversion of an integer to an unsigned 64-bit value. -/
def to_u64 (x : Int) : Nat := (x % 2 ^ 64).toNat

/-- The fields of `struct xfs_fsop_geom` the provider reads: `rtstart` is a
64-bit value, the others are 32-bit values. -/
structure xfs_fsop_geom where
  blocksize : Nat
  rtextsize : Nat
  agblocks : Nat
  agcount : Nat
  rgextents : Nat
  rgcount : Nat
  rtstart : Nat
deriving DecidableEq, Repr, Inhabited

/-- Model of `bytes_per_rtgroup`. -/
def bytes_per_rtgroup (fsgeo : xfs_fsop_geom) : Nat :=
  if fsgeo.rgcount = 0 then 0
  else (fsgeo.rgextents * fsgeo.rtextsize * fsgeo.blocksize) % U64

/-- The product `(off_t)a * (off_t)b` of the provider. -/
def off_t_mul (a b : Nat) : Int := to_i64 (to_i64 a * to_i64 b)

/-- Model of `znr_xfs_get_nr_blockgroups`: the error code or the value stored
to `*nr_blockgroups`. -/
def znr_xfs_get_nr_blockgroups (fs_geo : xfs_fsop_geom) : Except Int Nat :=
  if fs_geo.blocksize = 0 then .error (-ENODEV)
  else
    let nr_bgs := (fs_geo.agcount + fs_geo.rgcount) % U64
    if nr_bgs > UINT_MAX then .error (-ENOSPC)
    else .ok nr_bgs

/-- A blockgroup record as `calloc` leaves it. -/
def zero_bg : znr_bg :=
  { sector := 0, nr_sectors := 0, wp_sector := 0, flags := 0,
    zones := List.replicate ZNR_BG_MAX_ZONES none, nr_zones := 0 }

/-- The local `bbperag` of `znr_xfs_get_blockgroups`. -/
def xfs_bbperag (fs_geo : xfs_fsop_geom) : Nat :=
  to_u64 (Int.tdiv (off_t_mul fs_geo.agblocks fs_geo.blocksize) BBSIZE)

/-- The local `bbperrg` of `znr_xfs_get_blockgroups`. -/
def xfs_bbperrg (fs_geo : xfs_fsop_geom) : Nat := bytes_per_rtgroup fs_geo / BBSIZE

/-- The local `rtstart` of `znr_xfs_get_blockgroups`. -/
def xfs_rtstart (fs_geo : xfs_fsop_geom) : Nat :=
  to_u64 (Int.tdiv (off_t_mul fs_geo.rtstart fs_geo.blocksize) BBSIZE)

/-- Model of `znr_xfs_get_blockgroups`: the return value and the array stored
to `*blockgroups`.  The two loops run to `agcount` and `rgcount`: their second
bound `idx < max_blockgroups` holds throughout, `max_blockgroups` being the
sum of the two counts. -/
def znr_xfs_get_blockgroups (fs_geo : xfs_fsop_geom) : Int × List znr_bg :=
  match znr_xfs_get_nr_blockgroups fs_geo with
  | .error e => (e, [])
  | .ok _ =>
    let bbperrg := xfs_bbperrg fs_geo
    let bbperag := xfs_bbperag fs_geo
    let rtstart := xfs_rtstart fs_geo
    (0,
      (List.range fs_geo.agcount).map (fun ag =>
          { zero_bg with sector := (ag * bbperag) % U64, nr_sectors := bbperag }) ++
        (List.range fs_geo.rgcount).map (fun rg =>
          { zero_bg with sector := (rtstart + (rg * bbperrg) % U64) % U64,
                         nr_sectors := bbperrg }))

/-! ### File extents -/

/-- Extent type `ZNR_FS_FILE_EXTENT` (`znr_fs.h`). -/
def ZNR_FS_FILE_EXTENT : Nat := 0

/-- Extent type `ZNR_FS_ZONE_EXTENT` (`znr_fs.h`). -/
def ZNR_FS_ZONE_EXTENT : Nat := 1

/-- Flag `FS_XFLAG_REALTIME` of `fsx_xflags` (`linux/fs.h`). -/
def FS_XFLAG_REALTIME : Nat := 1

/-- The fields of `struct fsxattr` the provider reads. -/
structure fsxattr where
  fsx_xflags : Nat
  fsx_nextents : Nat
deriving DecidableEq, Repr, Inhabited

/-- The fields of a record of `struct getbmapx` the provider reads, signed
64-bit values. -/
structure getbmapx where
  bmv_offset : Int
  bmv_block : Int
  bmv_length : Int
deriving DecidableEq, Repr, Inhabited

/-- What the kernel answers to the file queries: the `k`-th `FSGETXATTR` call
gives errno or the attributes; the `GETBMAPX` call of attempt `a` with the
given `bmv_count` gives errno or the records it fills, `bmv_entries` being
their number.  `info` is the text `snprintf` leaves in the annotation of an
extent. -/
structure xfs_file_env where
  xfsctl_fsgetxattr : Nat → Except Int fsxattr
  xfsctl_getbmapx : Nat → Int → Except Int (List getbmapx)
  info : Nat → getbmapx → Bool → Int → Int → List Nat

/-- Model of `znr_xfs_get_file_extents_map` from the label `again` on, with
`retry` attempts made: the return value and the pointer stored to `*_map`
(`none` for NULL or for no store).  The buffer handed to `GETBMAPX` holds
`map_size` records, the header and `map_size - 1` entries, and is announced
with `bmv_count = map_size + 1`; the result is `none` when the kernel fills
more entries than the buffer holds and so writes past its end. -/
def file_extents_map_loop (env : xfs_file_env) :
    Nat → Nat → Option (Int × Option (List getbmapx))
  | 0, _ => some (- EIO, none)
  | fuel + 1, retry =>
    match env.xfsctl_fsgetxattr (retry + 1) with
    | .error e => some (-e, none)
    | .ok fsx =>
      if fsx.fsx_nextents = 0 then some (0, none)
      else
        let map_size := (fsx.fsx_nextents * 2 + 1) % U32
        let bmv_count := to_i32 (map_size + 1)
        match env.xfsctl_getbmapx retry bmv_count with
        | .error e => some (-e, none)
        | .ok recs =>
          if recs.length + 1 > map_size then none
          else
            let bmv_entries : Int := to_i32 recs.length
            if bmv_entries ≥ bmv_count - 1 then
              if retry + 1 ≥ 2 then some (- EIO, none)
              else file_extents_map_loop env fuel (retry + 1)
            else if bmv_entries ≤ 0 then some (0, none)
            else some (0, some recs)

/-- Model of `znr_xfs_get_file_extents_map`; the label `again` is reached at
most twice. -/
def znr_xfs_get_file_extents_map (env : xfs_file_env) :
    Option (Int × Option (List getbmapx)) :=
  file_extents_map_loop env 2 0

/-- Model of `znr_xfs_get_file_extent_from_map`: the record it writes, whose
`ino` the caller has set. -/
def znr_xfs_get_file_extent_from_map (env : xfs_file_env) (ino : Nat) (bmap : getbmapx)
    (idx : Nat) (is_rt : Bool) (bstart bbperag : Int) : znr_extent :=
  { type := ZNR_FS_FILE_EXTENT, idx := idx, ino := ino, sector := to_u64 bmap.bmv_block,
    nr_sectors := to_u64 bmap.bmv_length, info := env.info idx bmap is_rt bstart bbperag }

/-- The first loop of `znr_xfs_get_file_extents`: the number of records that
are neither a hole (`-1`) nor a delayed allocation (`-2`). -/
def file_extents_count : List getbmapx → Nat → Nat
  | [], nr_ext => nr_ext
  | b :: rest, nr_ext =>
    if b.bmv_block ≠ -1 ∧ b.bmv_block ≠ -2 then file_extents_count rest ((nr_ext + 1) % U32)
    else file_extents_count rest nr_ext

/-- The second loop of `znr_xfs_get_file_extents`: the records written to
`ext[ext_idx ..]`. -/
def file_extents_fill (env : xfs_file_env) (ino nr_ext : Nat) (is_rt : Bool)
    (bstart bbperag : Int) : List getbmapx → Nat → List znr_extent
  | [], _ => []
  | b :: rest, ext_idx =>
    if ext_idx ≥ nr_ext then []
    else if b.bmv_block = -1 ∨ b.bmv_block = -2 then
      file_extents_fill env ino nr_ext is_rt bstart bbperag rest ext_idx
    else
      znr_xfs_get_file_extent_from_map env ino b ext_idx is_rt bstart bbperag ::
        file_extents_fill env ino nr_ext is_rt bstart bbperag rest (ext_idx + 1)

/-- An extent record as `calloc` leaves it. -/
def zero_extent : znr_extent :=
  { type := 0, idx := 0, ino := 0, sector := 0, nr_sectors := 0,
    info := List.replicate ZNR_FS_EXT_INFO_SIZE 0 }

/-- The local `bstart` of `znr_xfs_get_file_extents`. -/
def file_bstart (fs_geo : xfs_fsop_geom) (is_rt : Bool) : Int :=
  if is_rt then to_i64 (((fs_geo.rtstart * (fs_geo.blocksize / BBSIZE)) % U64 : Nat) : Int)
  else 0

/-- The local `bbperag` of `znr_xfs_get_file_extents`. -/
def file_bbperag (fs_geo : xfs_fsop_geom) (is_rt : Bool) : Int :=
  if is_rt then to_i64 ((bytes_per_rtgroup fs_geo / BBSIZE : Nat) : Int)
  else Int.tdiv (off_t_mul fs_geo.agblocks fs_geo.blocksize) BBSIZE

/-- Model of `znr_xfs_get_file_extents` for a file of inode number `ino`: the
return value and the array stored to `*extents` (empty for NULL).  The result
is `none` when the program reads `map[0].bmv_entries` through the NULL pointer
that `znr_xfs_get_file_extents_map` stored, and when the extent map query has
written past its buffer. -/
def znr_xfs_get_file_extents (env : xfs_file_env) (fs_geo : xfs_fsop_geom) (ino : Nat) :
    Option (Int × List znr_extent) :=
  match env.xfsctl_fsgetxattr 0 with
  | .error _ => some (-1, [])
  | .ok fsx =>
    match znr_xfs_get_file_extents_map env with
    | none => none
    | some m =>
      if m.1 ≠ 0 then some (m.1, [])
      else
        match m.2 with
        | none => none
        | some map =>
          let nr_ext := file_extents_count map 0
          if nr_ext = 0 then some (0, [])
          else
            let is_rt := decide (fsx.fsx_xflags &&& FS_XFLAG_REALTIME ≠ 0)
            let filled := file_extents_fill env ino nr_ext is_rt (file_bstart fs_geo is_rt)
              (file_bbperag fs_geo is_rt) map 0
            some (0, filled ++ List.replicate (nr_ext - filled.length) zero_extent)

/-! ### Extents in a sector range -/

/-- Flag `FMR_OF_SPECIAL_OWNER` of `fmr_flags` (`linux/fsmap.h`). -/
def FMR_OF_SPECIAL_OWNER : Nat := 0x10

/-- Flag `FMR_OF_LAST` of `fmr_flags` (`linux/fsmap.h`). -/
def FMR_OF_LAST : Nat := 0x20

/-- Device value `XFS_DEV_DATA` (`xfs/xfs_fs.h`). -/
def XFS_DEV_DATA : Nat := 1

/-- Device value `XFS_DEV_RT` (`xfs/xfs_fs.h`). -/
def XFS_DEV_RT : Nat := 3

/-- The fields of a reverse-map record `struct fsmap` the provider reads. -/
structure fsmap where
  fmr_device : Nat
  fmr_flags : Nat
  fmr_physical : Nat
  fmr_owner : Nat
  fmr_offset : Nat
  fmr_length : Nat
deriving DecidableEq, Repr, Inhabited

/-- What the kernel answers to the `GETFSMAP` calls of one query: errno or
`fmh_entries` for the first call, made with `fmh_count = 0`, then errno or the
records of each following call; after the last answer of the list the kernel
reports no entry. -/
structure fsmap_answer where
  count : Except Int Nat
  batches : List (Except Int (List fsmap))

/-- The reverse map as the provider sees it: the answers to a query with the
device, the low physical address and the high physical address of its keys.
`info` is the text `snprintf` leaves in the annotation of an extent. -/
structure xfs_range_env where
  getfsmap : Nat → Nat → Nat → fsmap_answer
  info : Nat → fsmap → List Nat

/-- What the body of the record loop does with one record. -/
inductive range_step where
  | skip
  | trap
  | too_many
  | emit (ext : znr_extent)
deriving DecidableEq, Repr

/-- The body of the loop `for (i = 0; i < head->fmh_entries; i++)` of
`znr_xfs_get_range_extents` for the record `p` when `nr_ext` extents are
stored: `trap` is a division by zero. -/
def range_record (env : xfs_range_env) (fs_geo : xfs_fsop_geom)
    (sector sector_end max_extents nr_ext : Nat) (p : fsmap) : range_step :=
  if p.fmr_flags &&& FMR_OF_SPECIAL_OWNER ≠ 0 then .skip
  else if p.fmr_physical / BBSIZE < sector ∨ p.fmr_physical / BBSIZE ≥ sector_end then .skip
  else if p.fmr_device = XFS_DEV_DATA ∧ off_t_mul fs_geo.agblocks fs_geo.blocksize = 0 then .trap
  else if p.fmr_device ≠ XFS_DEV_DATA ∧ ¬ (p.fmr_device = XFS_DEV_RT ∧ fs_geo.rgcount > 0)
    then .skip
  else if p.fmr_device ≠ XFS_DEV_DATA ∧ bytes_per_rtgroup fs_geo = 0 then .trap
  else if nr_ext ≥ max_extents then .too_many
  else
    .emit { type := ZNR_FS_ZONE_EXTENT, idx := nr_ext, ino := p.fmr_owner,
            sector := p.fmr_physical / BBSIZE, nr_sectors := p.fmr_length / BBSIZE,
            info := env.info nr_ext p }

/-- The record loop over one batch: `none` for a division by zero, otherwise
the error code or the extents stored so far. -/
def range_records (env : xfs_range_env) (fs_geo : xfs_fsop_geom)
    (sector sector_end max_extents : Nat) :
    List fsmap → List znr_extent → Option (Except Int (List znr_extent))
  | [], acc => some (.ok acc)
  | p :: rest, acc =>
    match range_record env fs_geo sector sector_end max_extents acc.length p with
    | .skip => range_records env fs_geo sector sector_end max_extents rest acc
    | .trap => none
    | .too_many => some (.error (- EIO))
    | .emit ext => range_records env fs_geo sector sector_end max_extents rest (acc ++ [ext])

/-- The loop `while (1)` of `znr_xfs_get_range_extents` once `fmh_count` is
set to `map_size`, over the answers of the kernel. -/
def range_batches (env : xfs_range_env) (fs_geo : xfs_fsop_geom)
    (sector sector_end max_extents map_size : Nat) :
    List (Except Int (List fsmap)) → List znr_extent → Option (Except Int (List znr_extent))
  | [], acc => some (.ok acc)
  | .error _ :: _, _ => some (.error (- EIO))
  | .ok recs :: rest, acc =>
    match recs.take map_size with
    | [] => some (.ok acc)
    | p :: ps =>
      match range_records env fs_geo sector sector_end max_extents (p :: ps) acc with
      | none => none
      | some (.error e) => some (.error e)
      | some (.ok acc1) =>
        if ((p :: ps).getLast (List.cons_ne_nil p ps)).fmr_flags &&& FMR_OF_LAST ≠ 0 then
          some (.ok acc1)
        else range_batches env fs_geo sector sector_end max_extents map_size rest acc1

/-- The state `znr_xfs_get_range_extents` leaves: the return value, the array
stored to `*extents` (empty for NULL), and the device of the query keys
(`none` when no query is made). -/
structure range_result where
  ret : Int
  extents : List znr_extent
  device : Option Nat
deriving DecidableEq, Repr, Inhabited

/-- The device `znr_xfs_get_range_extents` puts in the keys of its query. -/
def range_device (fs_geo : xfs_fsop_geom) (sector : Nat) : Nat :=
  if sector > (fs_geo.rtstart * (fs_geo.blocksize / BBSIZE)) % U64 then XFS_DEV_RT
  else XFS_DEV_DATA

/-- Model of `znr_xfs_get_range_extents`; `none` is a division by zero. -/
def znr_xfs_get_range_extents (env : xfs_range_env) (fs_geo : xfs_fsop_geom)
    (sector nr_sectors : Nat) : Option range_result :=
  let sector_end := (sector + nr_sectors) % U64
  if fs_geo.rtstart = 0 then some ⟨-ENOTSUP, [], none⟩
  else
    let device := range_device fs_geo sector
    if fs_geo.blocksize = 0 then none
    else
      let max_extents := ((nr_sectors * 512) % U64 / fs_geo.blocksize) % U32
      let answer := env.getfsmap device ((sector * BBSIZE) % U64) ((sector_end * BBSIZE) % U64)
      match answer.count with
      | .error _ => some ⟨- EIO, [], some device⟩
      | .ok fmh_entries =>
        let map_size := if fmh_entries > 512 then fmh_entries else 512
        match range_batches env fs_geo sector sector_end max_extents map_size answer.batches []
          with
        | none => none
        | some (.error e) => some ⟨e, [], some device⟩
        | some (.ok exts) => some ⟨0, exts, some device⟩

/-! ## Opening a session (`znr_device.c`, `znr_fs.c`, `znr.c`)

The model follows a session that is not a network client: the branches
`if (znr.is_net_client)` of the functions below are not taken.  The answers of
the system calls are parameters. -/

/-- What the kernel answers to `znr_dev_get_info`: for a sysfs attribute the
error code of `znr_dev_get_sysfs_attr` or its value (for `queue/zoned`,
whether the string differs from `none`; for the others the result of
`atoll`), for an ioctl errno or the value stored. -/
structure dev_env where
  sysfs_zoned : Except Int Bool
  blksszget : Except Int Int
  blkpbszget : Except Int Int
  blkgetsize64 : Except Int Nat
  sysfs_chunk_sectors : Except Int Int
  sysfs_nr_zones : Except Int Int
  sysfs_max_open_zones : Except Int Int
  sysfs_max_active_zones : Except Int Int

/-- Model of `znr_dev_get_info`: the return value and the numeric fields of
the descriptor `znr.dev`, which held `dev` before the call. -/
def znr_dev_get_info (env : dev_env) (dev : znr_device) : Int × znr_device :=
  match env.sysfs_zoned with
  | .error _ => (-1, dev)
  | .ok zoned =>
    let dev1 := { dev with is_zoned := zoned }
    match env.blksszget with
    | .error _ => (-1, dev1)
    | .ok size32 =>
      let dev2 := { dev1 with lblock_size := to_u32 size32 }
      if dev2.lblock_size ≤ 0 then (-1, dev2)
      else
        match env.blkpbszget with
        | .error _ => (-1, dev2)
        | .ok psize32 =>
          let dev3 := { dev2 with pblock_size := to_u32 psize32 }
          if dev3.pblock_size ≤ 0 then (-1, dev3)
          else
            match env.blkgetsize64 with
            | .error _ => (-1, dev3)
            | .ok size64 =>
              let dev4 := { dev3 with nr_sectors := size64 / 2 ^ 9,
                                      nr_lblocks := size64 / dev3.lblock_size }
              if dev4.nr_lblocks = 0 then (-1, dev4)
              else
                let dev5 := { dev4 with nr_pblocks := size64 / dev4.pblock_size }
                if dev5.nr_pblocks = 0 then (-1, dev5)
                else
                  match env.sysfs_chunk_sectors with
                  | .error _ => (-1, dev5)
                  | .ok zs =>
                    let dev6 := { dev5 with zone_sectors := to_u32 zs,
                                            zone_size := to_u64 (zs * 2 ^ 9) }
                    match env.sysfs_nr_zones with
                    | .error _ => (-1, dev6)
                    | .ok nrz =>
                      let dev7 := { dev6 with nr_zones := to_u32 nrz }
                      let open_zones : Int :=
                        match env.sysfs_max_open_zones with
                        | .error _ => 0
                        | .ok val => val
                      let active_zones : Int :=
                        match env.sysfs_max_active_zones with
                        | .error _ => 0
                        | .ok val => val
                      (0, { dev7 with max_nr_open_zones := to_u32 open_zones,
                                      max_nr_active_zones := to_u32 active_zones })

/-- A pointer to an array the session allocates: NULL, an array, or a pointer
whose array has been freed. -/
inductive array_ptr (α : Type) where
  | null
  | live (a : List α)
  | freed
deriving DecidableEq, Repr

/-- The part of `struct znr`, of the provider geometry `fs_geo` and of the
process that `znr_open` and `znr_close` touch.  A path is `none` for NULL,
`mnt_fs` is the provider reference `znr.mnt_dir.fs`, and `open_fds` lists the
file descriptors the process holds open. -/
structure znr_session where
  mnt_path : Option (List Nat)
  mnt_fd : Int
  mnt_fs : Option Nat
  fs_geo : xfs_fsop_geom
  dev_path : Option (List Nat)
  dev_fd : Int
  dev : znr_device
  nr_zones : Nat
  nr_conv_zones : Nat
  blk_zones : array_ptr blk_zone
  nr_blockgroups : Nat
  blockgroups : array_ptr znr_bg
  open_fds : List Int

/-- The session after `znr_init`. -/
def znr_init : znr_session :=
  { mnt_path := none, mnt_fd := 0, mnt_fs := none, fs_geo := default, dev_path := none,
    dev_fd := 0, dev := default, nr_zones := 0, nr_conv_zones := 0, blk_zones := .null,
    nr_blockgroups := 0, blockgroups := .null, open_fds := [] }

/-- What the system answers while a session is opened.  `mnt_entry` is the
entry of `/etc/mtab` whose directory is the path (`mnt_dir`, `mnt_fsname`),
`statfs_xfs` tells whether the filesystem type is `XFS_SUPER_MAGIC`; for a
system call the answer is errno or the value; `stat` tells whether the path is
a directory, respectively a block device. -/
structure open_env where
  stat_path : Except Int Bool
  setmntent : Except Int Unit
  mnt_entry : Option (List Nat × List Nat)
  stat_fsname : Except Int Bool
  open_dir : Except Int Int
  fstat_dir : Except Int Unit
  statfs_xfs : Except Int Bool
  fsgeometry : Except Int xfs_fsop_geom
  realpath : Option (List Nat)
  open_dev : Except Int Int
  dev : dev_env

/-- Index of the XFS provider in the provider table (`ZNR_FS_XFS`). -/
def ZNR_FS_XFS : Nat := 0

/-- Model of `znr_fs_close_file` on the mount directory. -/
def znr_fs_close_file (s : znr_session) : znr_session :=
  { s with open_fds := if s.mnt_fd > 0 then s.open_fds.erase s.mnt_fd else s.open_fds,
           mnt_fd := 0 }

/-- Model of `znr_fs_get_file_fs` on the mount directory. -/
def znr_fs_get_file_fs (env : open_env) (s : znr_session) : Int × znr_session :=
  match env.statfs_xfs with
  | .error e => (-e, s)
  | .ok true => (0, { s with mnt_fs := some ZNR_FS_XFS })
  | .ok false => (-ENOTSUP, s)

/-- Model of `znr_fs_open_file (&znr.mnt_dir, false)`. -/
def znr_fs_open_file (env : open_env) (s : znr_session) : Int × znr_session :=
  match env.open_dir with
  | .error e => (-e, { s with mnt_fd := -1 })
  | .ok fd =>
    let s1 := { s with mnt_fd := fd, open_fds := fd :: s.open_fds }
    match env.fstat_dir with
    | .error e => (-e, s1)
    | .ok _ =>
      let r := znr_fs_get_file_fs env s1
      if r.1 ≠ 0 then (r.1, znr_fs_close_file r.2)
      else (0, r.2)

/-- Model of `znr_xfs_init_fs`. -/
def znr_xfs_init_fs (env : open_env) (s : znr_session) : Int × znr_session :=
  match env.fsgeometry with
  | .error e => (-e, { s with fs_geo := default })
  | .ok geo => (0, { s with fs_geo := geo })

/-- The label `cleanup` of `znr_fs_open`. -/
def fs_open_cleanup (s : znr_session) : znr_session :=
  { s with mnt_path := none, dev_path := none }

/-- Model of `znr_fs_open`. -/
def znr_fs_open (env : open_env) (s : znr_session) : Int × znr_session :=
  match env.stat_path with
  | .error _ => (-EINVAL, s)
  | .ok false => (-EINVAL, s)
  | .ok true =>
    match env.setmntent with
    | .error e => (-e, s)
    | .ok _ =>
      match env.mnt_entry with
      | none => (-EINVAL, s)
      | some (mnt_dir, mnt_fsname) =>
        match env.stat_fsname with
        | .error _ => (-EINVAL, s)
        | .ok false => (-EINVAL, s)
        | .ok true =>
          let s1 := { s with mnt_path := some mnt_dir, dev_path := some mnt_fsname }
          let r1 := znr_fs_open_file env s1
          if r1.1 ≠ 0 then (r1.1, fs_open_cleanup r1.2)
          else
            let r2 := znr_fs_get_file_fs env r1.2
            if r2.1 ≠ 0 then (r2.1, fs_open_cleanup r2.2)
            else
              let r3 := znr_xfs_init_fs env r2.2
              if r3.1 ≠ 0 then (r3.1, fs_open_cleanup r3.2)
              else (0, r3.2)

/-- Model of `znr_fs_close`, which clears the mount directory. -/
def znr_fs_close (s : znr_session) : znr_session :=
  { znr_fs_close_file s with mnt_path := none, mnt_fs := none }

/-- Model of `znr_dev_open`. -/
def znr_dev_open (env : open_env) (s : znr_session) : Int × znr_session :=
  match env.realpath with
  | none => (-1, s)
  | some _ =>
    match env.open_dev with
    | .error _ => (-1, s)
    | .ok fd =>
      let r := znr_dev_get_info env.dev s.dev
      if r.1 ≠ 0 then (-1, { s with dev_fd := fd, dev := r.2 })
      else (0, { s with dev_fd := fd, dev := r.2, open_fds := fd :: s.open_fds })

/-- Model of `znr_dev_close`. -/
def znr_dev_close (s : znr_session) : znr_session :=
  if s.dev_fd > 0 then { s with open_fds := s.open_fds.erase s.dev_fd, dev_fd := -1 }
  else s

/-- The effect of `free` on an array pointer. -/
def free_array {α : Type} : array_ptr α → array_ptr α
  | .null => .null
  | _ => .freed

/-- Model of `znr_close`. -/
def znr_close (s : znr_session) : znr_session :=
  let s1 := znr_dev_close (znr_fs_close s)
  { s1 with blk_zones := free_array s1.blk_zones, blockgroups := free_array s1.blockgroups }

/-- The loop of `znr_open` that counts the leading conventional zones. -/
def count_conv_zones : List blk_zone → Nat → Nat
  | [], n => n
  | z :: rest, n =>
    if z.type = BLK_ZONE_TYPE_CONVENTIONAL then count_conv_zones rest ((n + 1) % U32) else n

/-- The part of `znr_open` from the call of `znr_bg_refresh` on, for the
session zone array `zones` and the blockgroup array `bgs`.  The return value
is `none` when the refresh does not return. -/
def open_refresh (renv : report_env) (s : znr_session) (zones : List blk_zone)
    (bgs : List znr_bg) : Option Int × znr_session :=
  let g : znr :=
    { nr_zones := s.nr_zones, nr_blockgroups := s.nr_blockgroups, is_net_client := false }
  let res := znr_bg_refresh renv g s.dev zones s.nr_zones bgs 0
  let s1 : znr_session :=
    { s with blk_zones := .live res.zones, blockgroups := .live res.blockgroups }
  match res.ret with
  | none => (none, s1)
  | some ret =>
    if ret < 0 then (some ret, znr_close s1)
    else if to_u32 ret ≠ s1.nr_blockgroups then (some (-EINVAL), znr_close s1)
    else (some 0, s1)

/-- Model of `znr_open` on the session `s`: the return value and the session
it leaves.  `renv` is what the kernel answers to the zone reports.  The return
value is `none` when the call does not return (the division in
`znr_bg_to_zno` traps); the session is then the state at the trap. -/
def znr_open (env : open_env) (renv : report_env) (s : znr_session) :
    Option Int × znr_session :=
  let r1 := znr_fs_open env s
  if r1.1 ≠ 0 then (some r1.1, r1.2)
  else
    let r2 := znr_dev_open env r1.2
    if r2.1 ≠ 0 then (some r2.1, r2.2)
    else
      let s2 : znr_session := { r2.2 with nr_zones := r2.2.dev.nr_zones }
      if s2.dev.is_zoned ∧ s2.nr_zones = 0 then (some (-EINVAL), znr_close s2)
      else
        let zones0 : List blk_zone := List.replicate s2.nr_zones default
        let s3 : znr_session := { s2 with blk_zones := .live zones0 }
        let bgs := znr_xfs_get_blockgroups s3.fs_geo
        if bgs.1 < 0 then (some bgs.1, znr_close s3)
        else
          let s4 : znr_session :=
            { s3 with blockgroups := .live bgs.2, nr_blockgroups := bgs.2.length }
          if s4.dev.is_zoned then
            let g : znr :=
              { nr_zones := s4.nr_zones, nr_blockgroups := s4.nr_blockgroups,
                is_net_client := false }
            let rep := znr_dev_report_zones renv g s4.dev 0 s4.nr_zones
            let zones1 := store_zones zones0 0 rep.2
            let s5 : znr_session := { s4 with blk_zones := .live zones1 }
            if rep.1 < 0 then (some rep.1, znr_close s5)
            else if to_u32 rep.1 ≠ s5.nr_zones then (some (-EINVAL), znr_close s5)
            else
              open_refresh renv
                { s5 with nr_conv_zones := count_conv_zones zones1 s5.nr_conv_zones } zones1 bgs.2
          else open_refresh renv s4 zones0 bgs.2

/-! ## Auxiliary definitions used by the statements and proofs -/

/-- Indices mapped by the inner loop together with the final start cursor. -/
def scan_pure (bg_sector bg_sector_end : Nat) : List blk_zone → Nat → Nat → List Nat × Nat
  | [], _, zone_start_idx => ([], zone_start_idx)
  | z :: rest, j, zone_start_idx =>
    if (z.start + z.len) % U64 ≤ bg_sector then
      scan_pure bg_sector bg_sector_end rest (j + 1) (j + 1)
    else if z.start ≥ bg_sector_end then
      ([], zone_start_idx)
    else
      (j :: (scan_pure bg_sector bg_sector_end rest (j + 1) zone_start_idx).1,
        (scan_pure bg_sector bg_sector_end rest (j + 1) zone_start_idx).2)

/-- Successive stores `a[k] = x0, a[k+1] = x1, ...` into a pointer array. -/
def set_from : List (Option Nat) → Nat → List Nat → List (Option Nat)
  | a, _, [] => a
  | a, k, x :: l => set_from (a.set k (some x)) (k + 1) l

/-- The sector at which a blockgroup ends, as the mapping computes it
(`bg_sector_end`, unsigned 64-bit sum). -/
def bg_sector_end (bg : znr_bg) : Nat := (bg.sector + bg.nr_sectors) % U64

/-- The sector at which a zone ends, as the mapping computes it
(`zone_sector_end`, unsigned 64-bit sum). -/
def zone_sector_end (z : blk_zone) : Nat := (z.start + z.len) % U64

/-- What one iteration of the outer loop does to a blockgroup on which the
function does not return: the blockgroup written back and the new start
cursor. -/
def map_one (zones : List blk_zone) (bg : znr_bg) (zone_start_idx : Nat) :
    Option (znr_bg × Nat) :=
  let p := scan_pure bg.sector (bg_sector_end bg) (zones.drop (zone_start_idx - 1))
    (zone_start_idx - 1) zone_start_idx
  if p.1.length < ZNR_BG_MAX_ZONES ∧ p.1 ≠ [] then
    let first := zone_at zones (some (p.1.headD 0))
    some ({ sector := bg.sector
            nr_sectors := bg.nr_sectors
            wp_sector :=
              if first.type = BLK_ZONE_TYPE_SEQWRITE_REQ then
                (first.wp + U64 - bg.sector) % U64
              else 0
            flags := first.type
            zones := p.1.map some ++ List.replicate (ZNR_BG_MAX_ZONES - p.1.length) none
            nr_zones := p.1.length }, p.2)
  else none

/-- The overlap test of the mapping: the zone starts before the blockgroup
ends and ends after the blockgroup starts (both ends in the 64-bit sector
arithmetic of the program). -/
def zone_overlaps (z : blk_zone) (bg : znr_bg) : Bool :=
  decide (z.start < bg_sector_end bg) && decide (bg.sector < zone_sector_end z)

/-- The indices, in ascending order, of all zones of the array that overlap
the blockgroup. -/
def overlapping_zones (zones : List blk_zone) (bg : znr_bg) : List Nat :=
  (List.range zones.length).filter (fun j => zone_overlaps (zones.getD j default) bg)

/-- Indices `j, j+1, ...` of the zones of a list that pass the overlap test. -/
def overlapping_from (bg : znr_bg) : List blk_zone → Nat → List Nat
  | [], _ => []
  | z :: rest, j =>
    if zone_overlaps z bg then j :: overlapping_from bg rest (j + 1)
    else overlapping_from bg rest (j + 1)

/-- Example session: four zones, two blockgroups, local mode. -/
def ex_session : znr := { nr_zones := 4, nr_blockgroups := 2, is_net_client := false }

/-- Example zone array: two conventional zones (whose write pointer fields hold
leftover values) followed by two sequential-write-required zones, 100 sectors
each. -/
def ex_zones : List blk_zone :=
  [ { start := 0, len := 100, wp := 33, type := 1, cond := 0, non_seq := 0, reset := 0, capacity := 100 },
    { start := 100, len := 100, wp := 77, type := 1, cond := 0, non_seq := 0, reset := 0, capacity := 100 },
    { start := 200, len := 100, wp := 250, type := 2, cond := 2, non_seq := 0, reset := 0, capacity := 100 },
    { start := 300, len := 100, wp := 300, type := 2, cond := 1, non_seq := 0, reset := 0, capacity := 90 } ]

/-- Example blockgroup array as the filesystem provider returns it: `[0, 200)`
and `[200, 400)`. -/
def ex_blockgroups : List znr_bg :=
  [ { sector := 0, nr_sectors := 200, wp_sector := 0, flags := 0, zones := List.replicate 512 none, nr_zones := 0 },
    { sector := 200, nr_sectors := 200, wp_sector := 0, flags := 0, zones := List.replicate 512 none, nr_zones := 0 } ]

/-- The example blockgroups after the mapping of the example zones. -/
def ex_mapped : List znr_bg :=
  [ { sector := 0, nr_sectors := 200, wp_sector := 0, flags := 1,
      zones := [some 0, some 1] ++ List.replicate 510 none, nr_zones := 2 },
    { sector := 200, nr_sectors := 200, wp_sector := 50, flags := 2,
      zones := [some 2, some 3] ++ List.replicate 510 none, nr_zones := 2 } ]

/-- Adjacent zones abut exactly: every zone starts at the sector where the
zone before it ends. -/
def zones_abut (zones : List blk_zone) : Prop :=
  zones.Chain' (fun a b => a.start + a.len = b.start)

/-- Example: 512 conventional zones of one sector each. -/
def ex_unit_zones : List blk_zone :=
  (List.range 512).map (fun i =>
    { start := i, len := 1, wp := i, type := 1, cond := 0, non_seq := 0, reset := 0, capacity := 1 })

/-- Example session for the 512 one-sector zones. -/
def ex_unit_session : znr := { nr_zones := 512, nr_blockgroups := 1, is_net_client := false }

/-- Example: a blockgroup covering the 512 one-sector zones. -/
def ex_wide_blockgroup : znr_bg :=
  { sector := 0, nr_sectors := 512, wp_sector := 0, flags := 0,
    zones := List.replicate 512 none, nr_zones := 0 }

/-- Example session: one zone, two blockgroups. -/
def ex_spanning_session : znr := { nr_zones := 1, nr_blockgroups := 2, is_net_client := false }

/-- Example: a conventional zone `[0, 100)`. -/
def ex_spanning_zone : blk_zone :=
  { start := 0, len := 100, wp := 0, type := 1, cond := 0, non_seq := 0, reset := 0, capacity := 100 }

/-- Example: the blockgroups `[0, 50)` and `[50, 100)`. -/
def ex_half_blockgroups : List znr_bg :=
  [ { sector := 0, nr_sectors := 50, wp_sector := 0, flags := 0,
      zones := List.replicate 512 none, nr_zones := 0 },
    { sector := 50, nr_sectors := 50, wp_sector := 0, flags := 0,
      zones := List.replicate 512 none, nr_zones := 0 } ]

/-- The blockgroups `[0, 50)` and `[50, 100)` after a mapping in which both list
zone 0. -/
def ex_half_mapped : List znr_bg :=
  [ { sector := 0, nr_sectors := 50, wp_sector := 0, flags := 1,
      zones := [some 0] ++ List.replicate 511 none, nr_zones := 1 },
    { sector := 50, nr_sectors := 50, wp_sector := 0, flags := 1,
      zones := [some 0] ++ List.replicate 511 none, nr_zones := 1 } ]

/-- Example: a conventional zone `[0, 100)` followed by a sequential zone
`[100, 200)`. -/
def ex_two_zones : List blk_zone :=
  [ { start := 0, len := 100, wp := 0, type := 1, cond := 0, non_seq := 0, reset := 0, capacity := 100 },
    { start := 100, len := 100, wp := 100, type := 2, cond := 1, non_seq := 0, reset := 0, capacity := 100 } ]

/-- Example session: two zones, two blockgroups. -/
def ex_two_session : znr := { nr_zones := 2, nr_blockgroups := 2, is_net_client := false }

/-- Example: a sequential-write-required zone `[0, 100)` with write pointer 10. -/
def ex_seq_zone : blk_zone :=
  { start := 0, len := 100, wp := 10, type := 2, cond := 2, non_seq := 0, reset := 0, capacity := 100 }

/-- Example: a full sequential-write-required zone `[0, 100)`, write pointer 100. -/
def ex_full_zone : blk_zone :=
  { start := 0, len := 100, wp := 100, type := 2, cond := 14, non_seq := 0, reset := 0, capacity := 100 }

/-- Example session: one zone, one blockgroup. -/
def ex_one_session : znr := { nr_zones := 1, nr_blockgroups := 1, is_net_client := false }

/-- Example: the blockgroup `[50, 100)`. -/
def ex_upper_half : znr_bg :=
  { sector := 50, nr_sectors := 50, wp_sector := 0, flags := 0,
    zones := List.replicate 512 none, nr_zones := 0 }

/-- Example: the blockgroup `[0, 50)`. -/
def ex_lower_half : znr_bg :=
  { sector := 0, nr_sectors := 50, wp_sector := 0, flags := 0,
    zones := List.replicate 512 none, nr_zones := 0 }

/-- Example environment: the kernel reports the example zones, 100 sectors
each, from the zone that holds the start sector; the legacy ioctl and the
network are not used. -/
def ex_env : report_env :=
  { ioctl_v2 := fun sector nr => .ok (((ex_zones.drop (sector / 100)).take nr))
    ioctl_legacy := fun _ _ => .error 25
    net_get_dev_rep_zones := fun _ _ => (-1, []) }

/-- Example zoned device: four zones of 100 sectors. -/
def ex_dev : znr_device :=
  { nr_sectors := 400, nr_lblocks := 400, nr_pblocks := 50, zone_size := 51200,
    zone_sectors := 100, lblock_size := 512, pblock_size := 4096, nr_zones := 4,
    max_nr_open_zones := 0, max_nr_active_zones := 0, is_zoned := true }

/-- Example session zone array before the first report (`calloc`). -/
def ex_blank_zones : List blk_zone := List.replicate 4 default

/-- Example device that is not zoned. -/
def ex_nonzoned_dev : znr_device :=
  { nr_sectors := 400, nr_lblocks := 400, nr_pblocks := 50, zone_size := 0,
    zone_sectors := 0, lblock_size := 512, pblock_size := 4096, nr_zones := 0,
    max_nr_open_zones := 0, max_nr_active_zones := 0, is_zoned := false }

/-- The value of the local `start_zone_no` of `znr_bg_to_zno` when
`znr_bg_report` calls it on a blockgroup array: the quotient of the first
starting sector by the zone size, as an `unsigned int`. -/
def span_start (dev : znr_device) (blockgroups : List znr_bg) : Nat :=
  ((blockgroups.getD 0 default).sector / dev.zone_sectors) % U32

/-- The value of the local `end_zone_no` of `znr_bg_to_zno` when
`znr_bg_report` calls it on a blockgroup array: the quotient of the 64-bit end
sector of the last blockgroup by the zone size, as an `unsigned int`. -/
def span_end (dev : znr_device) (blockgroups : List znr_bg) : Nat :=
  (((blockgroups.getD (blockgroups.length - 1) default).sector +
      (blockgroups.getD (blockgroups.length - 1) default).nr_sectors) % U64 /
    dev.zone_sectors) % U32

/-- Example path: the characters `/mnt`. -/
def ex_path : List Nat := [47, 109, 110, 116]

/-- Spec-side definition: the value of a 64-bit number with its eight bytes in
reverse order (byte `i` from the least significant end moves to place
`7 - i`). -/
def byte_reversal64 (x : Nat) : Nat :=
  x % 256 * 2 ^ 56 + x / 2 ^ 8 % 256 * 2 ^ 48 + x / 2 ^ 16 % 256 * 2 ^ 40 +
    x / 2 ^ 24 % 256 * 2 ^ 32 + x / 2 ^ 32 % 256 * 2 ^ 24 + x / 2 ^ 40 % 256 * 2 ^ 16 +
    x / 2 ^ 48 % 256 * 2 ^ 8 + x / 2 ^ 56 % 256

/-- Example request header on the wire: the magic, the identifier
`ZNR_NET_DEV_REP_ZONES`, and zero bytes up to the size of a request. -/
def ex_wire_req : List Nat := [122, 111, 110, 101, 0, 0, 0, 3] ++ List.replicate 4120 0

/-- The sector at which `znr_dev_report_zones` stops, as the function computes
it from the device and the first zone. -/
def report_end_sector (dev : znr_device) (start_zone_no : Nat) : Nat :=
  let zone_mask := (dev.zone_sectors + U32 - 1) % U32
  let sector := dev.zone_sectors * start_zone_no
  let end_sector0 := Nat.land ((sector + dev.nr_sectors + zone_mask) % U64) (U64 - 1 - zone_mask)
  if end_sector0 > dev.nr_sectors then dev.nr_sectors else end_sector0

/-- The number of descriptors `znr_dev_report_zones` asks of the kernel in one
ioctl. -/
def report_rep_nr_zones (nr_zones : Nat) : Nat :=
  if nr_zones < ZNR_DEV_REPORT_MAX_NR_ZONES then nr_zones else ZNR_DEV_REPORT_MAX_NR_ZONES

/-- The `err` field of a reply on the wire, read as a big-endian integer. -/
def rep_wire_err (wire : List Nat) : Nat := (load32 false (wire.drop 8)).1

/-- The `data_size` field of a reply on the wire, read as a big-endian
integer. -/
def rep_wire_data_size (wire : List Nat) : Nat := (load32 false (wire.drop 12)).1

/-- The bytes that follow the header of a reply on the wire. -/
def rep_wire_payload (wire : List Nat) : List Nat := wire.drop sizeof_znr_net_rep

/-- Example filesystem layer: the file has no extent, the range holds one
extent, and the blockgroup query fails with `-EIO`. -/
def ex_fs : fs_env :=
  { get_file_extents_by_path := fun _ => (0, [])
    get_extents_in_range := fun _ _ =>
      (0, [{ type := 1, idx := 0, ino := 7, sector := 100, nr_sectors := 8,
             info := List.replicate ZNR_FS_EXT_INFO_SIZE 0 }])
    get_blockgroups := (-5, []) }

/-- Example filesystem layer on which every query fails with `-EIO`
(`EIO = 5`). -/
def ex_failing_fs : fs_env :=
  { get_file_extents_by_path := fun _ => (-5, [])
    get_extents_in_range := fun _ _ => (-5, [])
    get_blockgroups := (-5, []) }

/-- Example filesystem layer whose blockgroup query gives the two example
blockgroups. -/
def ex_bg_fs : fs_env :=
  { get_file_extents_by_path := fun _ => (0, [])
    get_extents_in_range := fun _ _ => (0, [])
    get_blockgroups := (0, ex_blockgroups) }

/-- The range check of `znr_net_send_dev_rep_zones_rep` as the program
evaluates it for the 32-bit values `zno` and `nr_zones` on a device of
`dev_nr_zones` zones: `true` when the request is rejected. -/
def rep_zones_check_fails (dev_nr_zones zno nr_zones : Nat) : Bool :=
  decide (zno ≥ dev_nr_zones) ||
    (decide (nr_zones = 0) || decide ((zno + nr_zones + U32 - 1) % U32 ≥ dev_nr_zones))

/-- Example request for zones: two zones from zone 1 on. -/
def ex_zones_req : znr_net_req := { (default : znr_net_req) with zno := 1, nr_zones := 2 }

/-- Example request for zones whose zone count makes the 32-bit sum
`zno + nr_zones - 1` wrap to 0. -/
def ex_wrap_req : znr_net_req :=
  { (default : znr_net_req) with zno := 2, nr_zones := 4294967295 }

/-- Example range request outside the example device of 400 sectors. -/
def ex_range_req : znr_net_req := { (default : znr_net_req) with sector := 1000, nr_sectors := 8 }

/-- Spec-side definition: a reply on the wire, the four header fields as
big-endian integers followed by the payload. -/
def reply_wire (id err data_size : Nat) (payload : List Nat) : List Nat :=
  be32 ZNR_NET_MAGIC ++ (be32 id ++ (be32 err ++ (be32 data_size ++ payload)))

/-- Spec-side definition: the extent record at the start of a payload, with
`idx`, `ino`, `sector` and `nr_sectors` read as big-endian integers; `type`
is read in the byte order of the host and `info` is copied. -/
def extent_of_be (le : Bool) (buf : List Nat) : znr_extent :=
  { type := (load32 le buf).1, idx := (load32 false (buf.drop 4)).1,
    ino := (load64 false (buf.drop 8)).1, sector := (load64 false (buf.drop 16)).1,
    nr_sectors := (load64 false (buf.drop 24)).1,
    info := (buf.drop 32).take ZNR_FS_EXT_INFO_SIZE }

/-- Example payload of one extent record in network order: type bytes
`00 00 00 01`, `idx = 3`, `ino = 7`, `sector = 100`, `nr_sectors = 8`, and an
empty annotation. -/
def ex_extent_payload : List Nat :=
  [0, 0, 0, 1, 0, 0, 0, 3, 0, 0, 0, 0, 0, 0, 0, 7, 0, 0, 0, 0, 0, 0, 0, 100,
    0, 0, 0, 0, 0, 0, 0, 8] ++ List.replicate 352 0

/-- Example vendor string: the characters `WDC`. -/
def ex_vendor : List Nat := [87, 68, 67]

/-- Example device descriptor of the round trip: `nr_sectors` is
`0x123456789ABCDEF0`, `zone_sectors` is 524288, and the device is zoned. -/
def ex_wide_dev : znr_device :=
  { nr_sectors := 0x123456789ABCDEF0, nr_lblocks := 0x123456789ABCDEF0,
    nr_pblocks := 0x2468ACF13579BDE, zone_size := 268435456, zone_sectors := 524288,
    lblock_size := 512, pblock_size := 4096, nr_zones := 55356, max_nr_open_zones := 128,
    max_nr_active_zones := 256, is_zoned := true }

/-- Example geometry: two allocation groups of 1000 blocks of 4096 bytes and
two realtime groups of 1000 blocks that start at block 2000. -/
def ex_geo : xfs_fsop_geom :=
  { blocksize := 4096, rtextsize := 1, agblocks := 1000, agcount := 2, rgextents := 1000,
    rgcount := 2, rtstart := 2000 }

/-- Example geometry with more groups than an `unsigned int` counts. -/
def ex_many_geo : xfs_fsop_geom := { ex_geo with agcount := 4294967295, rgcount := 1 }

/-- Example geometry of a filesystem whose realtime device is external: the
realtime section starts at block 0. -/
def ex_external_rt_geo : xfs_fsop_geom := { ex_geo with rgcount := 1, rtstart := 0 }

/-- Spec-side definition: the records of an extent map that are neither a
hole nor a delayed allocation. -/
def mapped_records (map : List getbmapx) : List getbmapx :=
  map.filter (fun b => decide (b.bmv_block ≠ -1 ∧ b.bmv_block ≠ -2))

/-- Spec-side definition: the extents of a list of records, numbered from
`k` on. -/
def file_extents_of (env : xfs_file_env) (ino : Nat) (is_rt : Bool) (bstart bbperag : Int) :
    List getbmapx → Nat → List znr_extent
  | [], _ => []
  | b :: rest, k =>
    { type := ZNR_FS_FILE_EXTENT, idx := k, ino := ino, sector := to_u64 b.bmv_block,
      nr_sectors := to_u64 b.bmv_length, info := env.info k b is_rt bstart bbperag } ::
      file_extents_of env ino is_rt bstart bbperag rest (k + 1)

/-- Example answers of the kernel for a file of three records, the second a
hole. -/
def ex_file_env : xfs_file_env :=
  { xfsctl_fsgetxattr := fun _ => .ok { fsx_xflags := 0, fsx_nextents := 2 }
    xfsctl_getbmapx := fun _ _ =>
      .ok [{ bmv_offset := 0, bmv_block := 100, bmv_length := 8 },
           { bmv_offset := 8, bmv_block := -1, bmv_length := 8 },
           { bmv_offset := 16, bmv_block := 300, bmv_length := 4 }]
    info := fun _ _ _ _ _ => List.replicate ZNR_FS_EXT_INFO_SIZE 0 }

/-- Example answers of the kernel for a file whose attributes report one
extent and whose extent map comes back without a record. -/
def ex_empty_map_env : xfs_file_env :=
  { ex_file_env with
    xfsctl_fsgetxattr := fun _ => .ok { fsx_xflags := 0, fsx_nextents := 1 }
    xfsctl_getbmapx := fun _ _ => .ok [] }

/-- Example answers of the kernel for a file whose attributes report no
extent. -/
def ex_no_extent_env : xfs_file_env :=
  { ex_file_env with
    xfsctl_fsgetxattr := fun _ => .ok { fsx_xflags := 0, fsx_nextents := 0 } }

/-- Spec-side definition: the extent `ext` at position `k` of a result comes
from a reverse-map record `p` that satisfies `M`, as the range query
`(sector, sector_end)` requires. -/
def range_extent_ok (M : fsmap → Prop) (sector sector_end k : Nat) (ext : znr_extent) : Prop :=
  ∃ p, M p ∧ p.fmr_flags &&& FMR_OF_SPECIAL_OWNER = 0 ∧ ext.type = ZNR_FS_ZONE_EXTENT ∧
    ext.sector = p.fmr_physical / 512 ∧ sector ≤ ext.sector ∧ ext.sector < sector_end ∧
    ext.idx = k ∧ ext.ino = p.fmr_owner ∧ ext.nr_sectors = p.fmr_length / 512

/-- Example reverse map: three records on the realtime device, the second
owned by the filesystem, the third marked as the last one. -/
def ex_range_env : xfs_range_env :=
  { getfsmap := fun _ _ _ =>
      { count := .ok 3
        batches :=
          [.ok [{ fmr_device := 3, fmr_flags := 0, fmr_physical := 8704000, fmr_owner := 11,
                  fmr_offset := 0, fmr_length := 4096 },
                { fmr_device := 3, fmr_flags := 0x10, fmr_physical := 8708096, fmr_owner := 5,
                  fmr_offset := 0, fmr_length := 4096 },
                { fmr_device := 3, fmr_flags := 0x20, fmr_physical := 9216000, fmr_owner := 12,
                  fmr_offset := 0, fmr_length := 8192 }]] }
    info := fun _ _ => List.replicate ZNR_FS_EXT_INFO_SIZE 0 }

/-- Example reverse map with one record of 256 bytes, less than a sector. -/
def ex_short_record_env : xfs_range_env :=
  { getfsmap := fun _ _ _ =>
      { count := .ok 1
        batches :=
          [.ok [{ fmr_device := 3, fmr_flags := 0x20, fmr_physical := 8704000, fmr_owner := 11,
                  fmr_offset := 0, fmr_length := 256 }]] }
    info := fun _ _ => List.replicate ZNR_FS_EXT_INFO_SIZE 0 }

/-- Example answers of the kernel for a zoned device of 1 TiB whose logical
block size ioctl stores `-1`. -/
def ex_negative_size_env : dev_env :=
  { sysfs_zoned := .ok true, blksszget := .ok (-1), blkpbszget := .ok 4096,
    blkgetsize64 := .ok 1099511627776, sysfs_chunk_sectors := .ok 524288,
    sysfs_nr_zones := .ok 4096, sysfs_max_open_zones := .ok 128,
    sysfs_max_active_zones := .ok 256 }

/-- Example answers of the kernel for a device that is not zoned: the sysfs
attributes `chunk_sectors` and `nr_zones` read 0. -/
def ex_plain_dev_env : dev_env :=
  { sysfs_zoned := .ok false, blksszget := .ok 512, blkpbszget := .ok 4096,
    blkgetsize64 := .ok 204800, sysfs_chunk_sectors := .ok 0, sysfs_nr_zones := .ok 0,
    sysfs_max_open_zones := .ok 0, sysfs_max_active_zones := .ok 0 }

/-- Example answers of the kernel for the example zoned device of four
zones. -/
def ex_zoned_dev_env : dev_env :=
  { sysfs_zoned := .ok true, blksszget := .ok 512, blkpbszget := .ok 4096,
    blkgetsize64 := .ok 204800, sysfs_chunk_sectors := .ok 100, sysfs_nr_zones := .ok 4,
    sysfs_max_open_zones := .ok 0, sysfs_max_active_zones := .ok 0 }

/-- Example answers of the system to the opening of a session: an XFS
filesystem of two allocation groups of 200 sectors mounted on `/m` from the
device `/d`, which is not zoned. -/
def ex_open_env : open_env :=
  { stat_path := .ok true, setmntent := .ok (), mnt_entry := some ([47, 109], [47, 100]),
    stat_fsname := .ok true, open_dir := .ok 3, fstat_dir := .ok (), statfs_xfs := .ok true,
    fsgeometry := .ok { blocksize := 512, rtextsize := 1, agblocks := 200, agcount := 2,
                        rgextents := 0, rgcount := 0, rtstart := 0 },
    realpath := some [47, 100], open_dev := .ok 4, dev := ex_plain_dev_env }

/-- The example opening with a device path that cannot be resolved. -/
def ex_no_dev_env : open_env := { ex_open_env with realpath := none }

/-- The example opening with a zoned device that reports no zone. -/
def ex_no_zone_env : open_env :=
  { ex_open_env with dev := { ex_zoned_dev_env with sysfs_nr_zones := .ok 0 } }

/-- Every errno the system reports while the filesystem is opened is not
0. -/
def errnos_set (env : open_env) : Prop :=
  (∀ e, env.setmntent = .error e → e ≠ 0) ∧ (∀ e, env.open_dir = .error e → e ≠ 0) ∧
  (∀ e, env.fstat_dir = .error e → e ≠ 0) ∧ (∀ e, env.statfs_xfs = .error e → e ≠ 0) ∧
  (∀ e, env.fsgeometry = .error e → e ≠ 0)

/-- Example blockgroup array whose last blockgroup ends inside a zone:
`[0, 100)` and `[100, 250)` on the example device with zones of 100
sectors. -/
def ex_unaligned_blockgroups : List znr_bg :=
  [ { sector := 0, nr_sectors := 100, wp_sector := 0, flags := 0,
      zones := List.replicate 512 none, nr_zones := 0 },
    { sector := 100, nr_sectors := 150, wp_sector := 0, flags := 0,
      zones := List.replicate 512 none, nr_zones := 0 } ]

/-- Number of zones of the large example device: `2^26`, the smallest count
whose payload size `nr_zones * 64` is 0 as a 32-bit value. -/
def big_nr_zones : Nat := 67108864

/-- Zone `i` of the large example device: 8 sectors from sector `8 * i`, a
sequential-write-required zone that is empty. -/
def big_zone (i : Nat) : blk_zone :=
  { start := 8 * i, len := 8, wp := 8 * i, type := 2, cond := 1, non_seq := 0, reset := 0,
    capacity := 8 }

/-- The kernel of the large example device: a report from a sector gives the
zones from the one that holds the sector, as many as asked and as the device
has. -/
def big_env : report_env :=
  { ioctl_v2 := fun sector nr =>
      .ok ((List.range' (sector / 8) (min nr (big_nr_zones - sector / 8))).map big_zone)
    ioctl_legacy := fun _ _ => .error 25
    net_get_dev_rep_zones := fun _ _ => (-1, []) }

/-- The large example device: `2^26` zones of 8 sectors. -/
def big_dev : znr_device :=
  { nr_sectors := 536870912, nr_lblocks := 536870912, nr_pblocks := 67108864,
    zone_size := 4096, zone_sectors := 8, lblock_size := 512, pblock_size := 4096,
    nr_zones := 67108864, max_nr_open_zones := 0, max_nr_active_zones := 0, is_zoned := true }

/-- The session of the server of the large example device. -/
def big_session : znr := { nr_zones := 67108864, nr_blockgroups := 1, is_net_client := false }

/-- The zones of the large example device, as the session holds them after
its first report. -/
def big_zones : List blk_zone := (List.range' 0 big_nr_zones).map big_zone

/-- The request for all zones of the large example device. -/
def big_req : znr_net_req := { (default : znr_net_req) with zno := 0, nr_zones := 67108864 }

/-- Example zoned device of four zones of 8 sectors. -/
def ex_pow2_dev : znr_device :=
  { nr_sectors := 32, nr_lblocks := 32, nr_pblocks := 4, zone_size := 4096,
    zone_sectors := 8, lblock_size := 512, pblock_size := 4096, nr_zones := 4,
    max_nr_open_zones := 0, max_nr_active_zones := 0, is_zoned := true }

/-- Spec-side definition: the zones `zs` are the zones of the device `dev`,
one after the other from sector 0, each of `zone_sectors` sectors, up to the
capacity of the device. -/
def device_zones (dev : znr_device) (zs : List blk_zone) : Prop :=
  zs.length = dev.nr_zones ∧ 0 < dev.zone_sectors ∧
  dev.nr_sectors = dev.zone_sectors * dev.nr_zones ∧ dev.nr_sectors < U64 ∧
  ∀ i z, zs[i]? = some z → z.start = dev.zone_sectors * i ∧ z.len = dev.zone_sectors

/-- Spec-side definition: the kernel answers a report from the first sector
of zone `i` with the zones of the device from zone `i` on, at most as many as
asked. -/
def kernel_reports (env : report_env) (dev : znr_device) (zs : List blk_zone) : Prop :=
  ∀ i nr, i < dev.nr_zones →
    env.ioctl_v2 (dev.zone_sectors * i) nr = .ok ((zs.drop i).take nr)

/-- The example opening with a zoned device of four zones whose sysfs zone
size reads 0. -/
def ex_zero_zone_size_env : open_env :=
  { ex_open_env with dev := { ex_zoned_dev_env with sysfs_chunk_sectors := .ok 0 } }

/-- Example answers of the kernel for a file whose attributes report one
extent, so that the map buffer holds the header and two entries, and whose
extent map comes back with three entries. -/
def ex_full_map_env : xfs_file_env :=
  { ex_file_env with
    xfsctl_fsgetxattr := fun _ => .ok { fsx_xflags := 0, fsx_nextents := 1 } }

/-! ## Theorems -/

theorem map_scan_ok (bge : Nat) (zs : List blk_zone) :
    ∀ (j k zsi : Nat) (bg : znr_bg), bg.nr_zones = k →
      k + (scan_pure bg.sector bge zs j zsi).1.length < ZNR_BG_MAX_ZONES →
      map_scan bge zs j k zsi bg =
        (false, (scan_pure bg.sector bge zs j zsi).2,
          { bg with zones := set_from bg.zones k (scan_pure bg.sector bge zs j zsi).1,
                    nr_zones := k + (scan_pure bg.sector bge zs j zsi).1.length }) := by
  induction zs with
  | nil =>
    intro j k zsi bg hk _
    subst hk
    simp [map_scan, scan_pure, set_from]
  | cons z rest ih =>
    intro j k zsi bg hk hlen
    unfold map_scan
    unfold scan_pure at hlen ⊢
    by_cases h1 : (z.start + z.len) % U64 ≤ bg.sector
    · simp only [h1, if_true] at hlen ⊢
      exact ih (j + 1) k (j + 1) bg hk hlen
    · by_cases h2 : z.start ≥ bge
      · subst hk
        simp [h1, h2, set_from]
      · simp only [h1, h2, if_false, List.length_cons] at hlen ⊢
        have h3 : ¬ (k + 1 ≥ ZNR_BG_MAX_ZONES) := by omega
        simp only [h3, if_false]
        have := ih (j + 1) (k + 1) zsi
          { sector := bg.sector, nr_sectors := bg.nr_sectors, wp_sector := bg.wp_sector, flags := bg.flags, zones := bg.zones.set k (some j), nr_zones := k + 1 } rfl (by simp only; omega)
        simp only at this
        rw [this]
        simp only [set_from, Prod.mk.injEq, true_and]
        congr 1
        omega

theorem map_scan_fail (bge : Nat) (zs : List blk_zone) :
    ∀ (j k zsi : Nat) (bg : znr_bg),
      ZNR_BG_MAX_ZONES ≤ k + (scan_pure bg.sector bge zs j zsi).1.length →
      k < ZNR_BG_MAX_ZONES →
      (map_scan bge zs j k zsi bg).1 = true := by
  induction zs with
  | nil =>
    intro j k zsi bg h hk
    simp [scan_pure] at h
    omega
  | cons z rest ih =>
    intro j k zsi bg hlen hk
    unfold map_scan
    unfold scan_pure at hlen
    by_cases h1 : (z.start + z.len) % U64 ≤ bg.sector
    · simp only [h1, if_true] at hlen ⊢
      exact ih (j + 1) k (j + 1) bg hlen hk
    · by_cases h2 : z.start ≥ bge
      · simp [h1, h2] at hlen
        omega
      · simp only [h1, h2, if_false, List.length_cons] at hlen ⊢
        by_cases h3 : k + 1 ≥ ZNR_BG_MAX_ZONES
        · simp [h3]
        · simp only [h3, if_false]
          exact ih (j + 1) (k + 1) zsi _ (by simp only; omega) (by omega)

theorem set_from_append (l : List Nat) :
    ∀ (pre : List (Option Nat)) (m : Nat), l.length ≤ m →
      set_from (pre ++ List.replicate m none) pre.length l =
        pre ++ l.map some ++ List.replicate (m - l.length) none := by
  induction l with
  | nil => intro pre m _; simp [set_from]
  | cons x l ih =>
    intro pre m hm
    simp only [List.length_cons] at hm
    obtain ⟨m', rfl⟩ : ∃ m', m = m' + 1 := ⟨m - 1, by omega⟩
    have hset : (pre ++ List.replicate (m' + 1) none).set pre.length (some x) =
        (pre ++ [some x]) ++ List.replicate m' none := by
      rw [List.set_append_right _ _ (Nat.le_refl _)]
      simp [List.replicate_succ]
    simp only [set_from, hset]
    have := ih (pre ++ [some x]) m' (by omega)
    simp only [List.length_append, List.length_singleton] at this
    rw [this]
    simp [Nat.add_sub_add_right]

theorem set_from_replicate (l : List Nat) (m : Nat) (h : l.length ≤ m) :
    set_from (List.replicate m none) 0 l =
      l.map some ++ List.replicate (m - l.length) none := by
  have := set_from_append l [] m h
  simpa using this

theorem map_loop_nil (zones : List blk_zone) (zsi : Nat) :
    map_loop zones [] zsi = (0, []) := by
  simp [map_loop]

theorem cursor_eq (zsi : Nat) : (if zsi > 1 then zsi - 1 else 0) = zsi - 1 := by
  split <;> omega

theorem map_loop_cons_some (zones : List blk_zone) (bg : znr_bg) (rest : List znr_bg)
    (zsi : Nat) (o : znr_bg) (c : Nat) (h : map_one zones bg zsi = some (o, c)) :
    map_loop zones (bg :: rest) zsi =
      ((map_loop zones rest c).1, o :: (map_loop zones rest c).2) := by
  unfold map_one at h
  simp only at h
  split at h
  · rename_i hp
    obtain ⟨hlen, hne⟩ := hp
    simp only [Option.some.injEq, Prod.mk.injEq] at h
    obtain ⟨ho, hc⟩ := h
    subst ho hc
    rw [map_loop]
    simp only [cursor_eq]
    have hs := map_scan_ok ((bg.sector + bg.nr_sectors) % U64) (zones.drop (zsi - 1)) (zsi - 1) 0 zsi
      { bg with zones := List.replicate ZNR_BG_MAX_ZONES none, nr_zones := 0 } rfl
      (by simpa [bg_sector_end] using hlen)
    simp only [bg_sector_end] at hlen hne ⊢
    simp only [Nat.zero_add] at hs
    rw [hs]
    simp only
    have hpos : (scan_pure bg.sector ((bg.sector + bg.nr_sectors) % U64)
        (List.drop (zsi - 1) zones) (zsi - 1) zsi).1.length ≠ 0 := by
      intro h0
      exact hne (List.length_eq_zero.mp h0)
    rw [if_neg hpos]
    rw [set_from_replicate _ _ (Nat.le_of_lt hlen)]
    have hhead : (List.map some (scan_pure bg.sector ((bg.sector + bg.nr_sectors) % U64)
        (List.drop (zsi - 1) zones) (zsi - 1) zsi).1 ++
          List.replicate (ZNR_BG_MAX_ZONES - (scan_pure bg.sector ((bg.sector + bg.nr_sectors) % U64)
        (List.drop (zsi - 1) zones) (zsi - 1) zsi).1.length) none).getD 0 none =
        some ((scan_pure bg.sector ((bg.sector + bg.nr_sectors) % U64)
        (List.drop (zsi - 1) zones) (zsi - 1) zsi).1.headD 0) := by
      cases hL : (scan_pure bg.sector ((bg.sector + bg.nr_sectors) % U64)
        (List.drop (zsi - 1) zones) (zsi - 1) zsi).1 with
      | nil => exact absurd hL hne
      | cons a l => simp
    rw [hhead]
    split <;> rfl
  · exact absurd h (by simp)

theorem map_loop_cons_none (zones : List blk_zone) (bg : znr_bg) (rest : List znr_bg)
    (zsi : Nat) (h : map_one zones bg zsi = none) :
    (map_loop zones (bg :: rest) zsi).1 = -EINVAL := by
  unfold map_one at h
  simp only at h
  split at h
  · exact absurd h (by simp)
  · rename_i hp
    unfold map_loop
    simp only [cursor_eq]
    simp only [bg_sector_end] at hp
    by_cases hlen : (scan_pure bg.sector ((bg.sector + bg.nr_sectors) % U64)
        (List.drop (zsi - 1) zones) (zsi - 1) zsi).1.length < ZNR_BG_MAX_ZONES
    · have hnil : (scan_pure bg.sector ((bg.sector + bg.nr_sectors) % U64)
        (List.drop (zsi - 1) zones) (zsi - 1) zsi).1 = [] := by
        by_contra hne
        exact hp ⟨hlen, hne⟩
      have hs := map_scan_ok ((bg.sector + bg.nr_sectors) % U64) (zones.drop (zsi - 1)) (zsi - 1) 0 zsi
        { bg with zones := List.replicate ZNR_BG_MAX_ZONES none, nr_zones := 0 } rfl
        (by simpa using hlen)
      simp only [Nat.zero_add] at hs
      rw [hs]
      simp [hnil]
    · have hf := map_scan_fail ((bg.sector + bg.nr_sectors) % U64) (zones.drop (zsi - 1)) (zsi - 1) 0 zsi
        { bg with zones := List.replicate ZNR_BG_MAX_ZONES none, nr_zones := 0 }
        (by simp only [Nat.zero_add]; omega) (by decide)
      generalize map_scan ((bg.sector + bg.nr_sectors) % U64) (zones.drop (zsi - 1)) (zsi - 1) 0 zsi
        { bg with zones := List.replicate ZNR_BG_MAX_ZONES none, nr_zones := 0 } = r at hf ⊢
      obtain ⟨b, c, bg1⟩ := r
      simp only at hf
      subst hf
      rfl

theorem overlapping_from_eq_filter (bg : znr_bg) (zs : List blk_zone) :
    ∀ j, overlapping_from bg zs j =
      ((List.range zs.length).filter (fun i => zone_overlaps (zs.getD i default) bg)).map
        (fun i => i + j) := by
  induction zs with
  | nil => intro j; simp [overlapping_from]
  | cons z rest ih =>
    intro j
    simp only [overlapping_from, List.length_cons, List.range_succ_eq_map, List.filter_cons,
      List.getD_cons_zero, List.filter_map]
    have hfun : ((fun i => zone_overlaps ((z :: rest).getD i default) bg) ∘ Nat.succ) =
        (fun i => zone_overlaps (rest.getD i default) bg) := by
      funext i
      simp
    rw [hfun, ih (j + 1)]
    by_cases h : zone_overlaps z bg = true
    · simp [h, Nat.add_comm, Nat.add_left_comm]
    · simp [h, Nat.add_comm, Nat.add_left_comm]

theorem overlapping_from_zero (bg : znr_bg) (zs : List blk_zone) :
    overlapping_from bg zs 0 = overlapping_zones zs bg := by
  rw [overlapping_from_eq_filter, overlapping_zones]
  simp

theorem overlapping_from_append (bg : znr_bg) (a b : List blk_zone) :
    ∀ j, overlapping_from bg (a ++ b) j =
      overlapping_from bg a j ++ overlapping_from bg b (j + a.length) := by
  induction a with
  | nil => intro j; simp [overlapping_from]
  | cons z rest ih =>
    intro j
    have hj : j + 1 + rest.length = j + (rest.length + 1) := by omega
    rw [List.cons_append, overlapping_from, overlapping_from, ih (j + 1), List.length_cons, hj]
    split <;> simp

theorem overlapping_from_nil_of (bg : znr_bg) (zs : List blk_zone)
    (h : ∀ z ∈ zs, zone_overlaps z bg = false) :
    ∀ j, overlapping_from bg zs j = [] := by
  induction zs with
  | nil => intro j; rfl
  | cons z rest ih =>
    intro j
    simp only [overlapping_from]
    rw [h z (List.mem_cons_self _ _)]
    simp only [Bool.false_eq_true, if_false]
    exact ih (fun z hz => h z (List.mem_cons_of_mem _ hz)) (j + 1)

/-- Every index recorded by the scan is an index of the scanned list whose
zone passes both tests of the loop. -/
theorem scan_pure_mem (bg : znr_bg) (zs : List blk_zone) :
    ∀ (j zsi i : Nat), i ∈ (scan_pure bg.sector (bg_sector_end bg) zs j zsi).1 →
      j ≤ i ∧ ∃ z, zs[i - j]? = some z ∧ zone_overlaps z bg = true := by
  induction zs with
  | nil => intro j zsi i h; simp [scan_pure] at h
  | cons z rest ih =>
    intro j zsi i h
    unfold scan_pure at h
    by_cases h1 : (z.start + z.len) % U64 ≤ bg.sector
    · simp only [h1, if_true] at h
      obtain ⟨hji, z', hz', hov⟩ := ih (j + 1) (j + 1) i h
      refine ⟨by omega, z', ?_, hov⟩
      have : i - j = (i - (j + 1)) + 1 := by omega
      rw [this, List.getElem?_cons_succ]
      exact hz'
    · by_cases h2 : z.start ≥ bg_sector_end bg
      · simp [h1, h2] at h
      · simp only [h1, h2, if_false, List.mem_cons] at h
        rcases h with rfl | h
        · refine ⟨Nat.le_refl _, z, by simp, ?_⟩
          simp only [zone_overlaps, zone_sector_end, Bool.and_eq_true, decide_eq_true_eq]
          omega
        · obtain ⟨hji, z', hz', hov⟩ := ih (j + 1) zsi i h
          refine ⟨by omega, z', ?_, hov⟩
          have : i - j = (i - (j + 1)) + 1 := by omega
          rw [this, List.getElem?_cons_succ]
          exact hz'

/-- On a zone list with non-decreasing start sectors the scan records exactly
the zones that pass the overlap test. -/
theorem scan_pure_complete (bg : znr_bg) (zs : List blk_zone)
    (hs : zs.Pairwise (fun a b => a.start ≤ b.start)) :
    ∀ (j zsi : Nat), (scan_pure bg.sector (bg_sector_end bg) zs j zsi).1 =
      overlapping_from bg zs j := by
  induction zs with
  | nil => intro j zsi; simp [scan_pure, overlapping_from]
  | cons z rest ih =>
    intro j zsi
    rw [List.pairwise_cons] at hs
    unfold scan_pure overlapping_from
    by_cases h1 : (z.start + z.len) % U64 ≤ bg.sector
    · have hov : zone_overlaps z bg = false := by
        simp only [zone_overlaps, zone_sector_end, Bool.and_eq_false_iff, decide_eq_false_iff_not]
        right; omega
      simp only [h1, if_true, hov, Bool.false_eq_true, if_false]
      exact ih hs.2 (j + 1) (j + 1)
    · by_cases h2 : z.start ≥ bg_sector_end bg
      · have hov : zone_overlaps z bg = false := by
          simp only [zone_overlaps, Bool.and_eq_false_iff, decide_eq_false_iff_not]
          left; omega
        simp only [h1, h2, if_true, if_false, hov, Bool.false_eq_true]
        symm
        apply overlapping_from_nil_of
        intro z' hz'
        have := hs.1 z' hz'
        simp only [zone_overlaps, Bool.and_eq_false_iff, decide_eq_false_iff_not]
        left; omega
      · have hov : zone_overlaps z bg = true := by
          simp only [zone_overlaps, zone_sector_end, Bool.and_eq_true, decide_eq_true_eq]
          omega
        simp only [h1, h2, if_false, hov, if_true]
        rw [ih hs.2 (j + 1) zsi]

/-- The start cursor after a scan is the old one, or one past a zone of the
scanned list that ends at or before the blockgroup start. -/
theorem scan_pure_cursor (bg : znr_bg) (zs : List blk_zone) :
    ∀ (j zsi : Nat),
      (scan_pure bg.sector (bg_sector_end bg) zs j zsi).2 = zsi ∨
      ∃ z, j < (scan_pure bg.sector (bg_sector_end bg) zs j zsi).2 ∧
        zs[(scan_pure bg.sector (bg_sector_end bg) zs j zsi).2 - 1 - j]? = some z ∧
        zone_sector_end z ≤ bg.sector := by
  induction zs with
  | nil => intro j zsi; left; simp [scan_pure]
  | cons z rest ih =>
    intro j zsi
    unfold scan_pure
    by_cases h1 : (z.start + z.len) % U64 ≤ bg.sector
    · simp only [h1, if_true]
      right
      rcases ih (j + 1) (j + 1) with h | ⟨z', hlt, hz', hle⟩
      · rw [h]
        exact ⟨z, by omega, by simp, h1⟩
      · refine ⟨z', by omega, ?_, hle⟩
        have : (scan_pure bg.sector (bg_sector_end bg) rest (j + 1) (j + 1)).2 - 1 - j =
            ((scan_pure bg.sector (bg_sector_end bg) rest (j + 1) (j + 1)).2 - 1 - (j + 1)) + 1 := by
          omega
        rw [this, List.getElem?_cons_succ]
        exact hz'
    · by_cases h2 : z.start ≥ bg_sector_end bg
      · left; simp [h1, h2]
      · simp only [h1, h2, if_false]
        rcases ih (j + 1) zsi with h | ⟨z', hlt, hz', hle⟩
        · left; exact h
        · right
          refine ⟨z', by omega, ?_, hle⟩
          have : (scan_pure bg.sector (bg_sector_end bg) rest (j + 1) zsi).2 - 1 - j =
              ((scan_pure bg.sector (bg_sector_end bg) rest (j + 1) zsi).2 - 1 - (j + 1)) + 1 := by
            omega
          rw [this, List.getElem?_cons_succ]
          exact hz'

theorem EINVAL_ne_zero : (-EINVAL : Int) ≠ 0 := by decide

/-- Induction principle for a successful run of the outer loop: a relation
between each blockgroup and its new contents that every iteration
establishes holds along the whole array. -/
theorem map_loop_rel (zones : List blk_zone) (R : znr_bg → znr_bg → Prop)
    (Inv : Nat → List znr_bg → Prop)
    (hstep : ∀ bg rest zsi o c, Inv zsi (bg :: rest) → map_one zones bg zsi = some (o, c) →
      R bg o ∧ Inv c rest) :
    ∀ (bgs : List znr_bg) (zsi : Nat) (out : List znr_bg), Inv zsi bgs →
      map_loop zones bgs zsi = (0, out) → List.Forall₂ R bgs out := by
  intro bgs
  induction bgs with
  | nil =>
    intro zsi out _ h
    rw [map_loop_nil] at h
    simp only [Prod.mk.injEq, true_and] at h
    subst h
    exact List.Forall₂.nil
  | cons bg rest ih =>
    intro zsi out hinv h
    cases hm : map_one zones bg zsi with
    | none =>
      have := map_loop_cons_none zones bg rest zsi hm
      rw [h] at this
      exact absurd this.symm EINVAL_ne_zero
    | some oc =>
      obtain ⟨o, c⟩ := oc
      rw [map_loop_cons_some zones bg rest zsi o c hm] at h
      simp only [Prod.mk.injEq] at h
      obtain ⟨h1, h2⟩ := h
      subst h2
      obtain ⟨hR, hI⟩ := hstep bg rest zsi o c hinv hm
      exact List.Forall₂.cons hR (ih c _ hI (Prod.ext h1 rfl))

/-- A successful call went through the outer loop. -/
theorem map_zones_eq_loop (g : znr) (blockgroups out : List znr_bg) (zones : List blk_zone)
    (h : znr_bg_map_zones_to_blockgroups g blockgroups zones = (0, out)) :
    map_loop zones blockgroups 0 = (0, out) := by
  unfold znr_bg_map_zones_to_blockgroups at h
  split at h
  · exact absurd (congrArg Prod.fst h) EINVAL_ne_zero
  · split at h
    · exact absurd (congrArg Prod.fst h) EINVAL_ne_zero
    · split at h
      · exact absurd (congrArg Prod.fst h) EINVAL_ne_zero
      · exact h

/-- The fields of the blockgroup written back by one iteration. -/
theorem map_one_fields (zones : List blk_zone) (bg o : znr_bg) (zsi c : Nat)
    (h : map_one zones bg zsi = some (o, c)) :
    ∃ L : List Nat, L ≠ [] ∧ L.length < ZNR_BG_MAX_ZONES ∧
      L = (scan_pure bg.sector (bg_sector_end bg) (zones.drop (zsi - 1)) (zsi - 1) zsi).1 ∧
      c = (scan_pure bg.sector (bg_sector_end bg) (zones.drop (zsi - 1)) (zsi - 1) zsi).2 ∧
      o.sector = bg.sector ∧ o.nr_sectors = bg.nr_sectors ∧
      o.zones = L.map some ++ List.replicate (ZNR_BG_MAX_ZONES - L.length) none ∧
      o.nr_zones = L.length ∧
      o.flags = (zone_at zones (some (L.headD 0))).type ∧
      o.wp_sector =
        if (zone_at zones (some (L.headD 0))).type = BLK_ZONE_TYPE_SEQWRITE_REQ then
          ((zone_at zones (some (L.headD 0))).wp + U64 - bg.sector) % U64
        else 0 := by
  unfold map_one at h
  simp only at h
  split at h
  · rename_i hp
    simp only [Option.some.injEq, Prod.mk.injEq] at h
    obtain ⟨ho, hc⟩ := h
    subst ho hc
    exact ⟨_, hp.2, hp.1, rfl, rfl, rfl, rfl, rfl, rfl, rfl, rfl⟩
  · exact absurd h (by simp)

theorem take_map_some (L : List Nat) (m : Nat) :
    (L.map some ++ List.replicate m (none : Option Nat)).take L.length = L.map some := by
  have : L.length = (L.map some).length := by simp
  rw [this, List.take_left]

theorem getElem?_drop_sub (zones : List blk_zone) (j i : Nat) (h : j ≤ i) :
    (zones.drop j)[i - j]? = zones[i]? := by
  rw [List.getElem?_drop]
  congr 1
  omega

/-- Every zone recorded for a blockgroup by one iteration is a zone of the
array that passes the overlap test. -/
theorem map_one_sound (zones : List blk_zone) (bg o : znr_bg) (zsi c : Nat)
    (h : map_one zones bg zsi = some (o, c)) :
    o.sector = bg.sector ∧ o.nr_sectors = bg.nr_sectors ∧ 1 ≤ o.nr_zones ∧
    ∀ p ∈ o.zones.take o.nr_zones, ∃ j z, p = some j ∧ zones[j]? = some z ∧
      zone_overlaps z bg = true := by
  obtain ⟨L, hne, hlt, hL, hc, hs, hn, hz, hnr, hf, hw⟩ := map_one_fields zones bg o zsi c h
  refine ⟨hs, hn, ?_, ?_⟩
  · rw [hnr]
    cases L with
    | nil => exact absurd rfl hne
    | cons a l => simp
  · intro p hp
    rw [hz, hnr, take_map_some] at hp
    obtain ⟨j, hj, rfl⟩ := List.mem_map.mp hp
    rw [hL] at hj
    obtain ⟨hle, z, hz', hov⟩ := scan_pure_mem bg _ _ _ _ hj
    rw [getElem?_drop_sub zones _ _ hle] at hz'
    exact ⟨j, z, rfl, hz', hov⟩

theorem zone_overlaps_iff (z : blk_zone) (bg : znr_bg) :
    zone_overlaps z bg = true ↔
      z.start < (bg.sector + bg.nr_sectors) % U64 ∧ bg.sector < (z.start + z.len) % U64 := by
  simp [zone_overlaps, bg_sector_end, zone_sector_end]

/-- C1 (soundness of the zone mapping).  When `znr_bg_map_zones_to_blockgroups`
returns 0, every blockgroup of the array keeps its sector range, has
`nr_zones >= 1`, and every pointer in `zones[0 .. nr_zones)` points to a zone
of the passed array that overlaps the blockgroup: the zone starts before the
blockgroup end and ends after the blockgroup start, both in the 64-bit
arithmetic of the program and over the unbounded integers. -/
theorem mapping_sound (g : znr) (blockgroups out : List znr_bg) (zones : List blk_zone)
    (h : znr_bg_map_zones_to_blockgroups g blockgroups zones = (0, out)) :
    List.Forall₂
      (fun bg o =>
        o.sector = bg.sector ∧ o.nr_sectors = bg.nr_sectors ∧ 1 ≤ o.nr_zones ∧
        ∀ p ∈ o.zones.take o.nr_zones, ∃ j z, p = some j ∧ zones[j]? = some z ∧
          z.start < (o.sector + o.nr_sectors) % U64 ∧ o.sector < (z.start + z.len) % U64 ∧
          z.start < o.sector + o.nr_sectors ∧ o.sector < z.start + z.len)
      blockgroups out := by
  refine map_loop_rel zones _ (fun _ _ => True) ?_ blockgroups 0 out trivial
    (map_zones_eq_loop g blockgroups out zones h)
  intro bg rest zsi o c _ hm
  obtain ⟨hs, hn, h1, hall⟩ := map_one_sound zones bg o zsi c hm
  refine ⟨⟨hs, hn, h1, ?_⟩, trivial⟩
  intro p hp
  obtain ⟨j, z, hpj, hz, hov⟩ := hall p hp
  rw [zone_overlaps_iff] at hov
  rw [hs, hn]
  refine ⟨j, z, hpj, hz, hov.1, hov.2, ?_, ?_⟩
  · exact Nat.lt_of_lt_of_le hov.1 (Nat.mod_le _ _)
  · exact Nat.lt_of_lt_of_le hov.2 (Nat.mod_le _ _)

theorem forall₂_right {α β : Type} {R : α → β → Prop} {P : β → Prop} {l₁ : List α}
    {l₂ : List β} (h : List.Forall₂ R l₁ l₂) (hP : ∀ a b, R a b → P b) : ∀ b ∈ l₂, P b := by
  induction h with
  | nil => intro b hb; simp at hb
  | cons hab _ ih =>
    intro b hb
    rcases List.mem_cons.mp hb with rfl | hb
    · exact hP _ _ hab
    · exact ih b hb

/-- The first pointer written for a blockgroup and the zone it points to. -/
theorem map_one_first (zones : List blk_zone) (bg o : znr_bg) (zsi c : Nat)
    (h : map_one zones bg zsi = some (o, c)) :
    ∃ j z, o.zones[0]? = some (some j) ∧ zones[j]? = some z ∧ zone_overlaps z bg = true ∧
      o.sector = bg.sector ∧ o.nr_sectors = bg.nr_sectors ∧ o.flags = z.type ∧
      o.wp_sector =
        if z.type = BLK_ZONE_TYPE_SEQWRITE_REQ then (z.wp + U64 - bg.sector) % U64 else 0 := by
  obtain ⟨L, hne, hlt, hL, hc, hs, hn, hz, hnr, hf, hw⟩ := map_one_fields zones bg o zsi c h
  cases L with
  | nil => exact absurd rfl hne
  | cons a l =>
    have ha : a ∈ (scan_pure bg.sector (bg_sector_end bg) (zones.drop (zsi - 1)) (zsi - 1) zsi).1 := by
      rw [← hL]; exact List.mem_cons_self _ _
    obtain ⟨hle, z, hz', hov⟩ := scan_pure_mem bg _ _ _ _ ha
    rw [getElem?_drop_sub zones _ _ hle] at hz'
    have hat : zone_at zones (some ((a :: l).headD 0)) = z := by
      simp only [List.headD_cons, zone_at, List.getD_eq_getElem?_getD, hz', Option.getD_some]
    rw [hat] at hf hw
    refine ⟨a, z, ?_, hz', hov, hs, hn, hf, hw⟩
    rw [hz]
    simp

/-- After a successful mapping every blockgroup has a first mapped zone that
fixes its flags and write pointer offset. -/
theorem mapped_first_zone (g : znr) (blockgroups out : List znr_bg) (zones : List blk_zone)
    (h : znr_bg_map_zones_to_blockgroups g blockgroups zones = (0, out)) :
    ∀ o ∈ out, ∃ j z, o.zones[0]? = some (some j) ∧ zones[j]? = some z ∧
      o.flags = z.type ∧
      (z.type = BLK_ZONE_TYPE_SEQWRITE_REQ →
        o.wp_sector = (z.wp + U64 - o.sector) % U64 ∧
        (z.wp < U64 → o.sector ≤ z.wp → o.wp_sector = z.wp - o.sector)) ∧
      (z.type ≠ BLK_ZONE_TYPE_SEQWRITE_REQ → o.wp_sector = 0) := by
  have hrel := map_loop_rel zones
    (fun _ o => ∃ j z, o.zones[0]? = some (some j) ∧ zones[j]? = some z ∧
      o.flags = z.type ∧
      (z.type = BLK_ZONE_TYPE_SEQWRITE_REQ →
        o.wp_sector = (z.wp + U64 - o.sector) % U64 ∧
        (z.wp < U64 → o.sector ≤ z.wp → o.wp_sector = z.wp - o.sector)) ∧
      (z.type ≠ BLK_ZONE_TYPE_SEQWRITE_REQ → o.wp_sector = 0))
    (fun _ _ => True) ?_ blockgroups 0 out trivial (map_zones_eq_loop g blockgroups out zones h)
  · exact forall₂_right hrel (fun _ _ hab => hab)
  · intro bg rest zsi o c _ hm
    obtain ⟨j, z, h0, hz, _, hs, _, hf, hw⟩ := map_one_first zones bg o zsi c hm
    refine ⟨⟨j, z, h0, hz, hf, ?_, ?_⟩, trivial⟩
    · intro ht
      rw [if_pos ht] at hw
      rw [hs]
      refine ⟨hw, ?_⟩
      intro hlt hle
      rw [hw]
      have : z.wp + U64 - bg.sector = (z.wp - bg.sector) + U64 := by omega
      rw [this, Nat.add_mod_right, Nat.mod_eq_of_lt (by omega)]
    · intro ht
      rw [if_neg ht] at hw
      exact hw

/-- C3 (flags and write pointer of a mapped blockgroup).  After a successful
mapping every blockgroup has a first mapped zone `z` (the zone its pointer
`zones[0]` points to), its `flags` equal the type of `z`; if that type is
sequential-write-required then `wp_sector` is `z.wp - sector` in unsigned
64-bit arithmetic (the plain difference when `sector <= z.wp < 2^64`), and
otherwise `wp_sector = 0` whatever `z.wp` holds. -/
theorem mapping_flags_wp (g : znr) (blockgroups out : List znr_bg) (zones : List blk_zone)
    (h : znr_bg_map_zones_to_blockgroups g blockgroups zones = (0, out)) :
    ∀ o ∈ out, ∃ j z, o.zones[0]? = some (some j) ∧ zones[j]? = some z ∧
      o.flags = z.type ∧
      (z.type = BLK_ZONE_TYPE_SEQWRITE_REQ →
        o.wp_sector = (z.wp + U64 - o.sector) % U64 ∧
        (z.wp < U64 → o.sector ≤ z.wp → o.wp_sector = z.wp - o.sector)) ∧
      (z.type ≠ BLK_ZONE_TYPE_SEQWRITE_REQ → o.wp_sector = 0) :=
  mapped_first_zone g blockgroups out zones h

/-- In an abutting array of non-empty zones every zone but the last ends, in
64-bit arithmetic as well, where its successor starts, and starts before it. -/
theorem abut_chain (zones : List blk_zone) (habut : zones_abut zones)
    (hlen : ∀ z ∈ zones, 0 < z.len) (hty : ∀ z ∈ zones, z.start < U64) :
    zones.Chain' (fun a b => zone_sector_end a = b.start ∧ a.start < b.start) := by
  induction zones with
  | nil => exact List.chain'_nil
  | cons a rest ih =>
    cases rest with
    | nil => exact List.chain'_singleton a
    | cons b l =>
      unfold zones_abut at habut ih
      rw [List.chain'_cons] at habut ⊢
      refine ⟨?_, ih habut.2 (fun z hz => hlen z (List.mem_cons_of_mem _ hz))
        (fun z hz => hty z (List.mem_cons_of_mem _ hz))⟩
      have hb : b.start < U64 := hty b (by simp)
      have ha : 0 < a.len := hlen a (by simp)
      have h1 := habut.1
      unfold zone_sector_end
      rw [h1, Nat.mod_eq_of_lt hb]
      exact ⟨rfl, by omega⟩

theorem chain_pairwise (zones : List blk_zone)
    (h : zones.Chain' (fun a b => zone_sector_end a = b.start ∧ a.start < b.start)) :
    zones.Pairwise (fun a b => a.start < b.start ∧ zone_sector_end a ≤ b.start) := by
  haveI : IsTrans blk_zone (fun a b => a.start < b.start ∧ zone_sector_end a ≤ b.start) :=
    ⟨fun a b c hab hbc => ⟨Nat.lt_trans hab.1 hbc.1, Nat.le_trans hab.2 (Nat.le_of_lt hbc.1)⟩⟩
  rw [← List.chain'_iff_pairwise]
  exact h.imp (fun _ _ hab => ⟨hab.2, Nat.le_of_eq hab.1⟩)

theorem not_overlaps_of_end_le (z : blk_zone) (bg : znr_bg)
    (h : zone_sector_end z ≤ bg.sector) : zone_overlaps z bg = false := by
  simp only [zone_overlaps, Bool.and_eq_false_iff, decide_eq_false_iff_not]
  right; omega

/-- No zone before a cursor zone that ends at or before the blockgroup start
overlaps the blockgroup. -/
theorem prefix_no_overlap (zones : List blk_zone) (bg : znr_bg) (j0 : Nat) (b : blk_zone)
    (hchain : zones.Chain' (fun a b => zone_sector_end a = b.start ∧ a.start < b.start))
    (hb : zones[j0]? = some b) (hend : zone_sector_end b ≤ bg.sector)
    (hstrict : b.start < zone_sector_end b) :
    ∀ a ∈ zones.take j0, zone_overlaps a bg = false := by
  intro a ha
  have hp := chain_pairwise zones hchain
  rw [← List.take_append_drop j0 zones, List.pairwise_append] at hp
  have hbmem : b ∈ zones.drop j0 := by
    have : (zones.drop j0)[0]? = some b := by
      rw [List.getElem?_drop]; simpa using hb
    exact List.getElem?_mem this
  have := hp.2.2 a ha b hbmem
  apply not_overlaps_of_end_le
  omega

/-- When the scan that starts at a cursor zone ending at or before the
blockgroup start records a zone, the cursor zone is not the last zone, so it
ends after its own start. -/
theorem cursor_zone_strict (zones : List blk_zone) (bg : znr_bg) (j0 zsi : Nat) (b : blk_zone)
    (hchain : zones.Chain' (fun a b => zone_sector_end a = b.start ∧ a.start < b.start))
    (hb : zones[j0]? = some b) (hend : zone_sector_end b ≤ bg.sector)
    (hne : (scan_pure bg.sector (bg_sector_end bg) (zones.drop j0) j0 zsi).1 ≠ []) :
    b.start < zone_sector_end b := by
  obtain ⟨i, hi⟩ := List.exists_mem_of_ne_nil _ hne
  obtain ⟨hle, z, hz, hov⟩ := scan_pure_mem bg _ _ _ _ hi
  have hdrop := List.Chain'.drop hchain j0
  have h0 : (zones.drop j0)[0]? = some b := by
    rw [List.getElem?_drop]; simpa using hb
  cases hd : zones.drop j0 with
  | nil => rw [hd] at h0; simp at h0
  | cons b' rest =>
    rw [hd] at h0 hz hdrop
    simp only [List.getElem?_cons_zero, Option.some.injEq] at h0
    subst h0
    cases hk : i - j0 with
    | zero =>
      rw [hk] at hz
      simp only [List.getElem?_cons_zero, Option.some.injEq] at hz
      subst hz
      rw [zone_overlaps_iff] at hov
      unfold zone_sector_end at hend
      omega
    | succ k =>
      cases rest with
      | nil => rw [hk] at hz; simp at hz
      | cons c l =>
        rw [List.chain'_cons] at hdrop
        omega

/-- Under the cursor invariant, the scan from the backed-up cursor records
exactly the zones of the whole array that overlap the blockgroup. -/
theorem scan_eq_overlapping (zones : List blk_zone) (bg : znr_bg) (zsi : Nat)
    (hchain : zones.Chain' (fun a b => zone_sector_end a = b.start ∧ a.start < b.start))
    (hinv : zsi = 0 ∨ ∃ b, zones[zsi - 1]? = some b ∧ zone_sector_end b ≤ bg.sector)
    (hstrict : ∀ b, zones[zsi - 1]? = some b → zone_sector_end b ≤ bg.sector →
      b.start < zone_sector_end b) :
    (scan_pure bg.sector (bg_sector_end bg) (zones.drop (zsi - 1)) (zsi - 1) zsi).1 =
      overlapping_zones zones bg := by
  have hp := chain_pairwise zones hchain
  have hsorted : (zones.drop (zsi - 1)).Pairwise (fun a b => a.start ≤ b.start) :=
    ((hp.imp (fun hab => Nat.le_of_lt hab.1)).sublist (List.drop_sublist _ _))
  rw [scan_pure_complete bg _ hsorted, ← overlapping_from_zero]
  rcases hinv with h0 | ⟨b, hb, hend⟩
  · subst h0
    simp
  · have hlt : zsi - 1 < zones.length := by
      rcases Nat.lt_or_ge (zsi - 1) zones.length with h | h
      · exact h
      · rw [List.getElem?_eq_none h] at hb
        exact absurd hb (by simp)
    conv_rhs => rw [← List.take_append_drop (zsi - 1) zones]
    rw [overlapping_from_append,
      overlapping_from_nil_of bg _
        (prefix_no_overlap zones bg (zsi - 1) b hchain hb hend (hstrict b hb hend))]
    simp [List.length_take, Nat.min_eq_left (Nat.le_of_lt hlt)]

/-- One iteration under the cursor invariant: the blockgroup lists exactly
the overlapping zones, and the invariant holds for the new cursor. -/
theorem map_one_complete (zones : List blk_zone) (bg o : znr_bg) (zsi c : Nat)
    (hchain : zones.Chain' (fun a b => zone_sector_end a = b.start ∧ a.start < b.start))
    (hinv : zsi = 0 ∨ ∃ b, zones[zsi - 1]? = some b ∧ zone_sector_end b ≤ bg.sector)
    (h : map_one zones bg zsi = some (o, c)) :
    o.zones.take o.nr_zones = (overlapping_zones zones bg).map some ∧
    o.nr_zones = (overlapping_zones zones bg).length ∧
    o.zones.drop o.nr_zones =
      List.replicate (ZNR_BG_MAX_ZONES - (overlapping_zones zones bg).length) none ∧
    (c = 0 ∨ ∃ b, zones[c - 1]? = some b ∧ zone_sector_end b ≤ bg.sector) := by
  obtain ⟨L, hne, hlt, hL, hc, hs, hn, hz, hnr, hf, hw⟩ := map_one_fields zones bg o zsi c h
  have hLe : L = overlapping_zones zones bg := by
    rw [hL]
    apply scan_eq_overlapping zones bg zsi hchain hinv
    intro b hb hend
    exact cursor_zone_strict zones bg (zsi - 1) zsi b hchain hb hend (by rw [← hL]; exact hne)
  refine ⟨?_, ?_, ?_, ?_⟩
  · rw [hz, hnr, take_map_some, hLe]
  · rw [hnr, hLe]
  · rw [hz, hnr, ← hLe]
    have : L.length = (L.map some).length := by simp
    rw [this, List.drop_left]
  · rcases scan_pure_cursor bg (zones.drop (zsi - 1)) (zsi - 1) zsi with h1 | ⟨z, hlt', hz', hle⟩
    · rw [← hc] at h1
      rw [h1]
      exact hinv
    · rw [← hc] at hlt' hz'
      right
      refine ⟨z, ?_, hle⟩
      rw [← getElem?_drop_sub zones (zsi - 1) (c - 1) (by omega)]
      exact hz'

theorem forall₂_imp_mem {α β : Type} {R S : α → β → Prop} {l₁ : List α} {l₂ : List β}
    (h : List.Forall₂ R l₁ l₂) (hS : ∀ a ∈ l₁, ∀ b, R a b → S a b) : List.Forall₂ S l₁ l₂ := by
  induction h with
  | nil => exact List.Forall₂.nil
  | cons hab _ ih =>
    exact List.Forall₂.cons (hS _ (List.mem_cons_self _ _) _ hab)
      (ih (fun a ha b hab' => hS a (List.mem_cons_of_mem _ ha) b hab'))

/-- A successful run of the outer loop over ordered blockgroups, started
under the cursor invariant, gives every blockgroup exactly its overlapping
zones. -/
theorem map_loop_complete (zones : List blk_zone)
    (hchain : zones.Chain' (fun a b => zone_sector_end a = b.start ∧ a.start < b.start)) :
    ∀ (bgs : List znr_bg) (zsi : Nat) (out : List znr_bg),
      (bgs.Pairwise (fun a b => a.sector ≤ b.sector) ∧
        (zsi = 0 ∨ ∃ b, zones[zsi - 1]? = some b ∧ ∀ bg ∈ bgs, zone_sector_end b ≤ bg.sector)) →
      map_loop zones bgs zsi = (0, out) →
      List.Forall₂
        (fun bg o => o.sector = bg.sector ∧ o.nr_sectors = bg.nr_sectors ∧
          o.nr_zones = (overlapping_zones zones bg).length ∧
          o.zones.take o.nr_zones = (overlapping_zones zones bg).map some ∧
          o.zones.drop o.nr_zones =
            List.replicate (ZNR_BG_MAX_ZONES - (overlapping_zones zones bg).length) none)
        bgs out := by
  refine map_loop_rel zones _
    (fun zsi bgs => bgs.Pairwise (fun a b => a.sector ≤ b.sector) ∧
      (zsi = 0 ∨ ∃ b, zones[zsi - 1]? = some b ∧ ∀ bg ∈ bgs, zone_sector_end b ≤ bg.sector)) ?_
  intro bg rest zsi o c hinv hm
  obtain ⟨hpw, hcur⟩ := hinv
  rw [List.pairwise_cons] at hpw
  have hcur' : zsi = 0 ∨ ∃ b, zones[zsi - 1]? = some b ∧ zone_sector_end b ≤ bg.sector := by
    rcases hcur with h | ⟨b, hb, hall⟩
    · exact Or.inl h
    · exact Or.inr ⟨b, hb, hall bg (List.mem_cons_self _ _)⟩
  obtain ⟨ht, hn, hd, hc⟩ := map_one_complete zones bg o zsi c hchain hcur' hm
  obtain ⟨_, _, _, _, _, hs, hns, _⟩ := map_one_fields zones bg o zsi c hm
  refine ⟨⟨hs, hns, hn, ht, hd⟩, hpw.2, ?_⟩
  rcases hc with h | ⟨b, hb, hle⟩
  · exact Or.inl h
  · exact Or.inr ⟨b, hb, fun bg' hbg' => Nat.le_trans hle (hpw.1 bg' hbg')⟩

/-- A zone of the array is among the overlapping zones of a blockgroup exactly
when it passes the overlap test. -/
theorem mem_overlapping_zones (zones : List blk_zone) (bg : znr_bg) (j : Nat) (z : blk_zone)
    (hz : zones[j]? = some z) :
    j ∈ overlapping_zones zones bg ↔ zone_overlaps z bg = true := by
  unfold overlapping_zones
  rw [List.mem_filter, List.mem_range]
  have hj : j < zones.length := by
    rcases Nat.lt_or_ge j zones.length with h | h
    · exact h
    · rw [List.getElem?_eq_none h] at hz
      exact absurd hz (by simp)
  have hget : zones.getD j default = z := by
    simp only [List.getD_eq_getElem?_getD, hz, Option.getD_some]
  rw [hget]
  exact ⟨fun h => h.2, fun h => ⟨hj, h⟩⟩

/-- When no sector sum leaves the 64-bit range, the overlap test of the
program is overlap of the sector intervals. -/
theorem zone_overlaps_iff_interval (z : blk_zone) (bg : znr_bg)
    (hz : z.start + z.len < U64) (hbg : bg.sector + bg.nr_sectors < U64) :
    zone_overlaps z bg = true ↔
      z.start < bg.sector + bg.nr_sectors ∧ bg.sector < z.start + z.len := by
  rw [zone_overlaps_iff, Nat.mod_eq_of_lt hz, Nat.mod_eq_of_lt hbg]

/-- C2 (completeness of the zone mapping).  For a zone array whose zones are
non-empty and abut exactly in ascending order, and a blockgroup array with
`nr_sectors > 0` ordered by non-decreasing starting sector, a call that
returns 0 leaves in every blockgroup, as `zones[0 .. nr_zones)`, exactly the
ascending sequence of all zones of the passed array that overlap the
blockgroup, and NULL in the remaining pointers; no overlapping zone is missed
by the backed-up start cursor.  Overlap is the test of the program on 64-bit
sector sums; whenever the zone ends and the blockgroup end are below `2^64`
the zones listed are exactly those whose sector interval meets
`[sector, sector + nr_sectors)`. -/
theorem mapping_complete (g : znr) (blockgroups out : List znr_bg) (zones : List blk_zone)
    (hty : ∀ z ∈ zones, z.start < U64)
    (hlen : ∀ z ∈ zones, 0 < z.len) (habut : zones_abut zones)
    (_hbg : ∀ bg ∈ blockgroups, 0 < bg.nr_sectors)
    (hsorted : blockgroups.Pairwise (fun a b => a.sector ≤ b.sector))
    (h : znr_bg_map_zones_to_blockgroups g blockgroups zones = (0, out)) :
    List.Forall₂
      (fun bg o => o.sector = bg.sector ∧ o.nr_sectors = bg.nr_sectors ∧
        o.nr_zones = (overlapping_zones zones bg).length ∧
        o.zones.take o.nr_zones = (overlapping_zones zones bg).map some ∧
        o.zones.drop o.nr_zones =
          List.replicate (ZNR_BG_MAX_ZONES - (overlapping_zones zones bg).length) none ∧
        ((∀ z ∈ zones, z.start + z.len < U64) → bg.sector + bg.nr_sectors < U64 →
          ∀ j z, zones[j]? = some z →
            (some j ∈ o.zones.take o.nr_zones ↔
              z.start < bg.sector + bg.nr_sectors ∧ bg.sector < z.start + z.len)))
      blockgroups out := by
  have hrel := map_loop_complete zones (abut_chain zones habut hlen hty) blockgroups 0 out
    ⟨hsorted, Or.inl rfl⟩ (map_zones_eq_loop g blockgroups out zones h)
  refine hrel.imp ?_
  intro bg o ⟨h1, h2, h3, h4, h5⟩
  refine ⟨h1, h2, h3, h4, h5, ?_⟩
  intro hz hbg j z hj
  rw [h4, List.mem_map_of_injective (Option.some_injective _),
    mem_overlapping_zones zones bg j z hj,
    zone_overlaps_iff_interval z bg (hz z (List.getElem?_mem hj)) hbg]

/-- The outer loop succeeds on ordered blockgroups that each overlap between
1 and 511 zones of an abutting zone array without 64-bit wrap-around. -/
theorem map_loop_succeeds (zones : List blk_zone)
    (hchain : zones.Chain' (fun a b => zone_sector_end a = b.start ∧ a.start < b.start))
    (hstrict : ∀ z ∈ zones, z.start < zone_sector_end z) :
    ∀ (bgs : List znr_bg) (zsi : Nat),
      bgs.Pairwise (fun a b => a.sector ≤ b.sector) →
      (∀ bg ∈ bgs, 1 ≤ (overlapping_zones zones bg).length ∧
        (overlapping_zones zones bg).length < ZNR_BG_MAX_ZONES) →
      (zsi = 0 ∨ ∃ b, zones[zsi - 1]? = some b ∧ ∀ bg ∈ bgs, zone_sector_end b ≤ bg.sector) →
      ∃ out, map_loop zones bgs zsi = (0, out) := by
  intro bgs
  induction bgs with
  | nil => intro zsi _ _ _; exact ⟨[], map_loop_nil zones zsi⟩
  | cons bg rest ih =>
    intro zsi hpw hcount hcur
    rw [List.pairwise_cons] at hpw
    have hcur' : zsi = 0 ∨ ∃ b, zones[zsi - 1]? = some b ∧ zone_sector_end b ≤ bg.sector := by
      rcases hcur with h | ⟨b, hb, hall⟩
      · exact Or.inl h
      · exact Or.inr ⟨b, hb, hall bg (List.mem_cons_self _ _)⟩
    have hL := scan_eq_overlapping zones bg zsi hchain hcur'
      (fun b hb _ => hstrict b (List.getElem?_mem hb))
    have hc := hcount bg (List.mem_cons_self _ _)
    have hsome : ∃ o c, map_one zones bg zsi = some (o, c) := by
      unfold map_one
      simp only [hL]
      have hne : overlapping_zones zones bg ≠ [] := by
        intro h0
        rw [h0] at hc
        simp at hc
      rw [if_pos ⟨hc.2, hne⟩]
      exact ⟨_, _, rfl⟩
    obtain ⟨o, c, hm⟩ := hsome
    obtain ⟨_, _, _, hcnew⟩ := map_one_complete zones bg o zsi c hchain hcur' hm
    have hcrest : c = 0 ∨ ∃ b, zones[c - 1]? = some b ∧ ∀ bg' ∈ rest, zone_sector_end b ≤ bg'.sector := by
      rcases hcnew with h | ⟨b, hb, hle⟩
      · exact Or.inl h
      · exact Or.inr ⟨b, hb, fun bg' hbg' => Nat.le_trans hle (hpw.1 bg' hbg')⟩
    obtain ⟨out', hout'⟩ := ih c hpw.2 (fun bg' hbg' => hcount bg' (List.mem_cons_of_mem _ hbg')) hcrest
    refine ⟨o :: out', ?_⟩
    rw [map_loop_cons_some zones bg rest zsi o c hm, hout']

/-- A zone that covers a non-empty blockgroup is one of its overlapping zones. -/
theorem covering_zone_overlaps (zones : List blk_zone) (bg : znr_bg) (k : Nat) (z : blk_zone)
    (hz : zones[k]? = some z) (hnowrap : z.start + z.len < U64)
    (hstart : z.start ≤ bg.sector) (hend : bg.sector + bg.nr_sectors ≤ z.start + z.len)
    (hpos : 0 < bg.nr_sectors) : k ∈ overlapping_zones zones bg := by
  rw [mem_overlapping_zones zones bg k z hz, zone_overlaps_iff_interval z bg hnowrap (by omega)]
  omega

/-- C5, amended (zones spanning several blockgroups).  With fewer zones than
blockgroups the mapping returns `-EINVAL` and leaves the array untouched.
When at least as many zones as blockgroups are passed (both within the
session array sizes), the zones are non-empty, abut and stay below `2^64`,
the blockgroups are ordered and each overlaps between 1 and 511 zones, then
the mapping returns 0, every blockgroup lists exactly its overlapping zones
with `nr_zones >= 1`, and a zone that covers a (non-empty) blockgroup is
listed by it: a zone covering several consecutive blockgroups is listed by
each of them. -/
theorem spanning_zone_mapped (g : znr) (blockgroups : List znr_bg) (zones : List blk_zone) :
    (zones.length < blockgroups.length →
      znr_bg_map_zones_to_blockgroups g blockgroups zones = (-EINVAL, blockgroups)) ∧
    ((∀ z ∈ zones, 0 < z.len) → zones_abut zones → (∀ z ∈ zones, z.start + z.len < U64) →
      blockgroups.Pairwise (fun a b => a.sector ≤ b.sector) →
      (∀ bg ∈ blockgroups, 1 ≤ (overlapping_zones zones bg).length ∧
        (overlapping_zones zones bg).length < ZNR_BG_MAX_ZONES) →
      blockgroups.length ≤ zones.length → blockgroups.length ≤ g.nr_blockgroups →
      zones.length ≤ g.nr_zones →
      ∃ out, znr_bg_map_zones_to_blockgroups g blockgroups zones = (0, out) ∧
        List.Forall₂
          (fun bg o => 1 ≤ o.nr_zones ∧
            o.zones.take o.nr_zones = (overlapping_zones zones bg).map some ∧
            ∀ k z, zones[k]? = some z → z.start ≤ bg.sector →
              bg.sector + bg.nr_sectors ≤ z.start + z.len → 0 < bg.nr_sectors →
              some k ∈ o.zones.take o.nr_zones)
          blockgroups out) := by
  constructor
  · intro hlt
    unfold znr_bg_map_zones_to_blockgroups
    rw [if_pos hlt]
  · intro hlen habut hnowrap hsorted hcount hg1 hg2 hg3
    have hty : ∀ z ∈ zones, z.start < U64 := fun z hz => by
      have := hnowrap z hz; omega
    have hchain := abut_chain zones habut hlen hty
    have hstrict : ∀ z ∈ zones, z.start < zone_sector_end z := fun z hz => by
      have h1 := hnowrap z hz
      have h2 := hlen z hz
      unfold zone_sector_end
      rw [Nat.mod_eq_of_lt h1]
      omega
    obtain ⟨out, hout⟩ := map_loop_succeeds zones hchain hstrict blockgroups 0 hsorted hcount
      (Or.inl rfl)
    refine ⟨out, ?_, ?_⟩
    · unfold znr_bg_map_zones_to_blockgroups
      rw [if_neg (by omega), if_neg (by omega), if_neg (by omega)]
      exact hout
    · have hrel := map_loop_complete zones hchain blockgroups 0 out ⟨hsorted, Or.inl rfl⟩ hout
      refine forall₂_imp_mem hrel ?_
      intro bg hbgm o ⟨_, _, hn, ht, _⟩
      have hc := (hcount bg hbgm).1
      refine ⟨by omega, ht, ?_⟩
      intro k z hz hstart hend hpos
      rw [ht]
      exact List.mem_map_of_mem _
        (covering_zone_overlaps zones bg k z hz (hnowrap z (List.getElem?_mem hz)) hstart hend hpos)

/-- C1, instance: the mapping of four zones onto two blockgroups succeeds and
every listed zone overlaps its blockgroup. -/
theorem mapping_sound_witness :
    znr_bg_map_zones_to_blockgroups ex_session ex_blockgroups ex_zones = (0, ex_mapped) ∧
    List.Forall₂
      (fun bg o =>
        o.sector = bg.sector ∧ o.nr_sectors = bg.nr_sectors ∧ 1 ≤ o.nr_zones ∧
        ∀ p ∈ o.zones.take o.nr_zones, ∃ j z, p = some j ∧ ex_zones[j]? = some z ∧
          z.start < (o.sector + o.nr_sectors) % U64 ∧ o.sector < (z.start + z.len) % U64 ∧
          z.start < o.sector + o.nr_sectors ∧ o.sector < z.start + z.len)
      ex_blockgroups ex_mapped :=
  ⟨by rfl, mapping_sound ex_session ex_blockgroups ex_mapped ex_zones (by rfl)⟩

/-- C2, instance: the example zone array and blockgroups satisfy the
hypotheses and each blockgroup lists exactly its two overlapping zones. -/
theorem mapping_complete_witness :
    (∀ z ∈ ex_zones, z.start < U64) ∧ (∀ z ∈ ex_zones, 0 < z.len) ∧ zones_abut ex_zones ∧
    (∀ bg ∈ ex_blockgroups, 0 < bg.nr_sectors) ∧
    ex_blockgroups.Pairwise (fun a b => a.sector ≤ b.sector) ∧
    znr_bg_map_zones_to_blockgroups ex_session ex_blockgroups ex_zones = (0, ex_mapped) ∧
    List.Forall₂
      (fun bg o => o.sector = bg.sector ∧ o.nr_sectors = bg.nr_sectors ∧
        o.nr_zones = (overlapping_zones ex_zones bg).length ∧
        o.zones.take o.nr_zones = (overlapping_zones ex_zones bg).map some ∧
        o.zones.drop o.nr_zones =
          List.replicate (ZNR_BG_MAX_ZONES - (overlapping_zones ex_zones bg).length) none ∧
        ((∀ z ∈ ex_zones, z.start + z.len < U64) → bg.sector + bg.nr_sectors < U64 →
          ∀ j z, ex_zones[j]? = some z →
            (some j ∈ o.zones.take o.nr_zones ↔
              z.start < bg.sector + bg.nr_sectors ∧ bg.sector < z.start + z.len)))
      ex_blockgroups ex_mapped :=
  ⟨by decide, by decide, by simp [zones_abut, ex_zones], by decide, by decide, by rfl,
    mapping_complete ex_session ex_blockgroups ex_mapped ex_zones (by decide) (by decide)
      (by simp [zones_abut, ex_zones]) (by decide) (by decide) (by rfl)⟩

/-- C3, instance: flags and write pointer offsets of the example mapping; the
first blockgroup starts with a conventional zone whose `wp` field is 33 and
gets `wp_sector = 0`. -/
theorem mapping_flags_wp_witness :
    znr_bg_map_zones_to_blockgroups ex_session ex_blockgroups ex_zones = (0, ex_mapped) ∧
    ∀ o ∈ ex_mapped, ∃ j z, o.zones[0]? = some (some j) ∧ ex_zones[j]? = some z ∧
      o.flags = z.type ∧
      (z.type = BLK_ZONE_TYPE_SEQWRITE_REQ →
        o.wp_sector = (z.wp + U64 - o.sector) % U64 ∧
        (z.wp < U64 → o.sector ≤ z.wp → o.wp_sector = z.wp - o.sector)) ∧
      (z.type ≠ BLK_ZONE_TYPE_SEQWRITE_REQ → o.wp_sector = 0) :=
  ⟨by rfl, mapping_flags_wp ex_session ex_blockgroups ex_mapped ex_zones (by rfl)⟩

/-- A successful mapping never records `ZNR_BG_MAX_ZONES` zones for a
blockgroup: `nr_zones` is at most 511. -/
theorem mapped_nr_zones_lt_max (g : znr) (blockgroups out : List znr_bg)
    (zones : List blk_zone)
    (h : znr_bg_map_zones_to_blockgroups g blockgroups zones = (0, out)) :
    ∀ o ∈ out, o.nr_zones < ZNR_BG_MAX_ZONES := by
  have hrel := map_loop_rel zones (fun _ o => o.nr_zones < ZNR_BG_MAX_ZONES)
    (fun _ _ => True) ?_ blockgroups 0 out trivial (map_zones_eq_loop g blockgroups out zones h)
  · exact forall₂_right hrel (fun _ _ hab => hab)
  · intro bg rest zsi o c _ hm
    obtain ⟨L, _, hlt, _, _, _, _, _, hnr, _⟩ := map_one_fields zones bg o zsi c hm
    exact ⟨by omega, trivial⟩

set_option maxRecDepth 100000 in
/-- C4, failing input: a blockgroup `[0, 512)` over 512 zones of one sector
overlaps exactly `ZNR_BG_MAX_ZONES = 512` zones; the mapping stores all 512
pointers, then returns `-EINVAL` with `nr_zones = 511`. -/
theorem max_zones_rejected :
    (overlapping_zones ex_unit_zones ex_wide_blockgroup).length = ZNR_BG_MAX_ZONES ∧
    znr_bg_map_zones_to_blockgroups ex_unit_session [ex_wide_blockgroup] ex_unit_zones =
      (-EINVAL, [{ ex_wide_blockgroup with
        zones := (List.range 512).map some, nr_zones := 511 }]) := by
  constructor
  · rfl
  · decide!

/-- C5, counterexample: one zone `[0, 100)` covering the blockgroups `[0, 50)`
and `[50, 100)` is rejected with `-EINVAL`, no zone is listed. -/
theorem spanning_zone_counterexample :
    znr_bg_map_zones_to_blockgroups ex_spanning_session ex_half_blockgroups [ex_spanning_zone] =
      (-EINVAL, ex_half_blockgroups) := by
  rfl

/-- C5, instance of the amended claim: with a second zone behind it, the zone
`[0, 100)` is listed by both blockgroups `[0, 50)` and `[50, 100)`. -/
theorem spanning_zone_mapped_witness :
    ∃ out, znr_bg_map_zones_to_blockgroups ex_two_session ex_half_blockgroups ex_two_zones =
        (0, out) ∧
      List.Forall₂
        (fun bg o => 1 ≤ o.nr_zones ∧
          o.zones.take o.nr_zones = (overlapping_zones ex_two_zones bg).map some ∧
          ∀ k z, ex_two_zones[k]? = some z → z.start ≤ bg.sector →
            bg.sector + bg.nr_sectors ≤ z.start + z.len → 0 < bg.nr_sectors →
            some k ∈ o.zones.take o.nr_zones)
        ex_half_blockgroups out :=
  (spanning_zone_mapped ex_two_session ex_half_blockgroups ex_two_zones).2
    (by decide) (by simp [zones_abut, ex_two_zones]) (by decide) (by decide) (by decide) (by decide)
    (by decide) (by decide)

/-- C6, counterexamples.  Both zones satisfy `start <= wp <= start + capacity`
and `capacity <= len`.  A sequential zone `[0, 100)` with `wp = 10` mapped to
the blockgroup `[50, 100)` gives `wp_sector = 2^64 - 40`; the full zone
`[0, 100)` with `wp = 100` mapped to the blockgroup `[0, 50)` gives
`wp_sector = 100`.  Both exceed `nr_sectors = 50`. -/
theorem wp_bound_counterexample :
    (ex_seq_zone.start ≤ ex_seq_zone.wp ∧
      ex_seq_zone.wp ≤ ex_seq_zone.start + ex_seq_zone.capacity ∧
      ex_seq_zone.capacity ≤ ex_seq_zone.len) ∧
    znr_bg_map_zones_to_blockgroups ex_one_session [ex_upper_half] [ex_seq_zone] =
      (0, [{ sector := 50, nr_sectors := 50, wp_sector := 18446744073709551576,
             flags := BLK_ZONE_TYPE_SEQWRITE_REQ,
             zones := [some 0] ++ List.replicate 511 none, nr_zones := 1 }]) ∧
    ¬ (18446744073709551576 ≤ 50) ∧
    (ex_full_zone.start ≤ ex_full_zone.wp ∧
      ex_full_zone.wp ≤ ex_full_zone.start + ex_full_zone.capacity ∧
      ex_full_zone.capacity ≤ ex_full_zone.len) ∧
    znr_bg_map_zones_to_blockgroups ex_one_session [ex_lower_half] [ex_full_zone] =
      (0, [{ sector := 0, nr_sectors := 50, wp_sector := 100,
             flags := BLK_ZONE_TYPE_SEQWRITE_REQ,
             zones := [some 0] ++ List.replicate 511 none, nr_zones := 1 }]) ∧
    ¬ (100 ≤ 50) := by
  refine ⟨by decide, by rfl, by decide, by decide, by rfl, by decide⟩

/-- C6, amended (write-pointer bound).  For a zone array whose non-conventional
zones satisfy `start <= wp <= start + capacity` and `capacity <= len`, after a
successful mapping every sequential-write-required blockgroup whose first
mapped zone lies inside the blockgroup (it starts at or after the blockgroup
start and ends at or before the blockgroup end) has
`wp_sector <= nr_sectors`. -/
theorem wp_sector_bound (g : znr) (blockgroups out : List znr_bg) (zones : List blk_zone)
    (hinv : ∀ z ∈ zones, z.type ≠ BLK_ZONE_TYPE_CONVENTIONAL →
      z.start ≤ z.wp ∧ z.wp ≤ z.start + z.capacity ∧ z.capacity ≤ z.len)
    (h : znr_bg_map_zones_to_blockgroups g blockgroups zones = (0, out)) :
    ∀ o ∈ out, o.flags = BLK_ZONE_TYPE_SEQWRITE_REQ →
      ∀ j z, o.zones[0]? = some (some j) → zones[j]? = some z →
        o.sector ≤ z.start → z.start + z.len ≤ o.sector + o.nr_sectors →
        o.wp_sector ≤ o.nr_sectors := by
  intro o ho hflags j z hj hz hstart hend
  obtain ⟨j', z', hj', hz', hf, hseq, _⟩ := mapped_first_zone g blockgroups out zones h o ho
  rw [hj] at hj'
  simp only [Option.some.injEq] at hj'
  subst hj'
  rw [hz] at hz'
  simp only [Option.some.injEq] at hz'
  subst hz'
  have htype : z.type = BLK_ZONE_TYPE_SEQWRITE_REQ := by rw [← hf]; exact hflags
  have hi := hinv z (List.getElem?_mem hz) (by rw [htype]; decide)
  rw [(hseq htype).1]
  have : z.wp + U64 - o.sector = (z.wp - o.sector) + U64 := by omega
  rw [this, Nat.add_mod_right]
  exact Nat.le_trans (Nat.mod_le _ _) (by omega)

/-- C6, instance of the amended claim on the example mapping, whose second
blockgroup is sequential-write-required with `wp_sector = 50`. -/
theorem wp_sector_bound_witness :
    (∀ z ∈ ex_zones, z.type ≠ BLK_ZONE_TYPE_CONVENTIONAL →
      z.start ≤ z.wp ∧ z.wp ≤ z.start + z.capacity ∧ z.capacity ≤ z.len) ∧
    znr_bg_map_zones_to_blockgroups ex_session ex_blockgroups ex_zones = (0, ex_mapped) ∧
    ∀ o ∈ ex_mapped, o.flags = BLK_ZONE_TYPE_SEQWRITE_REQ →
      ∀ j z, o.zones[0]? = some (some j) → ex_zones[j]? = some z →
        o.sector ≤ z.start → z.start + z.len ≤ o.sector + o.nr_sectors →
        o.wp_sector ≤ o.nr_sectors :=
  ⟨by decide, by rfl,
    wp_sector_bound ex_session ex_blockgroups ex_mapped ex_zones (by decide) (by rfl)⟩

/-- The inner loop only writes the zone pointers and `nr_zones`. -/
theorem map_scan_fields (bge : Nat) (zs : List blk_zone) :
    ∀ (j k zsi : Nat) (bg : znr_bg),
      (map_scan bge zs j k zsi bg).2.2.sector = bg.sector ∧
      (map_scan bge zs j k zsi bg).2.2.nr_sectors = bg.nr_sectors ∧
      (map_scan bge zs j k zsi bg).2.2.wp_sector = bg.wp_sector ∧
      (map_scan bge zs j k zsi bg).2.2.flags = bg.flags := by
  induction zs with
  | nil => intro j k zsi bg; simp [map_scan]
  | cons z rest ih =>
    intro j k zsi bg
    unfold map_scan
    simp only
    split
    · exact ih _ _ _ _
    · split
      · simp
      · split
        · simp
        · exact ih _ _ _ _

/-- One iteration of the outer loop, as a function of the blockgroup and the
start cursor: whether the function returns `-EINVAL` here, the blockgroup
written back, the new cursor. -/
theorem map_loop_cons (zones : List blk_zone) (bg : znr_bg) (rest : List znr_bg) (zsi : Nat) :
    ∃ (b : Bool) (c : Nat) (bg1 : znr_bg),
      map_scan ((bg.sector + bg.nr_sectors) % U64)
        (zones.drop (if zsi > 1 then zsi - 1 else 0)) (if zsi > 1 then zsi - 1 else 0) 0 zsi
        { bg with zones := List.replicate ZNR_BG_MAX_ZONES none, nr_zones := 0 } = (b, c, bg1) ∧
      bg1.sector = bg.sector ∧ bg1.nr_sectors = bg.nr_sectors ∧
      bg1.wp_sector = bg.wp_sector ∧ bg1.flags = bg.flags ∧
      map_loop zones (bg :: rest) zsi =
        if b = true ∨ bg1.nr_zones = 0 then (-EINVAL, bg1 :: rest)
        else
          ((map_loop zones rest c).1,
            { bg1 with
              flags := (zone_at zones (bg1.zones.getD 0 none)).type
              wp_sector :=
                if (zone_at zones (bg1.zones.getD 0 none)).type = BLK_ZONE_TYPE_SEQWRITE_REQ then
                  ((zone_at zones (bg1.zones.getD 0 none)).wp + U64 - bg.sector) % U64
                else 0 } :: (map_loop zones rest c).2) := by
  have hf := map_scan_fields ((bg.sector + bg.nr_sectors) % U64)
    (zones.drop (if zsi > 1 then zsi - 1 else 0)) (if zsi > 1 then zsi - 1 else 0) 0 zsi
    { bg with zones := List.replicate ZNR_BG_MAX_ZONES none, nr_zones := 0 }
  rw [map_loop]
  simp only
  generalize map_scan ((bg.sector + bg.nr_sectors) % U64)
    (zones.drop (if zsi > 1 then zsi - 1 else 0)) (if zsi > 1 then zsi - 1 else 0) 0 zsi
    { bg with zones := List.replicate ZNR_BG_MAX_ZONES none, nr_zones := 0 } = r at hf
  obtain ⟨b, c, bg1⟩ := r
  simp only at hf
  obtain ⟨h1, h2, h3, h4⟩ := hf
  refine ⟨b, c, bg1, rfl, h1, h2, h3, h4, ?_⟩
  cases b with
  | true => simp
  | false =>
    simp only [Bool.false_eq_true, false_or]
    split
    · rfl
    · rw [h1]
      split <;> rfl

/-- C7, counterexamples.  On a non-zoned device a refresh of an empty
blockgroup array returns `-EINVAL`, not the count 0; and a refresh of the two
example blockgroups with `blockgroup_no = 1` (one past what the session of two
blockgroups allows) returns `-EINVAL` and leaves the flags as they were. -/
theorem nonzoned_refresh_counterexample :
    (znr_bg_refresh ex_env ex_session ex_nonzoned_dev ex_blank_zones 4 [] 0).ret = some (-EINVAL) ∧
    (znr_bg_refresh ex_env ex_session ex_nonzoned_dev ex_blank_zones 4 ex_blockgroups 1).ret =
      some (-EINVAL) ∧
    (znr_bg_refresh ex_env ex_session ex_nonzoned_dev ex_blank_zones 4 ex_blockgroups 1).blockgroups =
      ex_blockgroups ∧
    ex_blockgroups.map (fun bg => bg.flags) = [0, 0] := by
  refine ⟨by rfl, by rfl, by rfl, by rfl⟩

/-- C7, amended (non-zoned refresh).  For a device with `is_zoned = false` no
zone report is issued and the zone array is unchanged.  When the blockgroup
array is non-empty and `blockgroup_no + nr_blockgroups` (32-bit sum) does not
exceed the session blockgroup count, the call sets the flags of every
blockgroup to conventional, changes no other field, and returns the number of
blockgroups passed; otherwise it returns `-EINVAL` and changes nothing. -/
theorem nonzoned_refresh (env : report_env) (g : znr) (dev : znr_device)
    (zones : List blk_zone) (max_zones : Nat) (blockgroups : List znr_bg) (blockgroup_no : Nat)
    (hz : dev.is_zoned = false) :
    (znr_bg_refresh env g dev zones max_zones blockgroups blockgroup_no).reports = [] ∧
    (znr_bg_refresh env g dev zones max_zones blockgroups blockgroup_no).zones = zones ∧
    (blockgroups ≠ [] → (blockgroup_no + blockgroups.length) % U32 ≤ g.nr_blockgroups →
      (znr_bg_refresh env g dev zones max_zones blockgroups blockgroup_no).ret =
        some (blockgroups.length : Int) ∧
      (znr_bg_refresh env g dev zones max_zones blockgroups blockgroup_no).blockgroups =
        blockgroups.map (fun bg => { bg with flags := BLK_ZONE_TYPE_CONVENTIONAL })) ∧
    (blockgroups = [] ∨ g.nr_blockgroups < (blockgroup_no + blockgroups.length) % U32 →
      (znr_bg_refresh env g dev zones max_zones blockgroups blockgroup_no).ret = some (-EINVAL) ∧
      (znr_bg_refresh env g dev zones max_zones blockgroups blockgroup_no).blockgroups =
        blockgroups) := by
  unfold znr_bg_refresh znr_bg_report
  simp only [hz, Bool.false_eq_true, not_false_eq_true, if_true]
  by_cases hg : blockgroups.length = 0 ∨
      (blockgroup_no + blockgroups.length) % U32 > g.nr_blockgroups
  · rw [if_pos hg]
    refine ⟨rfl, rfl, ?_, fun _ => ⟨rfl, rfl⟩⟩
    intro hne hle
    rcases hg with h | h
    · exact absurd (List.length_eq_zero.mp h) hne
    · omega
  · rw [if_neg hg]
    refine ⟨rfl, rfl, fun _ _ => ⟨rfl, rfl⟩, ?_⟩
    intro h
    exfalso
    apply hg
    rcases h with h | h
    · left; rw [h]; rfl
    · right; exact h

/-- C7, instance of the amended claim: the two example blockgroups on a
non-zoned device. -/
theorem nonzoned_refresh_witness :
    ex_nonzoned_dev.is_zoned = false ∧
    (znr_bg_refresh ex_env ex_session ex_nonzoned_dev ex_blank_zones 4 ex_blockgroups 0).reports =
      [] ∧
    (znr_bg_refresh ex_env ex_session ex_nonzoned_dev ex_blank_zones 4 ex_blockgroups 0).ret = some 2 :=
  ⟨rfl,
    (nonzoned_refresh ex_env ex_session ex_nonzoned_dev ex_blank_zones 4 ex_blockgroups 0 rfl).1,
    ((nonzoned_refresh ex_env ex_session ex_nonzoned_dev ex_blank_zones 4 ex_blockgroups 0 rfl).2.2.1
      (by decide) (by decide)).1⟩

/-- The mapping returns 0 or `-EINVAL`. -/
theorem map_loop_ret (zones : List blk_zone) :
    ∀ (bgs : List znr_bg) (zsi : Nat),
      (map_loop zones bgs zsi).1 = 0 ∨ (map_loop zones bgs zsi).1 = -EINVAL := by
  intro bgs
  induction bgs with
  | nil => intro zsi; left; simp [map_loop]
  | cons bg rest ih =>
    intro zsi
    obtain ⟨b, c, bg1, _, _, _, _, _, hloop⟩ := map_loop_cons zones bg rest zsi
    rw [hloop]
    split
    · right; rfl
    · exact ih c

theorem map_zones_ret (g : znr) (bgs : List znr_bg) (zones : List blk_zone) :
    (znr_bg_map_zones_to_blockgroups g bgs zones).1 = 0 ∨
      (znr_bg_map_zones_to_blockgroups g bgs zones).1 = -EINVAL := by
  unfold znr_bg_map_zones_to_blockgroups
  split
  · right; rfl
  · split
    · right; rfl
    · split
      · right; rfl
      · exact map_loop_ret zones bgs 0

/-- The span computation on the first and last blockgroup of an array. -/
theorem bg_to_zno_eq (dev : znr_device) (blockgroups : List znr_bg)
    (hzs : dev.zone_sectors ≠ 0) :
    znr_bg_to_zno dev (blockgroups.getD 0 default)
        (blockgroups.getD (blockgroups.length - 1) default) =
      some (if (blockgroups.getD 0 default).sector >
            (blockgroups.getD (blockgroups.length - 1) default).sector ∨
          span_end dev blockgroups > dev.nr_zones then
        .error (-EINVAL)
      else .ok (span_start dev blockgroups, span_end dev blockgroups)) := by
  unfold znr_bg_to_zno span_start span_end
  by_cases h1 : (blockgroups.getD 0 default).sector >
      (blockgroups.getD (blockgroups.length - 1) default).sector
  · rw [if_pos h1, if_pos (Or.inl h1)]
  · rw [if_neg h1, if_neg hzs]
    simp only [h1, false_or]
    split <;> rfl

/-- The refresh of a zoned device: either it returns `-EINVAL` having issued
no report or the report of the span, or it returns the blockgroup count
having issued exactly the report of the span. -/
theorem zoned_report_cases (env : report_env) (g : znr) (dev : znr_device)
    (zones : List blk_zone) (max_zones : Nat) (blockgroups : List znr_bg) (blockgroup_no : Nat)
    (hz : dev.is_zoned = true) (hzs : dev.zone_sectors ≠ 0) :
    ((znr_bg_report env g dev zones max_zones blockgroups blockgroup_no).ret = some (-EINVAL) ∧
      ((znr_bg_report env g dev zones max_zones blockgroups blockgroup_no).reports = [] ∨
        ((znr_bg_report env g dev zones max_zones blockgroups blockgroup_no).reports =
          [(span_start dev blockgroups,
            (span_end dev blockgroups + U32 - span_start dev blockgroups) % U32)] ∧
          span_end dev blockgroups ≤ dev.nr_zones))) ∨
    ((znr_bg_report env g dev zones max_zones blockgroups blockgroup_no).ret =
        some (blockgroups.length : Int) ∧
      (znr_bg_report env g dev zones max_zones blockgroups blockgroup_no).reports =
        [(span_start dev blockgroups,
          (span_end dev blockgroups + U32 - span_start dev blockgroups) % U32)] ∧
      span_end dev blockgroups ≤ dev.nr_zones) := by
  unfold znr_bg_report
  simp only [hz, not_true_eq_false, if_false]
  split
  · exact Or.inl ⟨rfl, Or.inl rfl⟩
  · split
    · exact Or.inl ⟨rfl, Or.inl rfl⟩
    · split
      · exact Or.inl ⟨rfl, Or.inl rfl⟩
      · rw [bg_to_zno_eq dev blockgroups hzs]
        by_cases hspan : (blockgroups.getD 0 default).sector >
            (blockgroups.getD (blockgroups.length - 1) default).sector ∨
            span_end dev blockgroups > dev.nr_zones
        · rw [if_pos hspan]
          exact Or.inl ⟨rfl, Or.inl rfl⟩
        · rw [if_neg hspan]
          have hle : span_end dev blockgroups ≤ dev.nr_zones := by omega
          simp only
          split
          · exact Or.inl ⟨rfl, Or.inl rfl⟩
          · split
            · exact Or.inl ⟨rfl, Or.inr ⟨rfl, hle⟩⟩
            · split
              · rename_i hm
                rcases map_zones_ret g blockgroups
                  ((List.drop (span_start dev blockgroups)
                    (store_zones zones (span_start dev blockgroups)
                      (znr_dev_report_zones env g dev (span_start dev blockgroups)
                        ((span_end dev blockgroups + U32 - span_start dev blockgroups) % U32)).2)).take
                    ((span_end dev blockgroups + U32 - span_start dev blockgroups) % U32)) with h0 | h0
                · exact absurd h0 hm
                · exact Or.inl ⟨congrArg some h0, Or.inr ⟨rfl, hle⟩⟩
              · exact Or.inr ⟨rfl, rfl, hle⟩

/-- A refresh of a zoned device whose span ends past the device zone count
fails with `-EINVAL` before any report and changes nothing. -/
theorem zoned_report_span_invalid (env : report_env) (g : znr) (dev : znr_device)
    (zones : List blk_zone) (max_zones : Nat) (blockgroups : List znr_bg) (blockgroup_no : Nat)
    (hz : dev.is_zoned = true) (hzs : dev.zone_sectors ≠ 0)
    (hspan : span_end dev blockgroups > dev.nr_zones) :
    znr_bg_report env g dev zones max_zones blockgroups blockgroup_no =
      ⟨some (-EINVAL), blockgroups, zones, []⟩ := by
  unfold znr_bg_report
  simp only [hz, not_true_eq_false, if_false]
  split
  · rfl
  · split
    · rfl
    · split
      · rfl
      · rw [bg_to_zno_eq dev blockgroups hzs, if_pos (Or.inr hspan)]

/-- C8 (zone-number span).  For a zoned device with a non-zero zone size:
the span computation `znr_bg_to_zno` on the first and last blockgroup fails
(with `-EINVAL`) exactly when `first.sector > last.sector` or `z1` exceeds the
device zone count and otherwise yields `(z0, z1)`; a refresh whose `z1`
exceeds the device zone count returns `-EINVAL` without a report; every
refresh either returns `-EINVAL` or returns the blockgroup count after
issuing exactly one zone report, for `z1 - z0` zones from zone `z0`.  Here
`z0` and `z1` are the `unsigned int` values the code computes; they are
`first.sector / zone_sectors` and `(last.sector + last.nr_sectors) /
zone_sectors` whenever the sum is below `2^64` and the quotients below
`2^32`. -/
theorem zone_span (env : report_env) (g : znr) (dev : znr_device)
    (zones : List blk_zone) (max_zones : Nat) (blockgroups : List znr_bg) (blockgroup_no : Nat)
    (hz : dev.is_zoned = true) (hzs : dev.zone_sectors ≠ 0) :
    (znr_bg_to_zno dev (blockgroups.getD 0 default)
        (blockgroups.getD (blockgroups.length - 1) default) =
      some (if (blockgroups.getD 0 default).sector >
            (blockgroups.getD (blockgroups.length - 1) default).sector ∨
          span_end dev blockgroups > dev.nr_zones then
        .error (-EINVAL)
      else .ok (span_start dev blockgroups, span_end dev blockgroups))) ∧
    (span_end dev blockgroups > dev.nr_zones →
      (znr_bg_refresh env g dev zones max_zones blockgroups blockgroup_no).ret =
        some (-EINVAL) ∧
      (znr_bg_refresh env g dev zones max_zones blockgroups blockgroup_no).reports = []) ∧
    ((znr_bg_refresh env g dev zones max_zones blockgroups blockgroup_no).ret =
          some (-EINVAL) ∧
        ((znr_bg_refresh env g dev zones max_zones blockgroups blockgroup_no).reports = [] ∨
          (znr_bg_refresh env g dev zones max_zones blockgroups blockgroup_no).reports =
            [(span_start dev blockgroups,
              (span_end dev blockgroups + U32 - span_start dev blockgroups) % U32)]) ∨
      (znr_bg_refresh env g dev zones max_zones blockgroups blockgroup_no).ret =
          some (blockgroups.length : Int) ∧
        (znr_bg_refresh env g dev zones max_zones blockgroups blockgroup_no).reports =
          [(span_start dev blockgroups,
            (span_end dev blockgroups + U32 - span_start dev blockgroups) % U32)] ∧
        span_end dev blockgroups ≤ dev.nr_zones) ∧
    ((blockgroups.getD 0 default).sector / dev.zone_sectors < U32 →
      span_start dev blockgroups = (blockgroups.getD 0 default).sector / dev.zone_sectors) ∧
    ((blockgroups.getD (blockgroups.length - 1) default).sector +
        (blockgroups.getD (blockgroups.length - 1) default).nr_sectors < U64 →
      ((blockgroups.getD (blockgroups.length - 1) default).sector +
        (blockgroups.getD (blockgroups.length - 1) default).nr_sectors) / dev.zone_sectors < U32 →
      span_end dev blockgroups =
        ((blockgroups.getD (blockgroups.length - 1) default).sector +
          (blockgroups.getD (blockgroups.length - 1) default).nr_sectors) / dev.zone_sectors) ∧
    (span_start dev blockgroups ≤ span_end dev blockgroups → span_end dev blockgroups < U32 →
      (span_end dev blockgroups + U32 - span_start dev blockgroups) % U32 =
        span_end dev blockgroups - span_start dev blockgroups) := by
  refine ⟨bg_to_zno_eq dev blockgroups hzs, ?_, ?_, ?_, ?_, ?_⟩
  · intro hspan
    unfold znr_bg_refresh
    rw [zoned_report_span_invalid env g dev zones max_zones blockgroups blockgroup_no hz hzs
      hspan]
    exact ⟨rfl, rfl⟩
  · unfold znr_bg_refresh
    rcases zoned_report_cases env g dev zones max_zones blockgroups blockgroup_no hz hzs with
      ⟨h1, h2⟩ | ⟨h1, h2, h3⟩
    · left
      refine ⟨h1, ?_⟩
      rcases h2 with h2 | ⟨h2, _⟩
      · exact Or.inl h2
      · exact Or.inr h2
    · right
      exact ⟨h1, h2, h3⟩
  · intro h
    unfold span_start
    exact Nat.mod_eq_of_lt h
  · intro h1 h2
    unfold span_end
    rw [Nat.mod_eq_of_lt h1, Nat.mod_eq_of_lt h2]
  · intro h1 h2
    have : span_end dev blockgroups + U32 - span_start dev blockgroups =
        (span_end dev blockgroups - span_start dev blockgroups) + U32 := by omega
    rw [this, Nat.add_mod_right, Nat.mod_eq_of_lt (by omega)]

/-- C8, instance: on the example device (four zones of 100 sectors) the span
of the two example blockgroups is `[0, 4)` and the refresh reports it. -/
theorem zone_span_witness :
    ex_dev.is_zoned = true ∧ ex_dev.zone_sectors ≠ 0 ∧
    span_start ex_dev ex_blockgroups = 0 ∧ span_end ex_dev ex_blockgroups = 4 ∧
    (znr_bg_refresh ex_env ex_session ex_dev ex_blank_zones 4 ex_blockgroups 0).reports =
      [(0, 4)] ∧
    znr_bg_to_zno ex_dev (ex_blockgroups.getD 0 default)
        (ex_blockgroups.getD (ex_blockgroups.length - 1) default) =
      some (if (ex_blockgroups.getD 0 default).sector >
            (ex_blockgroups.getD (ex_blockgroups.length - 1) default).sector ∨
          span_end ex_dev ex_blockgroups > ex_dev.nr_zones then
        .error (-EINVAL)
      else .ok (span_start ex_dev ex_blockgroups, span_end ex_dev ex_blockgroups)) :=
  ⟨rfl, by decide, by rfl, by rfl, by rfl,
    (zone_span ex_env ex_session ex_dev ex_blank_zones 4 ex_blockgroups 0 rfl (by decide)).1⟩

theorem load32_append (le : Bool) (b0 b1 b2 b3 : Nat) (rest : List Nat) :
    load32 le ([b0, b1, b2, b3] ++ rest) = ((load32 le [b0, b1, b2, b3]).1, rest) := by
  simp [load32]

theorem load64_append (le : Bool) (b0 b1 b2 b3 b4 b5 b6 b7 : Nat) (rest : List Nat) :
    load64 le ([b0, b1, b2, b3, b4, b5, b6, b7] ++ rest) =
      ((load64 le [b0, b1, b2, b3, b4, b5, b6, b7]).1, rest) := by
  simp [load64]

/-- The big-endian bytes of the number made of four bytes are these bytes. -/
theorem be32_compose (b0 b1 b2 b3 : Nat) (h0 : b0 < 256) (h1 : b1 < 256) (h2 : b2 < 256)
    (h3 : b3 < 256) :
    be32 (b0 * 2 ^ 24 + b1 * 2 ^ 16 + b2 * 2 ^ 8 + b3) = [b0, b1, b2, b3] := by
  simp only [be32, List.cons.injEq, and_true]
  refine ⟨?_, ?_, ?_, ?_⟩ <;> omega

/-- A 32-bit number is made of its big-endian bytes. -/
theorem compose_be32 (x : Nat) (hx : x < U32) :
    x / 2 ^ 24 % 256 * 2 ^ 24 + x / 2 ^ 16 % 256 * 2 ^ 16 + x / 2 ^ 8 % 256 * 2 ^ 8 + x % 256 =
      x := by
  unfold U32 at hx
  omega

theorem htonl_be (x : Nat) (hx : x < U32) : htonl false x = x := by
  unfold htonl
  rw [Nat.mod_eq_of_lt hx]
  simp only [load32, be32, Bool.false_eq_true, if_false]
  exact compose_be32 x hx

theorem htonl_lt (le : Bool) (x : Nat) : htonl le x < U32 := by
  unfold htonl
  cases le <;> simp only [load32, be32, Bool.false_eq_true, if_false, if_true] <;>
    unfold U32 <;> omega

theorem ntohl_eq_htonl (le : Bool) (x : Nat) : ntohl le x = htonl le x := by
  unfold ntohl htonl
  cases le <;> simp [load32, store32, be32]

/-- The memory image of `htonl x` is the big-endian representation of `x`. -/
theorem store32_htonl (le : Bool) (x : Nat) (hx : x < U32) : store32 le (htonl le x) = be32 x := by
  cases le
  · rw [htonl_be x hx]
    simp [store32]
  · unfold htonl
    rw [Nat.mod_eq_of_lt hx]
    simp only [load32, be32, store32, if_true]
    have h0 : x / 2 ^ 24 % 256 < 256 := Nat.mod_lt _ (by decide)
    have h1 : x / 2 ^ 16 % 256 < 256 := Nat.mod_lt _ (by decide)
    have h2 : x / 2 ^ 8 % 256 < 256 := Nat.mod_lt _ (by decide)
    have h3 : x % 256 < 256 := Nat.mod_lt _ (by decide)
    have := be32_compose (x % 256) (x / 2 ^ 8 % 256) (x / 2 ^ 16 % 256) (x / 2 ^ 24 % 256)
      h3 h2 h1 h0
    simp only [be32] at this
    rw [this]
    rfl

theorem ntohl_htonl (le : Bool) (x : Nat) (hx : x < U32) : ntohl le (htonl le x) = x := by
  unfold ntohl
  rw [Nat.mod_eq_of_lt (htonl_lt le x), store32_htonl le x hx]
  simp only [load32, be32, Bool.false_eq_true, if_false]
  exact compose_be32 x hx

/-- A host that reads four big-endian bytes of `x` as a 32-bit field sees
`htonl x`. -/
theorem load32_be32 (le : Bool) (x : Nat) (hx : x < U32) (rest : List Nat) :
    load32 le (be32 x ++ rest) = (htonl le x, rest) := by
  unfold htonl
  rw [Nat.mod_eq_of_lt hx]
  unfold be32
  rw [load32_append]

theorem be32_length (x : Nat) : (be32 x).length = 4 := rfl

theorem be64_length (x : Nat) : (be64 x).length = 8 := rfl

theorem htonl_htonl (le : Bool) (x : Nat) (hx : x < U32) : htonl le (htonl le x) = x := by
  rw [← ntohl_eq_htonl le (htonl le x)]
  exact ntohl_htonl le x hx

/-- On a little-endian host `htonll` swaps the two 32-bit halves and reverses
the bytes of each. -/
theorem htonll_le (x : Nat) :
    htonll true x = htonl true (x % 2 ^ 32) * 2 ^ 32 + htonl true (x / 2 ^ 32) := by
  unfold htonll
  have h1 : x &&& 0xFFFFFFFF = x % 2 ^ 32 := Nat.and_pow_two_sub_one_eq_mod x 32
  have h2 : x >>> 32 = x / 2 ^ 32 := Nat.shiftRight_eq_div_pow x 32
  rw [if_pos rfl, h1, h2, Nat.shiftLeft_eq, Nat.mul_comm,
    ← Nat.mul_add_lt_is_or (htonl_lt true _) _]

theorem ntohll_eq_htonll (le : Bool) (x : Nat) : ntohll le x = htonll le x := by
  unfold ntohll htonll
  simp only [ntohl_eq_htonl]

theorem htonll_lt (le : Bool) (x : Nat) (hx : x < U64) : htonll le x < U64 := by
  cases le
  · simpa [htonll] using hx
  · rw [htonll_le]
    have h1 := htonl_lt true (x % 2 ^ 32)
    have h2 := htonl_lt true (x / 2 ^ 32)
    unfold U32 at h1 h2
    unfold U64
    omega

theorem htonll_htonll (le : Bool) (x : Nat) (hx : x < U64) : htonll le (htonll le x) = x := by
  cases le
  · simp [htonll]
  · have h1 := htonl_lt true (x % 2 ^ 32)
    have h2 := htonl_lt true (x / 2 ^ 32)
    have hlo : x % 2 ^ 32 < U32 := Nat.mod_lt _ (by decide)
    have hhi : x / 2 ^ 32 < U32 := by unfold U32; unfold U64 at hx; omega
    rw [htonll_le x, htonll_le]
    have e1 : (htonl true (x % 2 ^ 32) * 2 ^ 32 + htonl true (x / 2 ^ 32)) % 2 ^ 32 =
        htonl true (x / 2 ^ 32) := by unfold U32 at h2; omega
    have e2 : (htonl true (x % 2 ^ 32) * 2 ^ 32 + htonl true (x / 2 ^ 32)) / 2 ^ 32 =
        htonl true (x % 2 ^ 32) := by unfold U32 at h2; omega
    rw [e1, e2, htonl_htonl true _ hhi, htonl_htonl true _ hlo]
    omega

/-- The memory image of `htonll x` is the big-endian representation of `x`. -/
theorem store64_htonll (le : Bool) (x : Nat) (hx : x < U64) :
    store64 le (htonll le x) = be64 x := by
  cases le
  · simp [store64, htonll]
  · have h2 := htonl_lt true (x / 2 ^ 32)
    have hlo : x % 2 ^ 32 < U32 := Nat.mod_lt _ (by decide)
    have hhi : x / 2 ^ 32 < U32 := by unfold U32; unfold U64 at hx; omega
    rw [htonll_le]
    have e1 : (htonl true (x % 2 ^ 32) * 2 ^ 32 + htonl true (x / 2 ^ 32)) % 2 ^ 32 =
        htonl true (x / 2 ^ 32) := by unfold U32 at h2; omega
    have e2 : (htonl true (x % 2 ^ 32) * 2 ^ 32 + htonl true (x / 2 ^ 32)) / 2 ^ 32 =
        htonl true (x % 2 ^ 32) := by unfold U32 at h2; omega
    have s1 := store32_htonl true _ hlo
    have s2 := store32_htonl true _ hhi
    simp only [store32, if_true] at s1 s2
    simp only [store64, be64, if_true, e1, e2, List.reverse_append, s1, s2]

/-- A host that reads eight big-endian bytes of `x` as a 64-bit field sees
`htonll x`. -/
theorem load64_be64 (le : Bool) (x : Nat) (hx : x < U64) (rest : List Nat) :
    load64 le (be64 x ++ rest) = (htonll le x, rest) := by
  have hlo : x % 2 ^ 32 < U32 := Nat.mod_lt _ (by decide)
  have hhi : x / 2 ^ 32 < U32 := by unfold U32; unfold U64 at hx; omega
  cases le
  · simp only [be64, be32, List.cons_append, List.nil_append, load64, htonll,
      Bool.false_eq_true, if_false, Prod.mk.injEq, and_true]
    have c1 := compose_be32 _ hlo
    have c2 := compose_be32 _ hhi
    omega
  · rw [htonll_le]
    simp only [htonl, Nat.mod_eq_of_lt hlo, Nat.mod_eq_of_lt hhi, be64, be32, List.cons_append,
      List.nil_append, load64, load32, if_true, Prod.mk.injEq, and_true]
    omega

/-- The path field written by `znr_net_send_req` for a string without NUL
that is shorter than `PATH_MAX`: the string, NUL-padded to `PATH_MAX`. -/
theorem strncpy_path (p : List Nat) (hlen : p.length < PATH_MAX) (hnz : ∀ c ∈ p, c ≠ 0) :
    strncpy (List.replicate PATH_MAX 0) p (PATH_MAX - 1) =
      p ++ List.replicate (PATH_MAX - p.length) 0 := by
  have hc : cstr p = p := by
    unfold cstr
    rw [List.takeWhile_eq_self_iff]
    intro c hc
    simpa using hnz c hc
  unfold strncpy
  rw [hc, List.take_of_length_le (by omega), List.drop_replicate, List.append_assoc,
    List.append_replicate_replicate]
  congr 2
  unfold PATH_MAX at hlen ⊢
  omega

/-- The bytes `znr_net_send_req` transmits: every numeric field in big-endian
order, whatever the byte order of the sending host. -/
theorem send_req_bytes (le : Bool) (id zno nr_zones sector nr_sectors : Nat)
    (path : Option (List Nat)) (hid : id < U32) (hzno : zno < U32) (hnz : nr_zones < U32)
    (hs : sector < U64) (hns : nr_sectors < U64) :
    znr_net_send_req le id zno nr_zones sector nr_sectors path =
      be32 ZNR_NET_MAGIC ++ (be32 id ++ (be32 zno ++ (be32 nr_zones ++ (be64 sector ++
        (be64 nr_sectors ++
          (match path with
            | some p => strncpy (List.replicate PATH_MAX 0) p (PATH_MAX - 1)
            | none => List.replicate PATH_MAX 0)))))) := by
  unfold znr_net_send_req
  cases path <;>
    simp only [req_bytes, store32_htonl le _ hid, store32_htonl le _ hzno,
      store32_htonl le _ hnz, store32_htonl le ZNR_NET_MAGIC (by decide),
      store64_htonll le _ hs, store64_htonll le _ hns]

/-- The header a host sees when it receives bytes that carry big-endian
fields: every numeric field appears as its `htonl` / `htonll` image. -/
theorem req_of_be_bytes (le : Bool) (magic id zno nr_zones sector nr_sectors : Nat)
    (path : List Nat) (hm : magic < U32) (hid : id < U32) (hzno : zno < U32)
    (hnz : nr_zones < U32) (hs : sector < U64) (hns : nr_sectors < U64)
    (hp : path.length = PATH_MAX) :
    req_of_bytes le (be32 magic ++ (be32 id ++ (be32 zno ++ (be32 nr_zones ++
        (be64 sector ++ (be64 nr_sectors ++ path)))))) =
      { magic := htonl le magic, id := htonl le id, zno := htonl le zno,
        nr_zones := htonl le nr_zones, sector := htonll le sector,
        nr_sectors := htonll le nr_sectors, path := path } := by
  unfold req_of_bytes
  simp only [load32_be32 le _ hm, load32_be32 le _ hid, load32_be32 le _ hzno,
    load32_be32 le _ hnz, load64_be64 le _ hs, load64_be64 le _ hns]
  rw [List.take_of_length_le (by omega)]

theorem cstr_padded (p : List Nat) (n : Nat) (hnz : ∀ c ∈ p, c ≠ 0) (hn : 0 < n) :
    cstr (p ++ List.replicate n 0) = p := by
  induction p with
  | nil =>
    obtain ⟨m, rfl⟩ : ∃ m, n = m + 1 := ⟨n - 1, by omega⟩
    simp [cstr, List.replicate_succ]
  | cons c rest ih =>
    have hc : c ≠ 0 := hnz c (List.mem_cons_self _ _)
    have := ih (fun c' hc' => hnz c' (List.mem_cons_of_mem _ hc'))
    unfold cstr at this ⊢
    simp only [List.cons_append, List.takeWhile_cons, ne_eq, hc, not_false_eq_true,
      decide_True, if_true, this]

/-- What `znr_net_recv_req` makes of a full header whose numeric fields
arrive in big-endian order. -/
theorem recv_req_of_be_bytes (le : Bool) (id zno nr_zones sector nr_sectors : Nat)
    (path : List Nat) (hid : id < U32) (hzno : zno < U32)
    (hnz : nr_zones < U32) (hs : sector < U64) (hns : nr_sectors < U64)
    (hp : path.length = PATH_MAX) :
    znr_net_recv_req le (be32 ZNR_NET_MAGIC ++ (be32 id ++ (be32 zno ++ (be32 nr_zones ++
        (be64 sector ++ (be64 nr_sectors ++ path)))))) =
      if id = ZNR_NET_MNTDIR_INFO ∨ id = ZNR_NET_DEV_INFO ∨ id = ZNR_NET_FILE_EXTENTS ∨
          id = ZNR_NET_BLOCKGROUPS then
        (0, { magic := ZNR_NET_MAGIC, id := id, zno := htonl le zno,
              nr_zones := htonl le nr_zones, sector := htonll le sector,
              nr_sectors := htonll le nr_sectors, path := path })
      else if id = ZNR_NET_DEV_REP_ZONES then
        (0, { magic := ZNR_NET_MAGIC, id := id, zno := zno, nr_zones := nr_zones,
              sector := htonll le sector, nr_sectors := htonll le nr_sectors, path := path })
      else if id = ZNR_NET_EXTENTS_IN_RANGE then
        (0, { magic := ZNR_NET_MAGIC, id := id, zno := zno, nr_zones := htonl le nr_zones,
              sector := sector, nr_sectors := nr_sectors, path := path })
      else
        (-1, { magic := ZNR_NET_MAGIC, id := id, zno := htonl le zno,
               nr_zones := htonl le nr_zones, sector := htonll le sector,
               nr_sectors := htonll le nr_sectors, path := path }) := by
  have hm : ZNR_NET_MAGIC < U32 := by decide
  have hsize : ¬ (be32 ZNR_NET_MAGIC ++ (be32 id ++ (be32 zno ++ (be32 nr_zones ++
      (be64 sector ++ (be64 nr_sectors ++ path)))))).length < sizeof_znr_net_req := by
    simp only [List.length_append, be32_length, be64_length, hp, sizeof_znr_net_req]
    omega
  unfold znr_net_recv_req
  rw [if_neg hsize, req_of_be_bytes le _ _ _ _ _ _ path hm hid hzno hnz hs hns hp]
  simp only [ntohl_htonl le _ hm, ntohl_htonl le _ hid, ntohl_htonl le _ hzno,
    ntohl_htonl le _ hnz, ntohll_eq_htonll, htonll_htonll le _ hs, htonll_htonll le _ hns,
    ne_eq, not_true_eq_false, if_false]

/-- C10, counterexample.  On little-endian hosts the request with id
`MNTDIR_INFO` and `zno = 1` (all other fields 0, no path) is accepted by the
decoder, which returns 0 with `zno = 16777216`: the field is left in network
byte order. -/
theorem request_round_trip_counterexample :
    (znr_net_recv_req true (znr_net_send_req true ZNR_NET_MNTDIR_INFO 1 0 0 0 none)).1 = 0 ∧
    (znr_net_recv_req true (znr_net_send_req true ZNR_NET_MNTDIR_INFO 1 0 0 0 none)).2.id =
      ZNR_NET_MNTDIR_INFO ∧
    (znr_net_recv_req true (znr_net_send_req true ZNR_NET_MNTDIR_INFO 1 0 0 0 none)).2.zno =
      16777216 ∧
    (16777216 : Nat) ≠ 1 := by
  have hs := send_req_bytes true ZNR_NET_MNTDIR_INFO 1 0 0 0 none (by decide) (by decide)
    (by decide) (by decide) (by decide)
  have hr := recv_req_of_be_bytes true ZNR_NET_MNTDIR_INFO 1 0 0 0 (List.replicate PATH_MAX 0)
    (by decide) (by decide) (by decide) (by decide) (by decide) (by simp)
  rw [if_pos (Or.inl rfl)] at hr
  simp only at hs
  rw [hs, hr]
  exact ⟨rfl, rfl, by decide, by decide⟩

/-- C10, amended (request round trip).  For every request with id in 1..6,
32-bit `zno` and `nr_zones`, 64-bit `sector` and `nr_sectors` and a path
without NUL shorter than `PATH_MAX`, sent from a host of any byte order and
decoded on a host of any byte order: the decoder returns 0; `magic`, `id` and
`path` (NUL-padded to `PATH_MAX`) equal those of the request; `zno` and
`nr_zones` equal the request's for `DEV_REP_ZONES`; `zno`, `sector` and
`nr_sectors` equal the request's for `EXTENTS_IN_RANGE`; every other numeric
field is left as received, that is as its `htonl` / `htonll` image, which is
the request's value on a big-endian receiver. -/
theorem request_round_trip (le_s le_r : Bool) (id zno nr_zones sector nr_sectors : Nat)
    (path : List Nat) (hid : 1 ≤ id ∧ id ≤ 6) (hzno : zno < U32) (hnz : nr_zones < U32)
    (hs : sector < U64) (hns : nr_sectors < U64) (hlen : path.length < PATH_MAX)
    (hchars : ∀ c ∈ path, c ≠ 0) :
    (znr_net_recv_req le_r
      (znr_net_send_req le_s id zno nr_zones sector nr_sectors (some path))).1 = 0 ∧
    (znr_net_recv_req le_r
      (znr_net_send_req le_s id zno nr_zones sector nr_sectors (some path))).2.magic =
        ZNR_NET_MAGIC ∧
    (znr_net_recv_req le_r
      (znr_net_send_req le_s id zno nr_zones sector nr_sectors (some path))).2.id = id ∧
    (znr_net_recv_req le_r
      (znr_net_send_req le_s id zno nr_zones sector nr_sectors (some path))).2.path =
        path ++ List.replicate (PATH_MAX - path.length) 0 ∧
    cstr (znr_net_recv_req le_r
      (znr_net_send_req le_s id zno nr_zones sector nr_sectors (some path))).2.path = path ∧
    (znr_net_recv_req le_r
      (znr_net_send_req le_s id zno nr_zones sector nr_sectors (some path))).2.zno =
        (if id = ZNR_NET_DEV_REP_ZONES ∨ id = ZNR_NET_EXTENTS_IN_RANGE then zno
          else htonl le_r zno) ∧
    (znr_net_recv_req le_r
      (znr_net_send_req le_s id zno nr_zones sector nr_sectors (some path))).2.nr_zones =
        (if id = ZNR_NET_DEV_REP_ZONES then nr_zones else htonl le_r nr_zones) ∧
    (znr_net_recv_req le_r
      (znr_net_send_req le_s id zno nr_zones sector nr_sectors (some path))).2.sector =
        (if id = ZNR_NET_EXTENTS_IN_RANGE then sector else htonll le_r sector) ∧
    (znr_net_recv_req le_r
      (znr_net_send_req le_s id zno nr_zones sector nr_sectors (some path))).2.nr_sectors =
        (if id = ZNR_NET_EXTENTS_IN_RANGE then nr_sectors else htonll le_r nr_sectors) ∧
    htonl false zno = zno ∧ htonl false nr_zones = nr_zones ∧
    htonll false sector = sector ∧ htonll false nr_sectors = nr_sectors := by
  have hid32 : id < U32 := by unfold U32; omega
  have hplen : (path ++ List.replicate (PATH_MAX - path.length) 0).length = PATH_MAX := by
    simp only [List.length_append, List.length_replicate]
    omega
  rw [send_req_bytes le_s id zno nr_zones sector nr_sectors (some path) hid32 hzno hnz hs hns]
  simp only
  rw [strncpy_path path hlen hchars,
    recv_req_of_be_bytes le_r id zno nr_zones sector nr_sectors _ hid32 hzno hnz hs hns hplen]
  have hcstr := cstr_padded path (PATH_MAX - path.length) hchars (by omega)
  have hcases : id = 1 ∨ id = 2 ∨ id = 3 ∨ id = 4 ∨ id = 5 ∨ id = 6 := by omega
  have hbe : htonl false zno = zno ∧ htonl false nr_zones = nr_zones ∧
      htonll false sector = sector ∧ htonll false nr_sectors = nr_sectors :=
    ⟨htonl_be zno hzno, htonl_be nr_zones hnz, by simp [htonll], by simp [htonll]⟩
  rcases hcases with h | h | h | h | h | h <;> subst h <;>
    simp [ZNR_NET_MNTDIR_INFO, ZNR_NET_DEV_INFO, ZNR_NET_DEV_REP_ZONES, ZNR_NET_FILE_EXTENTS,
      ZNR_NET_EXTENTS_IN_RANGE, ZNR_NET_BLOCKGROUPS, hcstr, hbe]

/-- C10, instance of the amended claim: an `EXTENTS_IN_RANGE` request sent and
decoded on little-endian hosts. -/
theorem request_round_trip_witness :
    ((1 ≤ 5 ∧ 5 ≤ 6) ∧ 7 < U32 ∧ 9 < U32 ∧ 1000 < U64 ∧ 2000 < U64 ∧
      ex_path.length < PATH_MAX ∧ ∀ c ∈ ex_path, c ≠ 0) ∧
    (znr_net_recv_req true (znr_net_send_req true 5 7 9 1000 2000 (some ex_path))).1 = 0 ∧
    (znr_net_recv_req true (znr_net_send_req true 5 7 9 1000 2000 (some ex_path))).2.sector =
      (if 5 = ZNR_NET_EXTENTS_IN_RANGE then 1000 else htonll true 1000) :=
  ⟨⟨by decide, by decide, by decide, by decide, by decide, by decide, by decide⟩,
    (request_round_trip true true 5 7 9 1000 2000 ex_path (by decide) (by decide) (by decide)
      (by decide) (by decide) (by decide) (by decide)).1,
    (request_round_trip true true 5 7 9 1000 2000 ex_path (by decide) (by decide) (by decide)
      (by decide) (by decide) (by decide) (by decide)).2.2.2.2.2.2.2.1⟩

/-- A host that reads four bytes as a 32-bit field and passes it through
`ntohl` gets the big-endian value of the bytes. -/
theorem ntohl_load32 (le : Bool) (b0 b1 b2 b3 : Nat) (rest : List Nat) (h0 : b0 < 256)
    (h1 : b1 < 256) (h2 : b2 < 256) (h3 : b3 < 256) :
    ntohl le (load32 le (b0 :: b1 :: b2 :: b3 :: rest)).1 =
      b0 * 2 ^ 24 + b1 * 2 ^ 16 + b2 * 2 ^ 8 + b3 := by
  unfold ntohl
  cases le
  · simp only [load32, Bool.false_eq_true, if_false, store32]
    have hx : b0 * 2 ^ 24 + b1 * 2 ^ 16 + b2 * 2 ^ 8 + b3 < U32 := by unfold U32; omega
    rw [Nat.mod_eq_of_lt hx, be32_compose b0 b1 b2 b3 h0 h1 h2 h3]
  · simp only [load32, if_true, store32]
    have hx : b3 * 2 ^ 24 + b2 * 2 ^ 16 + b1 * 2 ^ 8 + b0 < U32 := by unfold U32; omega
    rw [Nat.mod_eq_of_lt hx, be32_compose b3 b2 b1 b0 h3 h2 h1 h0]
    rfl

/-- The value `htonl` gives on a little-endian host, byte by byte. -/
theorem htonl_le_bytes (b0 b1 b2 b3 : Nat) (h0 : b0 < 256) (h1 : b1 < 256) (h2 : b2 < 256)
    (h3 : b3 < 256) :
    htonl true (b0 * 2 ^ 24 + b1 * 2 ^ 16 + b2 * 2 ^ 8 + b3) =
      b3 * 2 ^ 24 + b2 * 2 ^ 16 + b1 * 2 ^ 8 + b0 := by
  unfold htonl
  have hx : b0 * 2 ^ 24 + b1 * 2 ^ 16 + b2 * 2 ^ 8 + b3 < U32 := by unfold U32; omega
  rw [Nat.mod_eq_of_lt hx, be32_compose b0 b1 b2 b3 h0 h1 h2 h3]
  rfl

/-- A host that reads eight bytes as a 64-bit field and passes it through
`ntohll` gets the big-endian value of the bytes. -/
theorem ntohll_load64 (le : Bool) (b0 b1 b2 b3 b4 b5 b6 b7 : Nat) (rest : List Nat)
    (h0 : b0 < 256) (h1 : b1 < 256) (h2 : b2 < 256) (h3 : b3 < 256) (h4 : b4 < 256)
    (h5 : b5 < 256) (h6 : b6 < 256) (h7 : b7 < 256) :
    ntohll le (load64 le (b0 :: b1 :: b2 :: b3 :: b4 :: b5 :: b6 :: b7 :: rest)).1 =
      b0 * 2 ^ 56 + b1 * 2 ^ 48 + b2 * 2 ^ 40 + b3 * 2 ^ 32 +
        b4 * 2 ^ 24 + b5 * 2 ^ 16 + b6 * 2 ^ 8 + b7 := by
  rw [ntohll_eq_htonll]
  cases le
  · simp [load64, htonll]
  · rw [htonll_le]
    simp only [load64, if_true]
    have e1 : (b7 * 2 ^ 56 + b6 * 2 ^ 48 + b5 * 2 ^ 40 + b4 * 2 ^ 32 +
        b3 * 2 ^ 24 + b2 * 2 ^ 16 + b1 * 2 ^ 8 + b0) % 2 ^ 32 =
        b3 * 2 ^ 24 + b2 * 2 ^ 16 + b1 * 2 ^ 8 + b0 := by omega
    have e2 : (b7 * 2 ^ 56 + b6 * 2 ^ 48 + b5 * 2 ^ 40 + b4 * 2 ^ 32 +
        b3 * 2 ^ 24 + b2 * 2 ^ 16 + b1 * 2 ^ 8 + b0) / 2 ^ 32 =
        b7 * 2 ^ 24 + b6 * 2 ^ 16 + b5 * 2 ^ 8 + b4 := by omega
    rw [e1, e2, htonl_le_bytes b3 b2 b1 b0 h3 h2 h1 h0, htonl_le_bytes b7 b6 b5 b4 h7 h6 h5 h4]
    omega

/-- A 64-bit number is made of its eight bytes. -/
theorem compose_bytes64 (x : Nat) (hx : x < U64) :
    x = x / 2 ^ 56 % 256 * 2 ^ 56 + x / 2 ^ 48 % 256 * 2 ^ 48 + x / 2 ^ 40 % 256 * 2 ^ 40 +
      x / 2 ^ 32 % 256 * 2 ^ 32 + x / 2 ^ 24 % 256 * 2 ^ 24 + x / 2 ^ 16 % 256 * 2 ^ 16 +
      x / 2 ^ 8 % 256 * 2 ^ 8 + x % 256 := by
  unfold U64 at hx
  omega

set_option maxHeartbeats 1000000 in
/-- The byte reversal, byte by byte. -/
theorem byte_reversal64_bytes (b0 b1 b2 b3 b4 b5 b6 b7 : Nat)
    (h0 : b0 < 256) (h1 : b1 < 256) (h2 : b2 < 256) (h3 : b3 < 256) (h4 : b4 < 256)
    (h5 : b5 < 256) (h6 : b6 < 256) (h7 : b7 < 256) :
    byte_reversal64 (b0 * 2 ^ 56 + b1 * 2 ^ 48 + b2 * 2 ^ 40 + b3 * 2 ^ 32 +
        b4 * 2 ^ 24 + b5 * 2 ^ 16 + b6 * 2 ^ 8 + b7) =
      b7 * 2 ^ 56 + b6 * 2 ^ 48 + b5 * 2 ^ 40 + b4 * 2 ^ 32 +
        b3 * 2 ^ 24 + b2 * 2 ^ 16 + b1 * 2 ^ 8 + b0 := by
  unfold byte_reversal64
  have e0 : (b0 * 2 ^ 56 + b1 * 2 ^ 48 + b2 * 2 ^ 40 + b3 * 2 ^ 32 +
      b4 * 2 ^ 24 + b5 * 2 ^ 16 + b6 * 2 ^ 8 + b7) % 256 = b7 := by omega
  have e1 : (b0 * 2 ^ 56 + b1 * 2 ^ 48 + b2 * 2 ^ 40 + b3 * 2 ^ 32 +
      b4 * 2 ^ 24 + b5 * 2 ^ 16 + b6 * 2 ^ 8 + b7) / 2 ^ 8 % 256 = b6 := by omega
  have e2 : (b0 * 2 ^ 56 + b1 * 2 ^ 48 + b2 * 2 ^ 40 + b3 * 2 ^ 32 +
      b4 * 2 ^ 24 + b5 * 2 ^ 16 + b6 * 2 ^ 8 + b7) / 2 ^ 16 % 256 = b5 := by omega
  have e3 : (b0 * 2 ^ 56 + b1 * 2 ^ 48 + b2 * 2 ^ 40 + b3 * 2 ^ 32 +
      b4 * 2 ^ 24 + b5 * 2 ^ 16 + b6 * 2 ^ 8 + b7) / 2 ^ 24 % 256 = b4 := by omega
  have e4 : (b0 * 2 ^ 56 + b1 * 2 ^ 48 + b2 * 2 ^ 40 + b3 * 2 ^ 32 +
      b4 * 2 ^ 24 + b5 * 2 ^ 16 + b6 * 2 ^ 8 + b7) / 2 ^ 32 % 256 = b3 := by omega
  have e5 : (b0 * 2 ^ 56 + b1 * 2 ^ 48 + b2 * 2 ^ 40 + b3 * 2 ^ 32 +
      b4 * 2 ^ 24 + b5 * 2 ^ 16 + b6 * 2 ^ 8 + b7) / 2 ^ 40 % 256 = b2 := by omega
  have e6 : (b0 * 2 ^ 56 + b1 * 2 ^ 48 + b2 * 2 ^ 40 + b3 * 2 ^ 32 +
      b4 * 2 ^ 24 + b5 * 2 ^ 16 + b6 * 2 ^ 8 + b7) / 2 ^ 48 % 256 = b1 := by omega
  have e7 : (b0 * 2 ^ 56 + b1 * 2 ^ 48 + b2 * 2 ^ 40 + b3 * 2 ^ 32 +
      b4 * 2 ^ 24 + b5 * 2 ^ 16 + b6 * 2 ^ 8 + b7) / 2 ^ 56 % 256 = b0 := by omega
  rw [e0, e1, e2, e3, e4, e5, e6, e7]

/-- On a little-endian host `htonll` is the byte reversal. -/
theorem htonll_eq_reversal (x : Nat) (hx : x < U64) : htonll true x = byte_reversal64 x := by
  have hb : ∀ k : Nat, x / 2 ^ k % 256 < 256 := fun k => Nat.mod_lt _ (by decide)
  have h7 : x % 256 < 256 := Nat.mod_lt _ (by decide)
  have hc := compose_bytes64 x hx
  have hn := ntohll_load64 true (x % 256) (x / 2 ^ 8 % 256) (x / 2 ^ 16 % 256)
    (x / 2 ^ 24 % 256) (x / 2 ^ 32 % 256) (x / 2 ^ 40 % 256) (x / 2 ^ 48 % 256)
    (x / 2 ^ 56 % 256) [] h7 (hb 8) (hb 16) (hb 24) (hb 32) (hb 40) (hb 48) (hb 56)
  rw [ntohll_eq_htonll] at hn
  simp only [load64, if_true] at hn
  rw [← hc] at hn
  rw [hn]
  rfl

/-- C12.  On a little-endian host, for every 64-bit value `x`, `htonll x` is
made of `htonl` of the low half in the high 32 bits and `htonl` of the high
half in the low 32 bits, it equals the byte reversal of `x`, the bytes of the
field in memory are the big-endian representation of `x`, and `ntohll` is the
same function. -/
theorem htonll_byte_reversal (x : Nat) (hx : x < U64) :
    htonll true x = htonl true (x % 2 ^ 32) * 2 ^ 32 + htonl true (x / 2 ^ 32) ∧
    htonll true x = byte_reversal64 x ∧
    store64 true (htonll true x) = be64 x ∧
    ntohll true x = htonll true x :=
  ⟨htonll_le x, htonll_eq_reversal x hx, store64_htonll true x hx, ntohll_eq_htonll true x⟩

/-- C12, witness: the value `0x0102030405060708`. -/
theorem htonll_byte_reversal_witness :
    0x0102030405060708 < U64 ∧ htonll true 0x0102030405060708 = 0x0807060504030201 ∧
    store64 true (htonll true 0x0102030405060708) = [1, 2, 3, 4, 5, 6, 7, 8] :=
  ⟨by decide,
    (htonll_byte_reversal 0x0102030405060708 (by decide)).2.1.trans
      (by norm_num [byte_reversal64]),
    (htonll_byte_reversal 0x0102030405060708 (by decide)).2.2.1.trans
      (by norm_num [be64, be32])⟩

/-- The return value of `znr_net_recv_req` for a buffer that holds a whole
request header: it depends on the magic and the identifier only. -/
theorem recv_req_ret (le : Bool) (wire : List Nat) (hlen : sizeof_znr_net_req ≤ wire.length) :
    (znr_net_recv_req le wire).1 =
      if ntohl le (load32 le wire).1 ≠ ZNR_NET_MAGIC then -1
      else if ntohl le (load32 le (load32 le wire).2).1 = ZNR_NET_MNTDIR_INFO ∨
          ntohl le (load32 le (load32 le wire).2).1 = ZNR_NET_DEV_INFO ∨
          ntohl le (load32 le (load32 le wire).2).1 = ZNR_NET_FILE_EXTENTS ∨
          ntohl le (load32 le (load32 le wire).2).1 = ZNR_NET_BLOCKGROUPS ∨
          ntohl le (load32 le (load32 le wire).2).1 = ZNR_NET_DEV_REP_ZONES ∨
          ntohl le (load32 le (load32 le wire).2).1 = ZNR_NET_EXTENTS_IN_RANGE then 0
      else -1 := by
  unfold znr_net_recv_req
  rw [if_neg (Nat.not_lt.mpr hlen)]
  simp only [req_of_bytes]
  by_cases hm : ntohl le (load32 le wire).1 = ZNR_NET_MAGIC
  · simp only [hm, ne_eq, not_true_eq_false, if_false]
    by_cases h1 : ntohl le (load32 le (load32 le wire).2).1 = ZNR_NET_MNTDIR_INFO ∨
        ntohl le (load32 le (load32 le wire).2).1 = ZNR_NET_DEV_INFO ∨
        ntohl le (load32 le (load32 le wire).2).1 = ZNR_NET_FILE_EXTENTS ∨
        ntohl le (load32 le (load32 le wire).2).1 = ZNR_NET_BLOCKGROUPS
    · rw [if_pos h1, if_pos (by tauto)]
    · rw [if_neg h1]
      by_cases h2 : ntohl le (load32 le (load32 le wire).2).1 = ZNR_NET_DEV_REP_ZONES
      · rw [if_pos h2, if_pos (by tauto)]
      · rw [if_neg h2]
        by_cases h3 : ntohl le (load32 le (load32 le wire).2).1 = ZNR_NET_EXTENTS_IN_RANGE
        · rw [if_pos h3, if_pos (by tauto)]
        · rw [if_neg h3, if_neg (by tauto)]
  · simp only [hm, ne_eq, not_false_eq_true, if_true]

/-- C13.  For every buffer of bytes that holds a whole request header,
`znr_net_recv_req` returns 0 if and only if the first four bytes, read as a
big-endian integer, are `0x7A6F6E65` (the characters z, o, n, e) and the next
four bytes, read big-endian, are one of 1 to 6, the six request identifiers;
for every other header it returns -1. -/
theorem request_validation (le : Bool) (wire : List Nat)
    (hlen : sizeof_znr_net_req ≤ wire.length) (hbytes : ∀ b ∈ wire, b < 256) :
    ((znr_net_recv_req le wire).1 = 0 ↔
      (load32 false wire).1 = 0x7A6F6E65 ∧
        1 ≤ (load32 false (wire.drop 4)).1 ∧ (load32 false (wire.drop 4)).1 ≤ 6) ∧
    ((znr_net_recv_req le wire).1 = 0 ∨ (znr_net_recv_req le wire).1 = -1) ∧
    be32 0x7A6F6E65 = [122, 111, 110, 101] ∧
    [ZNR_NET_MNTDIR_INFO, ZNR_NET_DEV_INFO, ZNR_NET_DEV_REP_ZONES, ZNR_NET_FILE_EXTENTS,
      ZNR_NET_EXTENTS_IN_RANGE, ZNR_NET_BLOCKGROUPS] = [1, 2, 3, 4, 5, 6] := by
  obtain ⟨b0, b1, b2, b3, b4, b5, b6, b7, rest, rfl⟩ :
      ∃ b0 b1 b2 b3 b4 b5 b6 b7 rest, wire = b0 :: b1 :: b2 :: b3 :: b4 :: b5 :: b6 :: b7 :: rest := by
    rcases wire with _ | ⟨b0, _ | ⟨b1, _ | ⟨b2, _ | ⟨b3, _ | ⟨b4, _ | ⟨b5, _ | ⟨b6, _ | ⟨b7, rest⟩⟩⟩⟩⟩⟩⟩⟩ <;>
      first
        | exact ⟨_, _, _, _, _, _, _, _, _, rfl⟩
        | (simp [sizeof_znr_net_req, PATH_MAX] at hlen)
  have h0 : b0 < 256 := hbytes b0 (by simp)
  have h1 : b1 < 256 := hbytes b1 (by simp)
  have h2 : b2 < 256 := hbytes b2 (by simp)
  have h3 : b3 < 256 := hbytes b3 (by simp)
  have h4 : b4 < 256 := hbytes b4 (by simp)
  have h5 : b5 < 256 := hbytes b5 (by simp)
  have h6 : b6 < 256 := hbytes b6 (by simp)
  have h7 : b7 < 256 := hbytes b7 (by simp)
  have hm := ntohl_load32 le b0 b1 b2 b3 (b4 :: b5 :: b6 :: b7 :: rest) h0 h1 h2 h3
  have hi := ntohl_load32 le b4 b5 b6 b7 rest h4 h5 h6 h7
  have e2 : (load32 le (b0 :: b1 :: b2 :: b3 :: b4 :: b5 :: b6 :: b7 :: rest)).2 =
      b4 :: b5 :: b6 :: b7 :: rest := rfl
  have hret := recv_req_ret le _ hlen
  rw [e2, hm, hi] at hret
  have em : (load32 false (b0 :: b1 :: b2 :: b3 :: b4 :: b5 :: b6 :: b7 :: rest)).1 =
      b0 * 2 ^ 24 + b1 * 2 ^ 16 + b2 * 2 ^ 8 + b3 := rfl
  have ei : (load32 false ((b0 :: b1 :: b2 :: b3 :: b4 :: b5 :: b6 :: b7 :: rest).drop 4)).1 =
      b4 * 2 ^ 24 + b5 * 2 ^ 16 + b6 * 2 ^ 8 + b7 := rfl
  rw [hret, em, ei]
  generalize b0 * 2 ^ 24 + b1 * 2 ^ 16 + b2 * 2 ^ 8 + b3 = m
  generalize b4 * 2 ^ 24 + b5 * 2 ^ 16 + b6 * 2 ^ 8 + b7 = i
  have hM : ZNR_NET_MAGIC = 0x7A6F6E65 := by decide
  simp only [hM, ZNR_NET_MNTDIR_INFO, ZNR_NET_DEV_INFO, ZNR_NET_DEV_REP_ZONES,
    ZNR_NET_FILE_EXTENTS, ZNR_NET_EXTENTS_IN_RANGE, ZNR_NET_BLOCKGROUPS]
  refine ⟨?_, ?_, by decide, trivial⟩
  · by_cases c1 : m = 0x7A6F6E65
    · rw [if_neg (not_not.mpr c1)]
      by_cases c2 : i = 1 ∨ i = 2 ∨ i = 4 ∨ i = 6 ∨ i = 3 ∨ i = 5
      · rw [if_pos c2]
        simp only [true_iff]
        exact ⟨c1, by omega, by omega⟩
      · rw [if_neg c2]
        simp only [Int.reduceNeg, Int.neg_eq_zero, one_ne_zero, false_iff, not_and, not_le]
        intro _ hge
        omega
    · rw [if_pos c1]
      simp only [Int.reduceNeg, Int.neg_eq_zero, one_ne_zero, false_iff, not_and, not_le]
      intro hc
      exact absurd hc c1
  · by_cases c1 : m = 0x7A6F6E65
    · rw [if_neg (not_not.mpr c1)]
      by_cases c2 : i = 1 ∨ i = 2 ∨ i = 4 ∨ i = 6 ∨ i = 3 ∨ i = 5
      · rw [if_pos c2]
        exact Or.inl rfl
      · rw [if_neg c2]
        exact Or.inr rfl
    · rw [if_pos c1]
      exact Or.inr rfl

/-- C13, witness: the example header is accepted on a little-endian host. -/
theorem request_validation_witness :
    (sizeof_znr_net_req ≤ ex_wire_req.length ∧ ∀ b ∈ ex_wire_req, b < 256) ∧
    (znr_net_recv_req true ex_wire_req).1 = 0 :=
  have hlen : sizeof_znr_net_req ≤ ex_wire_req.length := by
    simp only [ex_wire_req, List.length_append, List.length_replicate, List.length_cons,
      List.length_nil, sizeof_znr_net_req, PATH_MAX]
    decide
  have hbytes : ∀ b ∈ ex_wire_req, b < 256 := by
    intro b hb
    simp only [ex_wire_req, List.mem_append, List.mem_cons, List.mem_replicate,
      List.mem_singleton, List.not_mem_nil, or_false] at hb
    omega
  ⟨⟨hlen, hbytes⟩, (request_validation true ex_wire_req hlen hbytes).1.mpr
    ⟨by decide, by decide, by decide⟩⟩

/-- The copy loop counts every zone it copies. -/
theorem report_copy_count (nr_zones end_sector : Nat) :
    ∀ (l : List blk_zone) (n sector : Nat),
      (report_copy nr_zones end_sector l n sector).1 =
        n + (report_copy nr_zones end_sector l n sector).2.2.length := by
  intro l
  induction l with
  | nil => intro n sector; simp [report_copy]
  | cons z rest ih =>
    intro n sector
    rw [report_copy]
    by_cases h : n ≥ nr_zones ∨ sector ≥ end_sector
    · rw [if_pos h]
      simp
    · rw [if_neg h]
      simp only [List.length_cons]
      rw [ih (n + 1) ((z.start + z.len) % U64)]
      omega

/-- The copy loop never counts past `nr_zones`. -/
theorem report_copy_le (nr_zones end_sector : Nat) :
    ∀ (l : List blk_zone) (n sector : Nat), n ≤ nr_zones →
      (report_copy nr_zones end_sector l n sector).1 ≤ nr_zones := by
  intro l
  induction l with
  | nil => intro n sector hn; simpa [report_copy] using hn
  | cons z rest ih =>
    intro n sector hn
    rw [report_copy]
    by_cases h : n ≥ nr_zones ∨ sector ≥ end_sector
    · rw [if_pos h]
      exact hn
    · rw [if_neg h]
      exact ih (n + 1) _ (by omega)

/-- The copy loop copies the first zone of a report when the loop condition
holds. -/
theorem report_copy_first (nr_zones end_sector : Nat) (z : blk_zone) (rest : List blk_zone)
    (n sector : Nat) (h : n < nr_zones ∧ sector < end_sector) :
    ∃ tail, (report_copy nr_zones end_sector (z :: rest) n sector).2.2 = z :: tail ∧
      n + 1 ≤ (report_copy nr_zones end_sector (z :: rest) n sector).1 := by
  have hc := report_copy_count nr_zones end_sector rest (n + 1) ((z.start + z.len) % U64)
  have hn : ¬ (n ≥ nr_zones ∨ sector ≥ end_sector) := by omega
  rw [report_copy, if_neg hn]
  refine ⟨_, rfl, ?_⟩
  show n + 1 ≤ (report_copy nr_zones end_sector rest (n + 1) ((z.start + z.len) % U64)).1
  omega

/-- The iterations the report loop is given are enough: more of them do not
change the result. -/
theorem report_loop_fuel (env : report_env) (nr_zones rep_nr_zones end_sector : Nat) :
    ∀ (fuel n sector k : Nat), nr_zones ≤ n + fuel →
      report_loop env nr_zones rep_nr_zones end_sector (fuel + k) n sector =
        report_loop env nr_zones rep_nr_zones end_sector fuel n sector := by
  intro fuel
  induction fuel with
  | zero =>
    intro n sector k hn
    cases k with
    | zero => rfl
    | succ k =>
      rw [Nat.zero_add, report_loop, report_loop, if_neg (by omega)]
  | succ fuel ih =>
    intro n sector k hn
    have e : fuel + 1 + k = (fuel + k) + 1 := by omega
    rw [e, report_loop, report_loop]
    by_cases hc : n < nr_zones ∧ sector < end_sector
    · rw [if_pos hc, if_pos hc]
      cases hio : report_ioctl env sector rep_nr_zones with
      | error e1 => rfl
      | ok zs =>
        cases zs with
        | nil => rfl
        | cons z rest =>
          obtain ⟨tail, _, hge⟩ := report_copy_first nr_zones end_sector z rest n sector hc
          simp only
          rw [ih _ _ k (by omega)]
    · rw [if_neg hc, if_neg hc]

/-- The report loop writes no more than the `nr_zones - n` zones the output
buffer has room for. -/
theorem report_loop_written (env : report_env) (nr_zones rep_nr_zones end_sector : Nat) :
    ∀ (fuel n sector : Nat), n ≤ nr_zones →
      n + (report_loop env nr_zones rep_nr_zones end_sector fuel n sector).2.length ≤ nr_zones := by
  intro fuel
  induction fuel with
  | zero => intro n sector hn; simpa [report_loop] using hn
  | succ fuel ih =>
    intro n sector hn
    rw [report_loop]
    by_cases hc : n < nr_zones ∧ sector < end_sector
    · rw [if_pos hc]
      cases hio : report_ioctl env sector rep_nr_zones with
      | error e1 => simpa using hn
      | ok zs =>
        cases zs with
        | nil => simpa using hn
        | cons z rest =>
          have h1 := report_copy_count nr_zones end_sector (z :: rest) n sector
          have h2 := report_copy_le nr_zones end_sector (z :: rest) n sector hn
          have h3 := ih (report_copy nr_zones end_sector (z :: rest) n sector).1
            (report_copy nr_zones end_sector (z :: rest) n sector).2.1 h2
          simp only [List.length_append]
          omega
    · rw [if_neg hc]
      simpa using hn

/-- C20, counterexample.  On the example device of four zones the call with
`start = 0` and `count = 5`, for which `start + count > zone_count`, is not
rejected: it returns 4 and writes the four zones the kernel reports. -/
theorem report_zones_bounds_counterexample :
    0 + 5 > ex_dev.nr_zones ∧
    znr_dev_report_zones ex_env ex_session ex_dev 0 5 = (4, ex_zones) ∧
    ((4 : Int), ex_zones) ≠ (-EINVAL, []) := by
  refine ⟨by decide, by rfl, ?_⟩
  intro h
  have := congrArg Prod.fst h
  revert this
  decide

theorem to_u32_lt (i : Int) : to_u32 i < U32 := by
  unfold to_u32
  have h : (0 : Int) < (U32 : Int) := by decide
  have h1 := Int.emod_lt_of_pos i h
  have h2 := Int.emod_nonneg i (ne_of_gt h)
  omega

theorem to_u32_natCast (n : Nat) (hn : n < U32) : to_u32 (n : Int) = n := by
  unfold to_u32
  have h1 : ((n : Int) % (U32 : Int)) = (n : Int) := by
    apply Int.emod_eq_of_lt
    · omega
    · exact_mod_cast hn
  rw [h1]
  simp

theorem to_u32_neg (n : Nat) (h0 : 0 < n) (hn : n < U32) : to_u32 (-(n : Int)) = U32 - n := by
  unfold to_u32
  have h1 : (-(n : Int)) % (U32 : Int) = ((U32 - n : Nat) : Int) := by
    have h2 : (-(n : Int)) = ((U32 - n : Nat) : Int) + (U32 : Int) * (-1) := by
      unfold U32 at hn ⊢
      omega
    rw [h2, Int.add_mul_emod_self_left]
    apply Int.emod_eq_of_lt
    · omega
    · unfold U32 at hn ⊢
      omega
  rw [h1]
  simp

theorem to_u32_eq_zero (i : Int) (hlo : -(2 ^ 31 : Int) ≤ i) (hhi : i < 2 ^ 31) :
    to_u32 i = 0 ↔ i = 0 := by
  constructor
  · intro h
    by_cases hneg : i < 0
    · have e := to_u32_neg i.natAbs (by omega) (by unfold U32; omega)
      have e2 : (-(i.natAbs : Int)) = i := by omega
      rw [e2, h] at e
      unfold U32 at e
      omega
    · have e := to_u32_natCast i.natAbs (by unfold U32; omega)
      have e2 : ((i.natAbs : Nat) : Int) = i := by omega
      rw [e2, h] at e
      omega
  · intro h
    rw [h]
    rfl

/-- A big-endian host reads the big-endian bytes of `x` as `x`. -/
theorem load32_false_be32 (x : Nat) (hx : x < U32) (rest : List Nat) :
    load32 false (be32 x ++ rest) = (x, rest) := by
  rw [load32_be32 false x hx, htonl_be x hx]

/-- The bytes of a reply: the four header fields in big-endian order, then
the payload. -/
theorem send_rep_bytes (le : Bool) (id : Nat) (err : Int) (data : List Nat) (data_size : Nat)
    (hid : id < U32) (hsize : data_size < U32) :
    znr_net_send_rep le id err data data_size =
      be32 ZNR_NET_MAGIC ++ (be32 id ++ (be32 (to_u32 err) ++
        (be32 (if err ≠ 0 then 0 else data_size) ++
          (if (if err ≠ 0 then 0 else data_size) ≠ 0 then
            data.take (if err ≠ 0 then 0 else data_size) else [])))) := by
  have hm : ZNR_NET_MAGIC < U32 := by decide
  have hs : (if err ≠ 0 then 0 else data_size) < U32 := by
    split
    · decide
    · exact hsize
  unfold znr_net_send_rep rep_bytes
  simp only [store32_htonl le _ hm, store32_htonl le _ hid, store32_htonl le _ (to_u32_lt err),
    store32_htonl le _ hs, List.append_assoc]

/-- The header fields a reader finds in the bytes `znr_net_send_rep`
sends. -/
theorem send_rep_fields (le : Bool) (id : Nat) (err : Int) (data : List Nat) (data_size : Nat)
    (hid : id < U32) (hsize : data_size < U32) :
    rep_wire_err (znr_net_send_rep le id err data data_size) = to_u32 err ∧
    rep_wire_data_size (znr_net_send_rep le id err data data_size) =
      (if err ≠ 0 then 0 else data_size) ∧
    rep_wire_payload (znr_net_send_rep le id err data data_size) =
      (if (if err ≠ 0 then 0 else data_size) ≠ 0 then
        data.take (if err ≠ 0 then 0 else data_size) else []) := by
  have hs : (if err ≠ 0 then 0 else data_size) < U32 := by
    split
    · decide
    · exact hsize
  rw [send_rep_bytes le id err data data_size hid hsize]
  refine ⟨?_, ?_, ?_⟩
  · unfold rep_wire_err
    have e : ∀ (a b c : Nat) (rest : List Nat),
        (be32 a ++ (be32 b ++ (be32 c ++ rest))).drop 8 = be32 c ++ rest := by
      intro a b c rest
      rfl
    rw [e, load32_false_be32 _ (to_u32_lt err)]
  · unfold rep_wire_data_size
    have e : ∀ (a b c d : Nat) (rest : List Nat),
        (be32 a ++ (be32 b ++ (be32 c ++ (be32 d ++ rest)))).drop 12 = be32 d ++ rest := by
      intro a b c d rest
      rfl
    rw [e, load32_false_be32 _ hs]
  · unfold rep_wire_payload
    have e : ∀ (a b c d : Nat) (rest : List Nat),
        (be32 a ++ (be32 b ++ (be32 c ++ (be32 d ++ rest)))).drop sizeof_znr_net_rep = rest := by
      intro a b c d rest
      rfl
    rw [e]

/-- C14, counterexample.  A file without extents: the handler sends a reply
whose `err` field is 0 and whose `data_size` field is 0 as well. -/
theorem reply_framing_counterexample :
    znr_net_send_file_extents_rep true ex_fs default =
      [122, 111, 110, 101, 0, 0, 0, 4, 0, 0, 0, 0, 0, 0, 0, 0] ∧
    rep_wire_err (znr_net_send_file_extents_rep true ex_fs default) = 0 ∧
    rep_wire_data_size (znr_net_send_file_extents_rep true ex_fs default) = 0 := by
  refine ⟨by rfl, by rfl, by rfl⟩

/-- C14, amended.  In every reply header `znr_net_send_rep` emits, for every
caller, the `err` field is non-zero exactly when the error code passed is
non-zero, the `data_size` field is 0 whenever the `err` field is non-zero (and
no payload follows), and without error the field is the size passed, which is
0 for an empty payload. -/
theorem reply_framing (le : Bool) (id : Nat) (err : Int) (data : List Nat) (data_size : Nat)
    (hid : id < U32) (hsize : data_size < U32) (hlo : -(2 ^ 31 : Int) ≤ err)
    (hhi : err < 2 ^ 31) :
    (rep_wire_err (znr_net_send_rep le id err data data_size) ≠ 0 ↔ err ≠ 0) ∧
    (rep_wire_err (znr_net_send_rep le id err data data_size) ≠ 0 →
      rep_wire_data_size (znr_net_send_rep le id err data data_size) = 0 ∧
      rep_wire_payload (znr_net_send_rep le id err data data_size) = []) ∧
    (rep_wire_err (znr_net_send_rep le id err data data_size) = 0 →
      rep_wire_data_size (znr_net_send_rep le id err data data_size) = data_size) := by
  obtain ⟨h1, h2, h3⟩ := send_rep_fields le id err data data_size hid hsize
  have hz := to_u32_eq_zero err hlo hhi
  rw [h1, h2, h3]
  refine ⟨not_congr hz, ?_, ?_⟩
  · intro h
    have he : err ≠ 0 := fun h0 => h (hz.mpr h0)
    simp [he]
  · intro h
    have he : err = 0 := hz.mp h
    simp [he]

/-- C14, witness: a reply with error 22 and a reply without error. -/
theorem reply_framing_witness :
    (4 < U32 ∧ 384 < U32 ∧ -(2 ^ 31 : Int) ≤ 22 ∧ (22 : Int) < 2 ^ 31) ∧
    rep_wire_data_size (znr_net_send_rep true 4 22 (List.replicate 384 1) 384) = 0 ∧
    rep_wire_data_size (znr_net_send_rep true 4 0 (List.replicate 384 1) 384) = 384 :=
  ⟨⟨by decide, by decide, by decide, by decide⟩,
    ((reply_framing true 4 22 (List.replicate 384 1) 384 (by decide) (by decide) (by decide)
      (by decide)).2.1 (by decide)).1,
    (reply_framing true 4 0 (List.replicate 384 1) 384 (by decide) (by decide) (by decide)
      (by decide)).2.2 (by rfl)⟩

/-- The reply of the file extents handler when the filesystem layer fails
with `-E`: the `err` field is `E`, the `data_size` field 0. -/
theorem file_extents_err (le : Bool) (fs : fs_env) (req : znr_net_req) (E : Nat)
    (h0 : 0 < E) (hE : E < 2 ^ 31)
    (hfail : (fs.get_file_extents_by_path (cstr req.path)).1 = -(E : Int)) :
    znr_net_send_file_extents_rep le fs req =
      be32 ZNR_NET_MAGIC ++ (be32 ZNR_NET_FILE_EXTENTS ++ (be32 E ++ be32 0)) := by
  unfold znr_net_send_file_extents_rep
  have hneg : (fs.get_file_extents_by_path (cstr req.path)).1 < 0 := by omega
  simp only [hneg, if_true]
  rw [send_rep_bytes le _ _ _ _ (by decide) (by decide), hfail, neg_neg,
    to_u32_natCast E (by unfold U32; omega)]
  have hne : ((E : Int) ≠ 0) := by omega
  simp [hne]

/-- The reply of the range handler when the filesystem layer fails with
`-E`: the `err` field is `E`, the `data_size` field 0. -/
theorem extents_in_range_err (le : Bool) (fs : fs_env) (req : znr_net_req) (E : Nat)
    (h0 : 0 < E) (hE : E < 2 ^ 31)
    (hfail : (fs.get_extents_in_range req.sector req.nr_sectors).1 = -(E : Int)) :
    (znr_net_send_extents_in_range_rep le fs req).wire =
      be32 ZNR_NET_MAGIC ++ (be32 ZNR_NET_EXTENTS_IN_RANGE ++ (be32 E ++ be32 0)) := by
  unfold znr_net_send_extents_in_range_rep
  have hneg : (fs.get_extents_in_range req.sector req.nr_sectors).1 < 0 := by omega
  simp only [hneg, if_true]
  rw [send_rep_bytes le _ _ _ _ (by decide) (by decide), hfail, neg_neg,
    to_u32_natCast E (by unfold U32; omega)]
  have hne : ((E : Int) ≠ 0) := by omega
  simp [hne]

/-- The reply of the zone report handler when the request passes the range
check and `znr_dev_report_zones` fails with `-E`: the `err` field is `E`, the
`data_size` field 0. -/
theorem dev_rep_zones_err (le : Bool) (env : report_env) (g : znr) (dev : znr_device)
    (zones : List blk_zone) (req : znr_net_req) (E : Nat) (h0 : 0 < E) (hE : E < 2 ^ 31)
    (hzno : req.zno % U32 < dev.nr_zones)
    (hnr : ¬ (req.nr_zones % U32 = 0 ∨
      (req.zno % U32 + req.nr_zones % U32 + U32 - 1) % U32 ≥ dev.nr_zones))
    (hfail : (znr_dev_report_zones env g dev (req.zno % U32) (req.nr_zones % U32)).1 =
      -(E : Int)) :
    (znr_net_send_dev_rep_zones_rep le env g dev zones req).wire =
      be32 ZNR_NET_MAGIC ++ (be32 ZNR_NET_DEV_REP_ZONES ++ (be32 E ++ be32 0)) := by
  unfold znr_net_send_dev_rep_zones_rep
  have hneg : (znr_dev_report_zones env g dev (req.zno % U32) (req.nr_zones % U32)).1 < 0 := by
    omega
  simp only [ge_iff_le, Nat.not_le.mpr hzno, if_false, hneg, if_true]
  rw [if_neg (by simpa using hnr)]
  simp only
  rw [send_rep_bytes le _ _ _ _ (by decide) (by decide), hfail, neg_neg,
    to_u32_natCast E (by unfold U32; omega)]
  have hne : ((E : Int) ≠ 0) := by omega
  simp [hne]

/-- The reply of the blockgroups handler when the filesystem layer fails with
`-E`: one header whose `err` field is `2^32 - E`, the negative code taken as
an unsigned 32-bit integer, and whose `data_size` field is 0. -/
theorem blockgroups_err (le : Bool) (base : Nat) (fs : fs_env) (E : Nat)
    (h0 : 0 < E) (hE : E < 2 ^ 31) (hfail : fs.get_blockgroups.1 = -(E : Int)) :
    znr_net_send_blockgroups le base fs =
      be32 ZNR_NET_MAGIC ++ (be32 ZNR_NET_BLOCKGROUPS ++ (be32 (U32 - E) ++ be32 0)) := by
  unfold znr_net_send_blockgroups
  have hneg : fs.get_blockgroups.1 < 0 := by omega
  simp only [hneg, if_true]
  rw [send_rep_bytes le _ _ _ _ (by decide) (by decide), hfail,
    to_u32_neg E h0 (by unfold U32; omega)]
  have hne : (-(E : Int) ≠ 0) := by omega
  simp [hne]

/-- C15.  When the blockgroup query fails with `-EIO` (`EIO = 5`) the
blockgroups handler sends a header whose `err` field holds the bytes
`ff ff ff fb`, the value `4294967291`, and not the big-endian encoding
`00 00 00 05` of 5; the file extents and range handlers, whose queries fail
with the same code, send `00 00 00 05`. -/
theorem blockgroups_err_code :
    znr_net_send_blockgroups true 0 ex_failing_fs =
      [122, 111, 110, 101, 0, 0, 0, 6, 255, 255, 255, 251, 0, 0, 0, 0] ∧
    rep_wire_err (znr_net_send_blockgroups true 0 ex_failing_fs) = 4294967291 ∧
    rep_wire_data_size (znr_net_send_blockgroups true 0 ex_failing_fs) = 0 ∧
    be32 5 = [0, 0, 0, 5] ∧
    znr_net_send_file_extents_rep true ex_failing_fs default =
      [122, 111, 110, 101, 0, 0, 0, 4, 0, 0, 0, 5, 0, 0, 0, 0] ∧
    (znr_net_send_extents_in_range_rep true ex_failing_fs default).wire =
      [122, 111, 110, 101, 0, 0, 0, 5, 0, 0, 0, 5, 0, 0, 0, 0] := by
  refine ⟨by rfl, by rfl, by rfl, by rfl, by rfl, by rfl⟩

theorem store32_length (le : Bool) (v : Nat) : (store32 le v).length = 4 := by
  cases le <;> rfl

theorem store64_length (le : Bool) (v : Nat) : (store64 le v).length = 8 := by
  cases le <;> rfl

theorem zone_ptrs_bytes_length (le : Bool) (base : Nat) :
    ∀ ps : List (Option Nat), (zone_ptrs_bytes le base ps).length = 8 * ps.length := by
  intro ps
  induction ps with
  | nil => rfl
  | cons p rest ih =>
    simp only [zone_ptrs_bytes, List.length_append, store64_length, ih, List.length_cons]
    omega

/-- The memory image of an array of blockgroup records takes
`sizeof(struct znr_bg)` bytes per record. -/
theorem bgs_bytes_length (le : Bool) (base : Nat) :
    ∀ bgs : List znr_bg, (∀ bg ∈ bgs, bg.zones.length = ZNR_BG_MAX_ZONES) →
      (bgs_bytes le base bgs).length = sizeof_znr_bg * bgs.length := by
  intro bgs
  induction bgs with
  | nil => intro _; rfl
  | cons bg rest ih =>
    intro h
    have h1 := h bg (by simp)
    have h2 := ih (fun b hb => h b (by simp [hb]))
    simp only [bgs_bytes, bg_bytes, List.length_append, store64_length, store32_length,
      List.length_replicate, zone_ptrs_bytes_length, h1, h2, List.length_cons, sizeof_znr_bg,
      ZNR_BG_MAX_ZONES]
    omega

/-- The bytes the blockgroups handler sends when the query succeeds: a reply
whose four payload bytes are the count as the host holds it in memory, then a
reply announcing `sizeof(struct znr_bg) * count` payload bytes. -/
theorem blockgroups_reply_bytes (le : Bool) (base : Nat) (fs : fs_env)
    (hok : ¬ fs.get_blockgroups.1 < 0) :
    ∃ payload : List Nat,
      znr_net_send_blockgroups le base fs =
        (be32 ZNR_NET_MAGIC ++ (be32 ZNR_NET_BLOCKGROUPS ++ (be32 0 ++ (be32 4 ++
          store32 le fs.get_blockgroups.2.length)))) ++
        (be32 ZNR_NET_MAGIC ++ (be32 ZNR_NET_BLOCKGROUPS ++ (be32 0 ++
          (be32 ((sizeof_znr_bg * fs.get_blockgroups.2.length) % U32) ++ payload)))) := by
  unfold znr_net_send_blockgroups
  rw [if_neg hok]
  simp only
  rw [send_rep_bytes le _ _ _ _ (by decide) (by decide),
    send_rep_bytes le _ _ _ _ (by decide) (Nat.mod_lt _ (by decide))]
  have e0 : to_u32 0 = 0 := rfl
  have e4 : (store32 le fs.get_blockgroups.2.length).take 4 =
      store32 le fs.get_blockgroups.2.length := by
    cases le <;> rfl
  simp only [ne_eq, not_true_eq_false, if_false, e0, OfNat.ofNat_ne_zero, not_false_eq_true,
    if_true, e4]
  exact ⟨_, rfl⟩

/-- C16.  On a little-endian host with two blockgroups the first reply of the
blockgroups handler carries the four payload bytes `02 00 00 00`, the count
in the byte order of the host, and not `00 00 00 02`; on a big-endian host
the bytes are `00 00 00 02`.  The header of the second reply announces
`8272 = 2 * 4136` payload bytes, count times the size of a blockgroup
record. -/
theorem blockgroups_count_encoding :
    ex_blockgroups.length = 2 ∧
    (znr_net_send_blockgroups true 0 ex_bg_fs).take 16 =
      [122, 111, 110, 101, 0, 0, 0, 6, 0, 0, 0, 0, 0, 0, 0, 4] ∧
    ((znr_net_send_blockgroups true 0 ex_bg_fs).drop 16).take 4 = [2, 0, 0, 0] ∧
    be32 2 = [0, 0, 0, 2] ∧
    ((znr_net_send_blockgroups false 0 ex_bg_fs).drop 16).take 4 = [0, 0, 0, 2] ∧
    rep_wire_data_size ((znr_net_send_blockgroups true 0 ex_bg_fs).drop 20) = 8272 ∧
    2 * sizeof_znr_bg = 8272 := by
  refine ⟨by rfl, by rfl, by rfl, by rfl, by rfl, by rfl, by rfl⟩

/-- A request that fails the range check gets the reply `err = EINVAL` with
`data_size = 0`; the device is not queried and the session zones are left as
they are. -/
theorem dev_rep_zones_rejected (le : Bool) (env : report_env) (g : znr) (dev : znr_device)
    (zones : List blk_zone) (req : znr_net_req)
    (h : rep_zones_check_fails dev.nr_zones (req.zno % U32) (req.nr_zones % U32) = true) :
    znr_net_send_dev_rep_zones_rep le env g dev zones req =
      ⟨be32 ZNR_NET_MAGIC ++ (be32 ZNR_NET_DEV_REP_ZONES ++ (be32 22 ++ be32 0)), zones, []⟩ := by
  have hrep : ∀ data : List Nat, znr_net_send_rep le ZNR_NET_DEV_REP_ZONES EINVAL data 0 =
      be32 ZNR_NET_MAGIC ++ (be32 ZNR_NET_DEV_REP_ZONES ++ (be32 22 ++ be32 0)) := by
    intro data
    rw [send_rep_bytes le _ _ _ _ (by decide) (by decide)]
    have e : to_u32 EINVAL = 22 := rfl
    have hne : EINVAL ≠ 0 := by decide
    simp [e, hne]
  unfold rep_zones_check_fails at h
  simp only [Bool.or_eq_true, decide_eq_true_eq] at h
  unfold znr_net_send_dev_rep_zones_rep
  by_cases h1 : req.zno % U32 ≥ dev.nr_zones
  · simp only [h1, if_true, hrep]
  · have h2 : req.nr_zones % U32 = 0 ∨
        (req.zno % U32 + req.nr_zones % U32 + U32 - 1) % U32 ≥ dev.nr_zones :=
      h.resolve_left h1
    simp only [h1, if_false, h2, if_true, hrep]

/-- A request that passes the range check makes the handler call
`znr_dev_report_zones` once, with the values of the request. -/
theorem dev_rep_zones_queried (le : Bool) (env : report_env) (g : znr) (dev : znr_device)
    (zones : List blk_zone) (req : znr_net_req)
    (h : rep_zones_check_fails dev.nr_zones (req.zno % U32) (req.nr_zones % U32) = false) :
    (znr_net_send_dev_rep_zones_rep le env g dev zones req).reports =
      [(req.zno % U32, req.nr_zones % U32)] := by
  unfold rep_zones_check_fails at h
  simp only [Bool.or_eq_false_iff, decide_eq_false_iff_not] at h
  obtain ⟨h1, h2, h3⟩ := h
  unfold znr_net_send_dev_rep_zones_rep
  have h23 : ¬ (req.nr_zones % U32 = 0 ∨
      (req.zno % U32 + req.nr_zones % U32 + U32 - 1) % U32 ≥ dev.nr_zones) :=
    fun hc => hc.elim h2 h3
  simp only [h1, if_false, h23]
  split
  · rfl
  · split <;> rfl

/-- The 32-bit range check is exact whenever `zno + nr_zones` does not exceed
`2^32`: the request passes if and only if `nr_zones >= 1` and
`zno + nr_zones` is at most the zone count of the device. -/
theorem rep_zones_check_exact (dev_nr_zones zno nr_zones : Nat) (hsum : zno + nr_zones ≤ U32) :
    rep_zones_check_fails dev_nr_zones zno nr_zones = false ↔
      1 ≤ nr_zones ∧ zno + nr_zones ≤ dev_nr_zones := by
  unfold rep_zones_check_fails
  simp only [Bool.or_eq_false_iff, decide_eq_false_iff_not]
  unfold U32 at hsum ⊢
  constructor
  · rintro ⟨h1, h2, h3⟩
    have e : (zno + nr_zones + 2 ^ 32 - 1) % 2 ^ 32 = zno + nr_zones - 1 := by omega
    rw [e] at h3
    omega
  · rintro ⟨h1, h2⟩
    have e : (zno + nr_zones + 2 ^ 32 - 1) % 2 ^ 32 = zno + nr_zones - 1 := by omega
    rw [e]
    omega

/-- A request that passes the 32-bit range check has `nr_zones >= 1`,
`zno` below the zone count, and `zno + nr_zones - 1` modulo `2^32` below the
zone count. -/
theorem rep_zones_check_passes (dev_nr_zones zno nr_zones : Nat)
    (h : rep_zones_check_fails dev_nr_zones zno nr_zones = false) :
    1 ≤ nr_zones ∧ zno < dev_nr_zones ∧ (zno + nr_zones - 1) % U32 < dev_nr_zones := by
  unfold rep_zones_check_fails at h
  simp only [Bool.or_eq_false_iff, decide_eq_false_iff_not] at h
  obtain ⟨h1, h2, h3⟩ := h
  unfold U32 at h3 ⊢
  have e : (zno + nr_zones + 2 ^ 32 - 1) % 2 ^ 32 = (zno + nr_zones - 1) % 2 ^ 32 := by omega
  rw [e] at h3
  omega

/-- C18.  On the example device of four zones the request `zno = 2`,
`nr_zones = 4294967295` has `zno + nr_zones > 4` over the integers, but the
32-bit sum `zno + nr_zones - 1` wraps to 0 and the range check passes: the
handler calls `znr_dev_report_zones (2, 4294967295)`, which rewrites the
session zones 2 and 3, and replies `err = EINVAL` with `data_size = 0` only
because two zones came back instead of 4294967295. -/
theorem dev_rep_zones_check_wraps :
    ex_wrap_req.zno + ex_wrap_req.nr_zones > ex_dev.nr_zones ∧
    (ex_wrap_req.zno + ex_wrap_req.nr_zones + U32 - 1) % U32 = 0 ∧
    rep_zones_check_fails ex_dev.nr_zones ex_wrap_req.zno ex_wrap_req.nr_zones = false ∧
    (znr_net_send_dev_rep_zones_rep true ex_env ex_session ex_dev ex_blank_zones
      ex_wrap_req).reports = [(2, 4294967295)] ∧
    (znr_net_send_dev_rep_zones_rep true ex_env ex_session ex_dev ex_blank_zones
      ex_wrap_req).wire = [122, 111, 110, 101, 0, 0, 0, 3, 0, 0, 0, 22, 0, 0, 0, 0] ∧
    (znr_net_send_dev_rep_zones_rep true ex_env ex_session ex_dev ex_blank_zones
      ex_wrap_req).zones = ex_blank_zones.take 2 ++ ex_zones.drop 2 := by
  refine ⟨by decide, by decide, by decide, by rfl, by rfl, by rfl⟩

/-- The range handler calls the filesystem layer once for every request, with
the sector range of the request as it is. -/
theorem extents_in_range_queries (le : Bool) (fs : fs_env) (req : znr_net_req) :
    (znr_net_send_extents_in_range_rep le fs req).queries = [(req.sector, req.nr_sectors)] := by
  unfold znr_net_send_extents_in_range_rep
  simp only
  split <;> rfl

/-- C19.  For the range `sector = 1000`, `nr_sectors = 8` on the example
device of 400 sectors the range handler of the server calls the filesystem
layer with `(1000, 8)` and sends what it answers, `err = 0` with one extent
of 384 bytes; the client function `znr_net_get_extents_in_range` rejects the
same range with `-EINVAL` before it sends anything. -/
theorem extents_in_range_unchecked :
    ex_range_req.sector ≥ ex_dev.nr_sectors ∧
    (znr_net_send_extents_in_range_rep true ex_fs ex_range_req).queries = [(1000, 8)] ∧
    rep_wire_err (znr_net_send_extents_in_range_rep true ex_fs ex_range_req).wire = 0 ∧
    rep_wire_data_size (znr_net_send_extents_in_range_rep true ex_fs ex_range_req).wire = 384 ∧
    ∀ reply, znr_net_get_extents_in_range true ex_dev 1000 8 reply = (-EINVAL, []) := by
  refine ⟨by decide, by rfl, by rfl, by rfl, ?_⟩
  intro reply
  unfold znr_net_get_extents_in_range
  rw [if_pos (Or.inl (by decide))]

theorem load32_rest (le : Bool) (buf : List Nat) : (load32 le buf).2 = buf.drop 4 := by
  rcases buf with _ | ⟨b0, _ | ⟨b1, _ | ⟨b2, _ | ⟨b3, rest⟩⟩⟩⟩ <;> rfl

theorem load64_rest (le : Bool) (buf : List Nat) : (load64 le buf).2 = buf.drop 8 := by
  rcases buf with _ | ⟨b0, _ | ⟨b1, _ | ⟨b2, _ | ⟨b3, _ | ⟨b4, _ | ⟨b5, _ | ⟨b6, _ | ⟨b7, rest⟩⟩⟩⟩⟩⟩⟩⟩ <;>
    rfl

theorem ntohl_load32_buf (le : Bool) (buf : List Nat) (h : 4 ≤ buf.length)
    (hb : ∀ b ∈ buf, b < 256) : ntohl le (load32 le buf).1 = (load32 false buf).1 := by
  rcases buf with _ | ⟨b0, _ | ⟨b1, _ | ⟨b2, _ | ⟨b3, rest⟩⟩⟩⟩ <;>
    first
      | exact ntohl_load32 le b0 b1 b2 b3 rest (hb b0 (by simp)) (hb b1 (by simp))
          (hb b2 (by simp)) (hb b3 (by simp))
      | (simp at h)

theorem ntohll_load64_buf (le : Bool) (buf : List Nat) (h : 8 ≤ buf.length)
    (hb : ∀ b ∈ buf, b < 256) : ntohll le (load64 le buf).1 = (load64 false buf).1 := by
  rcases buf with _ | ⟨b0, _ | ⟨b1, _ | ⟨b2, _ | ⟨b3, _ | ⟨b4, _ | ⟨b5, _ | ⟨b6, _ | ⟨b7, rest⟩⟩⟩⟩⟩⟩⟩⟩ <;>
    first
      | exact ntohll_load64 le b0 b1 b2 b3 b4 b5 b6 b7 rest (hb b0 (by simp)) (hb b1 (by simp))
          (hb b2 (by simp)) (hb b3 (by simp)) (hb b4 (by simp)) (hb b5 (by simp))
          (hb b6 (by simp)) (hb b7 (by simp))
      | (simp at h)

theorem bytes_drop (buf : List Nat) (k : Nat) (hb : ∀ b ∈ buf, b < 256) :
    ∀ b ∈ buf.drop k, b < 256 :=
  fun b h => hb b (List.mem_of_mem_drop h)

/-- The receiver's conversion of the record it finds at the start of a
buffer gives the record read in big-endian order. -/
theorem extent_ntoh_of_bytes (le : Bool) (buf : List Nat) (h : 32 ≤ buf.length)
    (hb : ∀ b ∈ buf, b < 256) :
    extents_ntoh le [extent_of_bytes le buf] = [extent_of_be le buf] := by
  have l4 : ∀ k, k + 4 ≤ 32 → 4 ≤ (buf.drop k).length := by
    intro k hk
    rw [List.length_drop]
    omega
  have l8 : ∀ k, k + 8 ≤ 32 → 8 ≤ (buf.drop k).length := by
    intro k hk
    rw [List.length_drop]
    omega
  have r0 : (load32 le buf).2 = buf.drop 4 := load32_rest le buf
  have r1 : (load32 le (buf.drop 4)).2 = buf.drop 8 := by
    rw [load32_rest le _, List.drop_drop]
  have r2 : (load64 le (buf.drop 8)).2 = buf.drop 16 := by
    rw [load64_rest le _, List.drop_drop]
  have r3 : (load64 le (buf.drop 16)).2 = buf.drop 24 := by
    rw [load64_rest le _, List.drop_drop]
  have r4 : (load64 le (buf.drop 24)).2 = buf.drop 32 := by
    rw [load64_rest le _, List.drop_drop]
  simp only [extents_ntoh, extent_of_bytes, extent_of_be, List.map_cons, List.map_nil, r0, r1,
    r2, r3, r4,
    ntohl_load32_buf le _ (l4 4 (by omega)) (bytes_drop buf 4 hb),
    ntohll_load64_buf le _ (l8 8 (by omega)) (bytes_drop buf 8 hb),
    ntohll_load64_buf le _ (l8 16 (by omega)) (bytes_drop buf 16 hb),
    ntohll_load64_buf le _ (l8 24 (by omega)) (bytes_drop buf 24 hb)]

/-- The receiver's conversion of the array it finds in a buffer gives the
records read in big-endian order. -/
theorem extents_ntoh_of_bytes (le : Bool) :
    ∀ (n : Nat) (buf : List Nat), sizeof_znr_extent * n ≤ buf.length → (∀ b ∈ buf, b < 256) →
      extents_ntoh le (extents_of_bytes le n buf) =
        (List.range n).map (fun k => extent_of_be le (buf.drop (sizeof_znr_extent * k))) := by
  intro n
  induction n with
  | zero => intro buf _ _; rfl
  | succ n ih =>
    intro buf hlen hb
    have hs : sizeof_znr_extent = 384 := rfl
    rw [hs] at hlen
    have h1 := extent_ntoh_of_bytes le buf (by omega) hb
    have h2 := ih (buf.drop sizeof_znr_extent) (by rw [List.length_drop, hs]; omega)
      (bytes_drop buf _ hb)
    rw [extents_of_bytes, List.range_succ_eq_map, List.map_cons, List.map_map]
    have hsplit : extents_ntoh le (extent_of_bytes le buf ::
        extents_of_bytes le n (buf.drop sizeof_znr_extent)) =
        extents_ntoh le [extent_of_bytes le buf] ++
          extents_ntoh le (extents_of_bytes le n (buf.drop sizeof_znr_extent)) := by
      simp [extents_ntoh]
    rw [hsplit, h1, h2]
    simp only [List.singleton_append, Nat.mul_zero, List.drop_zero, List.cons.injEq, true_and]
    apply List.map_congr_left
    intro k _
    simp only [Function.comp, List.drop_drop]
    congr 2
    rw [Nat.mul_succ]
    omega

/-- What `znr_net_recv_rep` makes of a reply on the wire whose identifier is
the expected one and whose payload has the announced size. -/
theorem recv_rep_reply (le : Bool) (id err d : Nat) (payload rest : List Nat) (hid : id < U32)
    (herr : err < U32) (hd : d < U32) (hlen : payload.length = d) :
    znr_net_recv_rep le id (reply_wire id err d (payload ++ rest)) =
      if to_i32 err ≠ 0 then ⟨0, to_i32 err, none, 0, payload ++ rest⟩
      else if d ≠ 0 then ⟨0, 0, some payload, d, rest⟩
      else ⟨0, 0, none, 0, payload ++ rest⟩ := by
  have hm : ZNR_NET_MAGIC < U32 := by decide
  have hsize : ¬ (reply_wire id err d (payload ++ rest)).length < sizeof_znr_net_rep := by
    simp only [reply_wire, List.length_append, be32_length, sizeof_znr_net_rep]
    omega
  unfold znr_net_recv_rep
  rw [if_neg hsize]
  simp only [reply_wire, load32_be32 le _ hm, load32_be32 le _ hid, load32_be32 le _ herr,
    load32_be32 le _ hd, ntohl_htonl le _ hm, ntohl_htonl le _ hid, ntohl_htonl le _ herr,
    ntohl_htonl le _ hd, ne_eq, not_true_eq_false, if_false]
  by_cases he : to_i32 err = 0
  · simp only [he, not_true_eq_false, if_false]
    by_cases hz : d = 0
    · simp only [hz, not_true_eq_false, if_false]
    · have hl : ¬ (payload ++ rest).length < d := by
        rw [List.length_append]
        omega
      simp only [hz, not_false_eq_true, if_true, hl, if_false]
      rw [← hlen, List.take_left, List.drop_left]
  · simp only [he, not_false_eq_true, if_true]

theorem to_i32_zero : to_i32 0 = 0 := rfl

/-- What the extent receivers make of a reply without error whose payload
has the announced size. -/
theorem recv_extents_reply (le : Bool) (id d : Nat) (payload : List Nat) (hid : id < U32)
    (hd : d < U32) (hlen : payload.length = d) (hbytes : ∀ b ∈ payload, b < 256) :
    recv_extents le id (reply_wire id 0 d payload) =
      if d % sizeof_znr_extent ≠ 0 then (-1, [])
      else
        (0, (List.range (d / sizeof_znr_extent)).map
          (fun k => extent_of_be le (payload.drop (sizeof_znr_extent * k)))) := by
  have h := recv_rep_reply le id 0 d payload [] hid (by decide) hd hlen
  rw [List.append_nil] at h
  unfold recv_extents
  rw [h]
  simp only [to_i32_zero, ne_eq, not_true_eq_false, if_false]
  have hs : sizeof_znr_extent = 384 := rfl
  by_cases hz : d = 0
  · subst hz
    simp only [not_true_eq_false, if_false, Nat.zero_mod, Nat.zero_div]
    rfl
  · simp only [hz, not_false_eq_true, if_true, not_true_eq_false, if_false]
    by_cases ha : d % sizeof_znr_extent = 0
    · simp only [ha, not_true_eq_false, if_false, Option.getD_some]
      have hn : d / sizeof_znr_extent % U32 = d / sizeof_znr_extent := by
        apply Nat.mod_eq_of_lt
        exact lt_of_le_of_lt (Nat.div_le_self _ _) hd
      rw [hn, extents_ntoh_of_bytes le _ payload (by rw [hlen]; exact Nat.mul_div_le _ _) hbytes]
    · simp only [ha, not_false_eq_true, if_true]

/-- C17.  For every reply without error to a FILE_EXTENTS or
EXTENTS_IN_RANGE request whose payload has the announced length `data_size`,
the client functions return -1 and no extent when `data_size` is not a
multiple of the size of an extent record, 384 bytes, and otherwise return 0
and exactly `data_size / 384` extents, the `k`-th one read from the bytes at
offset `384 * k` with `idx`, `ino`, `sector` and `nr_sectors` taken as
big-endian integers. -/
theorem extent_payload_alignment (le : Bool) (data_size : Nat) (payload path : List Nat)
    (dev : znr_device) (sector nr_sectors : Nat)
    (hd : data_size < U32) (hlen : payload.length = data_size)
    (hbytes : ∀ b ∈ payload, b < 256) (hpath : (cstr path).length ≠ 0)
    (hrange : sector < dev.nr_sectors ∧ (sector + nr_sectors) % U64 ≤ dev.nr_sectors) :
    sizeof_znr_extent = 4 + 4 + 8 + 8 + 8 + 352 ∧ sizeof_znr_extent = 384 ∧
    (data_size % 384 ≠ 0 →
      znr_net_get_file_extents le (some path)
          (reply_wire ZNR_NET_FILE_EXTENTS 0 data_size payload) = (-1, []) ∧
      znr_net_get_extents_in_range le dev sector nr_sectors
          (reply_wire ZNR_NET_EXTENTS_IN_RANGE 0 data_size payload) = (-1, [])) ∧
    (data_size % 384 = 0 →
      znr_net_get_file_extents le (some path)
          (reply_wire ZNR_NET_FILE_EXTENTS 0 data_size payload) =
        (0, (List.range (data_size / 384)).map
          (fun k => extent_of_be le (payload.drop (384 * k)))) ∧
      znr_net_get_extents_in_range le dev sector nr_sectors
          (reply_wire ZNR_NET_EXTENTS_IN_RANGE 0 data_size payload) =
        (0, (List.range (data_size / 384)).map
          (fun k => extent_of_be le (payload.drop (384 * k)))) ∧
      ((List.range (data_size / 384)).map
          (fun k => extent_of_be le (payload.drop (384 * k)))).length = data_size / 384) := by
  have hs : sizeof_znr_extent = 384 := rfl
  have hf := recv_extents_reply le ZNR_NET_FILE_EXTENTS data_size payload (by decide) hd hlen
    hbytes
  have hr := recv_extents_reply le ZNR_NET_EXTENTS_IN_RANGE data_size payload (by decide) hd
    hlen hbytes
  rw [hs] at hf hr
  have ef : ∀ reply, znr_net_get_file_extents le (some path) reply =
      recv_extents le ZNR_NET_FILE_EXTENTS reply := by
    intro reply
    simp only [znr_net_get_file_extents, hpath, if_false]
  have er : ∀ reply, znr_net_get_extents_in_range le dev sector nr_sectors reply =
      recv_extents le ZNR_NET_EXTENTS_IN_RANGE reply := by
    intro reply
    unfold znr_net_get_extents_in_range
    rw [if_neg (by omega)]
  refine ⟨rfl, rfl, ?_, ?_⟩
  · intro h
    rw [ef, er, hf, hr, if_pos h]
    exact ⟨rfl, rfl⟩
  · intro h
    rw [ef, er, hf, hr, if_neg (not_not.mpr h)]
    exact ⟨rfl, rfl, by simp⟩

set_option maxRecDepth 100000 in
/-- C17, witness: on a little-endian host a payload of 384 bytes gives one
extent with the fields converted, and a payload of 100 bytes gives an
error. -/
theorem extent_payload_alignment_witness :
    ((384 < U32 ∧ ex_extent_payload.length = 384 ∧ (∀ b ∈ ex_extent_payload, b < 256) ∧
        (cstr ex_path).length ≠ 0 ∧ (0 < ex_dev.nr_sectors ∧ (0 + 8) % U64 ≤ ex_dev.nr_sectors)) ∧
      znr_net_get_file_extents true (some ex_path)
          (reply_wire ZNR_NET_FILE_EXTENTS 0 384 ex_extent_payload) =
        (0, [{ type := 16777216, idx := 3, ino := 7, sector := 100, nr_sectors := 8,
               info := List.replicate 352 0 }])) ∧
    znr_net_get_extents_in_range true ex_dev 0 8
        (reply_wire ZNR_NET_EXTENTS_IN_RANGE 0 100 (List.replicate 100 0)) = (-1, []) :=
  have hb : ∀ b ∈ ex_extent_payload, b < 256 := by
    intro b hb
    simp only [ex_extent_payload, List.mem_append, List.mem_cons, List.mem_replicate,
      List.not_mem_nil, or_false] at hb
    omega
  have hb2 : ∀ b ∈ List.replicate 100 0, b < 256 := by
    intro b hb
    rw [List.eq_of_mem_replicate hb]
    decide
  have hlen : ex_extent_payload.length = 384 := by
    simp only [ex_extent_payload, List.length_append, List.length_replicate, List.length_cons,
      List.length_nil]
  ⟨⟨⟨by decide, hlen, hb, by decide, by decide, by decide⟩,
    ((extent_payload_alignment true 384 ex_extent_payload ex_path ex_dev 0 8 (by decide) hlen hb
      (by decide) ⟨by decide, by decide⟩).2.2.2 (by decide)).1.trans (by rfl)⟩,
    ((extent_payload_alignment true 100 (List.replicate 100 0) ex_path ex_dev 0 8 (by decide)
      (List.length_replicate _ _) hb2 (by decide) ⟨by decide, by decide⟩).2.2.1 (by decide)).2⟩

/-- A string without NUL is its own C string. -/
theorem cstr_self (p : List Nat) (hnz : ∀ c ∈ p, c ≠ 0) : cstr p = p := by
  unfold cstr
  rw [List.takeWhile_eq_self_iff]
  intro c hc
  simpa using hnz c hc

/-- The C string in a buffer that holds a string without NUL followed by a
NUL byte. -/
theorem cstr_nul (p t : List Nat) (hnz : ∀ c ∈ p, c ≠ 0) : cstr (p ++ 0 :: t) = p := by
  induction p with
  | nil => simp [cstr]
  | cons c rest ih =>
    have hc : c ≠ 0 := hnz c (List.mem_cons_self _ _)
    have := ih (fun c' hc' => hnz c' (List.mem_cons_of_mem _ hc'))
    unfold cstr at this ⊢
    simp only [List.cons_append, List.takeWhile_cons, ne_eq, hc, not_false_eq_true,
      decide_True, if_true, this]

/-- The vendor field written by `strncpy` for a string without NUL of at most
`ZNR_DEV_VENDOR_ID_LEN` characters: the string, NUL-padded, then what the
destination held after the field. -/
theorem strncpy_vendor (dst v : List Nat) (hlen : v.length ≤ ZNR_DEV_VENDOR_ID_LEN)
    (hnz : ∀ c ∈ v, c ≠ 0) :
    strncpy dst v (ZNR_DEV_VENDOR_ID_LEN + 1) =
      v ++ (0 :: (List.replicate (ZNR_DEV_VENDOR_ID_LEN - v.length) 0 ++
        dst.drop (ZNR_DEV_VENDOR_ID_LEN + 1))) := by
  unfold strncpy
  rw [cstr_self v hnz, List.take_of_length_le (by omega), List.append_assoc]
  have e : ZNR_DEV_VENDOR_ID_LEN + 1 - v.length = (ZNR_DEV_VENDOR_ID_LEN - v.length) + 1 := by
    omega
  rw [e, List.replicate_succ, List.cons_append]

/-- The bytes `znr_net_send_dev_info_rep` transmits: a reply header without
error that announces `sizeof(struct znr_net_dev_info)` bytes, the two string
fields, and every numeric field in big-endian order. -/
theorem send_dev_info_bytes (le : Bool) (dev_path vendor_id : List Nat) (dev : znr_device)
    (hpath : dev_path.length < PATH_MAX) (hpc : ∀ c ∈ dev_path, c ≠ 0)
    (hvendor : vendor_id.length ≤ ZNR_DEV_VENDOR_ID_LEN) (hvc : ∀ c ∈ vendor_id, c ≠ 0)
    (h1 : dev.nr_sectors < U64) (h2 : dev.nr_lblocks < U64) (h3 : dev.nr_pblocks < U64)
    (h4 : dev.zone_size < U64) (h5 : dev.zone_sectors < U32) (h6 : dev.lblock_size < U32)
    (h7 : dev.pblock_size < U32) (h8 : dev.nr_zones < U32) (h9 : dev.max_nr_open_zones < U32)
    (h10 : dev.max_nr_active_zones < U32) :
    znr_net_send_dev_info_rep le dev_path vendor_id dev =
      reply_wire ZNR_NET_DEV_INFO 0 sizeof_znr_net_dev_info
        ((dev_path ++ List.replicate (PATH_MAX - dev_path.length) 0) ++
          ((vendor_id ++ List.replicate (ZNR_DEV_VENDOR_ID_LEN + 1 - vendor_id.length) 0) ++
            (be64 dev.nr_sectors ++ (be64 dev.nr_lblocks ++ (be64 dev.nr_pblocks ++
              (be64 dev.zone_size ++ (be32 dev.zone_sectors ++ (be32 dev.lblock_size ++
                (be32 dev.pblock_size ++ (be32 dev.nr_zones ++ (be32 dev.max_nr_open_zones ++
                  (be32 dev.max_nr_active_zones ++
                    [if dev.is_zoned then 1 else 0])))))))))))) := by
  have hv : strncpy (List.replicate (ZNR_DEV_VENDOR_ID_LEN + 1) 0) vendor_id
      (ZNR_DEV_VENDOR_ID_LEN + 1) =
      vendor_id ++ List.replicate (ZNR_DEV_VENDOR_ID_LEN + 1 - vendor_id.length) 0 := by
    rw [strncpy_vendor _ vendor_id hvendor hvc, List.drop_replicate, Nat.sub_self,
      List.replicate_zero, List.append_nil]
    have e : ZNR_DEV_VENDOR_ID_LEN + 1 - vendor_id.length =
        (ZNR_DEV_VENDOR_ID_LEN - vendor_id.length) + 1 := by omega
    rw [e, List.replicate_succ]
  unfold znr_net_send_dev_info_rep
  rw [send_rep_bytes le _ _ _ _ (by decide) (by decide)]
  simp only [dev_info_bytes, strncpy_path dev_path hpath hpc, hv, store64_htonll le _ h1,
    store64_htonll le _ h2, store64_htonll le _ h3, store64_htonll le _ h4,
    store32_htonl le _ h5, store32_htonl le _ h6, store32_htonl le _ h7, store32_htonl le _ h8,
    store32_htonl le _ h9, store32_htonl le _ h10, ne_eq, not_true_eq_false, if_false]
  have e0 : to_u32 0 = 0 := rfl
  have hsz : sizeof_znr_net_dev_info ≠ 0 := by decide
  rw [if_pos hsz, e0]
  unfold reply_wire
  congr 4
  apply List.take_of_length_le
  simp only [List.length_append, List.length_replicate, be64_length, be32_length,
    List.length_cons, List.length_nil, sizeof_znr_net_dev_info, PATH_MAX,
    ZNR_DEV_VENDOR_ID_LEN] at hpath hvendor ⊢
  omega

/-- The payload a host sees when it receives the two string fields followed
by big-endian numeric fields: every numeric field appears as its `htonl` or
`htonll` image. -/
theorem dev_info_of_be_bytes (le : Bool) (path vendor : List Nat)
    (a1 a2 a3 a4 a5 a6 a7 a8 a9 a10 b : Nat) (hp : path.length = PATH_MAX)
    (hv : vendor.length = ZNR_DEV_VENDOR_ID_LEN + 1)
    (h1 : a1 < U64) (h2 : a2 < U64) (h3 : a3 < U64) (h4 : a4 < U64) (h5 : a5 < U32)
    (h6 : a6 < U32) (h7 : a7 < U32) (h8 : a8 < U32) (h9 : a9 < U32) (h10 : a10 < U32) :
    dev_info_of_bytes le (path ++ (vendor ++ (be64 a1 ++ (be64 a2 ++ (be64 a3 ++ (be64 a4 ++
        (be32 a5 ++ (be32 a6 ++ (be32 a7 ++ (be32 a8 ++ (be32 a9 ++ (be32 a10 ++ [b])))))))))))) =
      { path := path, vendor_id := vendor, nr_sectors := htonll le a1,
        nr_lblocks := htonll le a2, nr_pblocks := htonll le a3, zone_size := htonll le a4,
        zone_sectors := htonl le a5, lblock_size := htonl le a6, pblock_size := htonl le a7,
        nr_zones := htonl le a8, max_nr_open_zones := htonl le a9,
        max_nr_active_zones := htonl le a10, is_zoned := b } := by
  unfold dev_info_of_bytes
  have e1 : ∀ rest : List Nat, (path ++ rest).drop PATH_MAX = rest := by
    intro rest
    rw [← hp, List.drop_left]
  have e2 : ∀ rest : List Nat, (path ++ rest).take PATH_MAX = path := by
    intro rest
    rw [← hp, List.take_left]
  have e3 : ∀ rest : List Nat, (vendor ++ rest).drop (ZNR_DEV_VENDOR_ID_LEN + 1) = rest := by
    intro rest
    rw [← hv, List.drop_left]
  have e4 : ∀ rest : List Nat, (vendor ++ rest).take (ZNR_DEV_VENDOR_ID_LEN + 1) = vendor := by
    intro rest
    rw [← hv, List.take_left]
  have e5 : ∀ (x : Nat), x < U32 → load32 le (be32 x ++ [b]) = (htonl le x, [b]) :=
    fun x hx => load32_be32 le x hx [b]
  simp only [e1, e2, e3, e4, load64_be64 le _ h1, load64_be64 le _ h2, load64_be64 le _ h3,
    load64_be64 le _ h4, load32_be32 le _ h5, load32_be32 le _ h6, load32_be32 le _ h7,
    load32_be32 le _ h8, load32_be32 le _ h9, load32_be32 le _ h10, List.headD_cons]

/-- C11.  For every device descriptor whose numeric fields fit their 64-bit
and 32-bit types, with a vendor string of at most 32 characters and a device
path shorter than `PATH_MAX`, the client decoding in `znr_net_get_dev_info` of
the bytes `znr_net_send_dev_info_rep` sends succeeds and recovers the path,
the vendor string and every field of the descriptor, whatever the byte orders
of the two hosts and whatever the client held before. -/
theorem dev_info_round_trip (le_s le_r : Bool) (dev_path vendor_id : List Nat)
    (dev : znr_device) (dev_path0 : Option (List Nat)) (vendor0 : List Nat) (dev0 : znr_device)
    (hpath : dev_path.length < PATH_MAX) (hpc : ∀ c ∈ dev_path, c ≠ 0)
    (hvendor : vendor_id.length ≤ ZNR_DEV_VENDOR_ID_LEN) (hvc : ∀ c ∈ vendor_id, c ≠ 0)
    (h64 : dev.nr_sectors < U64 ∧ dev.nr_lblocks < U64 ∧ dev.nr_pblocks < U64 ∧
      dev.zone_size < U64)
    (h32 : dev.zone_sectors < U32 ∧ dev.lblock_size < U32 ∧ dev.pblock_size < U32 ∧
      dev.nr_zones < U32 ∧ dev.max_nr_open_zones < U32 ∧ dev.max_nr_active_zones < U32) :
    (znr_net_get_dev_info le_r dev_path0 vendor0 dev0
      (znr_net_send_dev_info_rep le_s dev_path vendor_id dev)).ret = 0 ∧
    (znr_net_get_dev_info le_r dev_path0 vendor0 dev0
      (znr_net_send_dev_info_rep le_s dev_path vendor_id dev)).dev_path = some dev_path ∧
    cstr (znr_net_get_dev_info le_r dev_path0 vendor0 dev0
      (znr_net_send_dev_info_rep le_s dev_path vendor_id dev)).vendor_id = vendor_id ∧
    (znr_net_get_dev_info le_r dev_path0 vendor0 dev0
      (znr_net_send_dev_info_rep le_s dev_path vendor_id dev)).dev = dev := by
  obtain ⟨h1, h2, h3, h4⟩ := h64
  obtain ⟨h5, h6, h7, h8, h9, h10⟩ := h32
  have hplen : (dev_path ++ List.replicate (PATH_MAX - dev_path.length) 0).length = PATH_MAX := by
    rw [List.length_append, List.length_replicate]
    omega
  have hvlen : (vendor_id ++ List.replicate (ZNR_DEV_VENDOR_ID_LEN + 1 - vendor_id.length) 0).length =
      ZNR_DEV_VENDOR_ID_LEN + 1 := by
    rw [List.length_append, List.length_replicate]
    omega
  have hlen : ((dev_path ++ List.replicate (PATH_MAX - dev_path.length) 0) ++
      ((vendor_id ++ List.replicate (ZNR_DEV_VENDOR_ID_LEN + 1 - vendor_id.length) 0) ++
        (be64 dev.nr_sectors ++ (be64 dev.nr_lblocks ++ (be64 dev.nr_pblocks ++
          (be64 dev.zone_size ++ (be32 dev.zone_sectors ++ (be32 dev.lblock_size ++
            (be32 dev.pblock_size ++ (be32 dev.nr_zones ++ (be32 dev.max_nr_open_zones ++
              (be32 dev.max_nr_active_zones ++
                [if dev.is_zoned then 1 else 0])))))))))))).length =
      sizeof_znr_net_dev_info := by
    rw [List.length_append, hplen, List.length_append, hvlen]
    simp only [List.length_append, be64_length, be32_length, List.length_cons, List.length_nil,
      sizeof_znr_net_dev_info]
    omega
  have hrecv := recv_rep_reply le_r ZNR_NET_DEV_INFO 0 sizeof_znr_net_dev_info _ [] (by decide)
    (by decide) (by decide) hlen
  rw [List.append_nil] at hrecv
  have hsz : sizeof_znr_net_dev_info ≠ 0 := by decide
  have hz : ¬ (to_i32 0 ≠ 0) := fun h => h to_i32_zero
  rw [if_neg hz, if_pos hsz] at hrecv
  have hdec := dev_info_of_be_bytes le_r _ _ dev.nr_sectors dev.nr_lblocks dev.nr_pblocks
    dev.zone_size dev.zone_sectors dev.lblock_size dev.pblock_size dev.nr_zones
    dev.max_nr_open_zones dev.max_nr_active_zones (if dev.is_zoned then 1 else 0) hplen hvlen
    h1 h2 h3 h4 h5 h6 h7 h8 h9 h10
  have hres : znr_net_get_dev_info le_r dev_path0 vendor0 dev0
      (znr_net_send_dev_info_rep le_s dev_path vendor_id dev) =
      ⟨0, some dev_path,
        strncpy vendor0
          (vendor_id ++ List.replicate (ZNR_DEV_VENDOR_ID_LEN + 1 - vendor_id.length) 0)
          (ZNR_DEV_VENDOR_ID_LEN + 1), dev⟩ := by
    rw [send_dev_info_bytes le_s dev_path vendor_id dev hpath hpc hvendor hvc h1 h2 h3 h4 h5 h6
      h7 h8 h9 h10]
    unfold znr_net_get_dev_info
    rw [hrecv]
    simp only [ne_eq, not_true_eq_false, if_false, Option.getD_some, hdec, ntohll_eq_htonll,
      htonll_htonll le_r _ h1, htonll_htonll le_r _ h2, htonll_htonll le_r _ h3,
      htonll_htonll le_r _ h4, ntohl_htonl le_r _ h5, ntohl_htonl le_r _ h6,
      ntohl_htonl le_r _ h7, ntohl_htonl le_r _ h8, ntohl_htonl le_r _ h9,
      ntohl_htonl le_r _ h10, cstr_padded dev_path _ hpc (by omega : 0 < PATH_MAX - dev_path.length)]
    cases dev with
    | mk a1 a2 a3 a4 a5 a6 a7 a8 a9 a10 z =>
      cases z <;> simp
  rw [hres]
  refine ⟨rfl, rfl, ?_, rfl⟩
  have e : ZNR_DEV_VENDOR_ID_LEN + 1 - vendor_id.length =
      (ZNR_DEV_VENDOR_ID_LEN - vendor_id.length) + 1 := by omega
  have hc : cstr (vendor_id ++ List.replicate (ZNR_DEV_VENDOR_ID_LEN + 1 - vendor_id.length) 0) =
      vendor_id := cstr_padded vendor_id _ hvc (by omega)
  show cstr (strncpy vendor0 _ _) = vendor_id
  unfold strncpy
  rw [hc, List.take_of_length_le (by omega), e, List.replicate_succ, List.append_assoc,
    List.cons_append]
  exact cstr_nul vendor_id _ hvc

/-- C11, witness: the example descriptor sent by a little-endian server to a
big-endian client that held nothing before. -/
theorem dev_info_round_trip_witness :
    (ex_path.length < PATH_MAX ∧ ex_vendor.length ≤ ZNR_DEV_VENDOR_ID_LEN) ∧
    (znr_net_get_dev_info false none (List.replicate 33 0) default
      (znr_net_send_dev_info_rep true ex_path ex_vendor ex_wide_dev)).dev = ex_wide_dev ∧
    ex_wide_dev.nr_sectors = 0x123456789ABCDEF0 ∧ ex_wide_dev.zone_sectors = 524288 ∧
    ex_wide_dev.is_zoned = true :=
  ⟨⟨by decide, by decide⟩,
    (dev_info_round_trip true false ex_path ex_vendor ex_wide_dev none (List.replicate 33 0)
      default (by decide) (by decide) (by decide) (by decide)
      ⟨by decide, by decide, by decide, by decide⟩
      ⟨by decide, by decide, by decide, by decide, by decide, by decide⟩).2.2.2,
    rfl, rfl, rfl⟩

theorem to_i64_natCast (a : Nat) (h : a < 2 ^ 63) : to_i64 (a : Int) = (a : Int) := by
  unfold to_i64
  omega

theorem to_u64_natCast (a : Nat) (h : a < U64) : to_u64 (a : Int) = a := by
  unfold to_u64
  unfold U64 at h
  omega

/-- The signed product of the provider is the product of the numbers when it
fits a signed 64-bit value. -/
theorem off_t_mul_eq (a b : Nat) (ha : a < 2 ^ 63) (hb : b < 2 ^ 63) (hab : a * b < 2 ^ 63) :
    off_t_mul a b = ((a * b : Nat) : Int) := by
  unfold off_t_mul
  rw [to_i64_natCast a ha, to_i64_natCast b hb, ← Int.ofNat_mul, to_i64_natCast (a * b) hab]

/-- The signed quotient by `BBSIZE` of a product that fits a signed 64-bit
value. -/
theorem off_t_div_eq (a b : Nat) (ha : a < 2 ^ 63) (hb : b < 2 ^ 63) (hab : a * b < 2 ^ 63) :
    to_u64 (Int.tdiv (off_t_mul a b) BBSIZE) = a * b / 512 := by
  rw [off_t_mul_eq a b ha hb hab, Int.tdiv_eq_ediv (Int.ofNat_nonneg _) (Int.ofNat_nonneg _)]
  have e : (((a * b : Nat) : Int) / ((BBSIZE : Nat) : Int)) = ((a * b / 512 : Nat) : Int) := rfl
  rw [e, to_u64_natCast]
  unfold U64
  omega

/-- The array `znr_xfs_get_blockgroups` builds when it accepts the geometry:
the allocation groups, then the realtime groups. -/
theorem xfs_blockgroups_eq (geo : xfs_fsop_geom) (hb : geo.blocksize ≠ 0)
    (hs : geo.agcount + geo.rgcount ≤ UINT_MAX) :
    znr_xfs_get_blockgroups geo =
      (0,
        (List.range geo.agcount).map (fun ag =>
            { zero_bg with sector := (ag * xfs_bbperag geo) % U64,
                           nr_sectors := xfs_bbperag geo }) ++
          (List.range geo.rgcount).map (fun rg =>
            { zero_bg with sector := (xfs_rtstart geo + rg * xfs_bbperrg geo) % U64,
                           nr_sectors := xfs_bbperrg geo })) := by
  have hlt : (geo.agcount + geo.rgcount) % U64 = geo.agcount + geo.rgcount := by
    apply Nat.mod_eq_of_lt
    unfold UINT_MAX U32 at hs
    unfold U64
    omega
  unfold znr_xfs_get_blockgroups znr_xfs_get_nr_blockgroups
  rw [if_neg hb, hlt, if_neg (by omega)]
  simp only [Nat.add_mod_mod]

/-- The record of allocation group `i`. -/
theorem xfs_blockgroups_ag (geo : xfs_fsop_geom) (hb : geo.blocksize ≠ 0)
    (hs : geo.agcount + geo.rgcount ≤ UINT_MAX) (i : Nat) (hi : i < geo.agcount) :
    (znr_xfs_get_blockgroups geo).2.getD i default =
      { zero_bg with sector := (i * xfs_bbperag geo) % U64, nr_sectors := xfs_bbperag geo } := by
  rw [xfs_blockgroups_eq geo hb hs, List.getD_eq_getElem?_getD,
    List.getElem?_append_left (by simpa using hi), List.getElem?_map,
    List.getElem?_range hi]
  rfl

/-- The record of realtime group `r`. -/
theorem xfs_blockgroups_rg (geo : xfs_fsop_geom) (hb : geo.blocksize ≠ 0)
    (hs : geo.agcount + geo.rgcount ≤ UINT_MAX) (r : Nat) (hr : r < geo.rgcount) :
    (znr_xfs_get_blockgroups geo).2.getD (geo.agcount + r) default =
      { zero_bg with sector := (xfs_rtstart geo + r * xfs_bbperrg geo) % U64,
                     nr_sectors := xfs_bbperrg geo } := by
  rw [xfs_blockgroups_eq geo hb hs, List.getD_eq_getElem?_getD,
    List.getElem?_append_right (by simp), List.getElem?_map]
  simp only [List.length_map, List.length_range, Nat.add_sub_cancel_left]
  rw [List.getElem?_range hr]
  rfl

/-- C21, counterexample.  A geometry with `blocksize = 4096`,
`agcount = 4294967295` and `rgcount = 1` is rejected with `-ENOSPC`: no
blockgroup is returned although the block size is not 0. -/
theorem xfs_blockgroups_counterexample :
    ex_many_geo.blocksize ≠ 0 ∧
    ex_many_geo.agcount + ex_many_geo.rgcount = 4294967296 ∧
    znr_xfs_get_blockgroups ex_many_geo = (-ENOSPC, []) := by
  refine ⟨by decide, by decide, by rfl⟩

/-- C21, amended.  With `blocksize = 0` the provider fails with `-ENODEV`.
With `blocksize != 0` and `agcount + rgcount <= UINT_MAX` it returns
`agcount + rgcount` blockgroups: blockgroup `i < agcount` has
`sector = i * B` and `nr_sectors = B`, blockgroup `agcount + r` with
`r < rgcount` has `sector = R + r * G` and `nr_sectors = G`, the sums taken
modulo `2^64`, and every other field is zero.  `B`, `R` and `G` are
`agblocks * blocksize / 512`, `rtstart * blocksize / 512` and
`rgextents * rtextsize * blocksize / 512` whenever the products fit their
64-bit types.  With `agcount + rgcount > UINT_MAX` the provider fails with
`-ENOSPC`. -/
theorem xfs_blockgroups (geo : xfs_fsop_geom) :
    (geo.blocksize = 0 → znr_xfs_get_blockgroups geo = (-ENODEV, [])) ∧
    (geo.blocksize ≠ 0 → geo.agcount + geo.rgcount ≤ UINT_MAX →
      (znr_xfs_get_blockgroups geo).1 = 0 ∧
      (znr_xfs_get_blockgroups geo).2.length = geo.agcount + geo.rgcount ∧
      (∀ i, i < geo.agcount →
        (znr_xfs_get_blockgroups geo).2.getD i default =
          { sector := (i * xfs_bbperag geo) % U64, nr_sectors := xfs_bbperag geo,
            wp_sector := 0, flags := 0, zones := List.replicate ZNR_BG_MAX_ZONES none,
            nr_zones := 0 }) ∧
      (∀ r, r < geo.rgcount →
        (znr_xfs_get_blockgroups geo).2.getD (geo.agcount + r) default =
          { sector := (xfs_rtstart geo + r * xfs_bbperrg geo) % U64,
            nr_sectors := xfs_bbperrg geo, wp_sector := 0, flags := 0,
            zones := List.replicate ZNR_BG_MAX_ZONES none, nr_zones := 0 })) ∧
    (geo.blocksize ≠ 0 → geo.agcount < U32 → geo.rgcount < U32 →
      geo.agcount + geo.rgcount > UINT_MAX → znr_xfs_get_blockgroups geo = (-ENOSPC, [])) ∧
    (geo.agblocks < U32 → geo.blocksize < U32 → geo.agblocks * geo.blocksize < 2 ^ 63 →
      xfs_bbperag geo = geo.agblocks * geo.blocksize / 512) ∧
    (geo.rtstart < 2 ^ 63 → geo.blocksize < U32 → geo.rtstart * geo.blocksize < 2 ^ 63 →
      xfs_rtstart geo = geo.rtstart * geo.blocksize / 512) ∧
    (geo.rgcount ≠ 0 → geo.rgextents * geo.rtextsize * geo.blocksize < U64 →
      xfs_bbperrg geo = geo.rgextents * geo.rtextsize * geo.blocksize / 512) := by
  refine ⟨?_, ?_, ?_, ?_, ?_, ?_⟩
  · intro h
    unfold znr_xfs_get_blockgroups znr_xfs_get_nr_blockgroups
    rw [if_pos h]
  · intro hb hs
    refine ⟨?_, ?_, ?_, ?_⟩
    · rw [xfs_blockgroups_eq geo hb hs]
    · rw [xfs_blockgroups_eq geo hb hs]
      simp
    · intro i hi
      exact xfs_blockgroups_ag geo hb hs i hi
    · intro r hr
      exact xfs_blockgroups_rg geo hb hs r hr
  · intro hb ha hr hs
    have hlt : (geo.agcount + geo.rgcount) % U64 = geo.agcount + geo.rgcount := by
      apply Nat.mod_eq_of_lt
      unfold U32 at ha hr
      unfold U64
      omega
    unfold znr_xfs_get_blockgroups znr_xfs_get_nr_blockgroups
    rw [if_neg hb, hlt, if_pos hs]
  · intro ha hb hab
    unfold U32 at ha hb
    exact off_t_div_eq _ _ (by omega) (by omega) hab
  · intro ha hb hab
    unfold U32 at hb
    exact off_t_div_eq _ _ ha (by omega) hab
  · intro hr hp
    unfold xfs_bbperrg bytes_per_rtgroup
    rw [if_neg hr, Nat.mod_eq_of_lt hp]
    rfl

/-- C21, witness: the example geometry gives four blockgroups of 8000
sectors at sectors 0, 8000, 16000 and 24000. -/
theorem xfs_blockgroups_witness :
    (ex_geo.blocksize ≠ 0 ∧ ex_geo.agcount + ex_geo.rgcount ≤ UINT_MAX) ∧
    (znr_xfs_get_blockgroups ex_geo).2.length = 4 ∧
    ((znr_xfs_get_blockgroups ex_geo).2.getD 3 default).sector = 24000 ∧
    ((znr_xfs_get_blockgroups ex_geo).2.getD 3 default).nr_sectors = 8000 :=
  ⟨⟨by decide, by decide⟩,
    ((xfs_blockgroups ex_geo).2.1 (by decide) (by decide)).2.1,
    (congrArg znr_bg.sector
      (((xfs_blockgroups ex_geo).2.1 (by decide) (by decide)).2.2.2 1 (by decide))).trans
      (by rfl),
    (congrArg znr_bg.nr_sectors
      (((xfs_blockgroups ex_geo).2.1 (by decide) (by decide)).2.2.2 1 (by decide))).trans
      (by rfl)⟩

/-- C22, counterexample.  For a filesystem with two allocation groups whose
realtime section starts at block 0 the provider returns blockgroups at
sectors 0, 8000 and 0: the first realtime group comes after the last
allocation group in the array and starts before it. -/
theorem xfs_blockgroups_order_counterexample :
    (znr_xfs_get_blockgroups ex_external_rt_geo).1 = 0 ∧
    (znr_xfs_get_blockgroups ex_external_rt_geo).2.map (fun bg => bg.sector) = [0, 8000, 0] ∧
    ¬ (((znr_xfs_get_blockgroups ex_external_rt_geo).2.getD 1 default).sector ≤
      ((znr_xfs_get_blockgroups ex_external_rt_geo).2.getD 2 default).sector) := by
  refine ⟨by rfl, by rfl, by decide⟩

/-- C22, amended.  For every geometry the provider accepts whose sector
values do not wrap at `2^64` and whose realtime section does not start before
the last allocation group, the blockgroup array is ordered by starting
sector: `blockgroups[i-1].sector <= blockgroups[i].sector` for all
`0 < i < count`, also across the boundary between the allocation groups and
the realtime groups. -/
theorem xfs_blockgroups_ordered (geo : xfs_fsop_geom) (hb : geo.blocksize ≠ 0)
    (hs : geo.agcount + geo.rgcount ≤ UINT_MAX)
    (hag : geo.agcount * xfs_bbperag geo < U64)
    (hrg : xfs_rtstart geo + geo.rgcount * xfs_bbperrg geo < U64)
    (hboundary : geo.agcount ≠ 0 → geo.rgcount ≠ 0 →
      (geo.agcount - 1) * xfs_bbperag geo ≤ xfs_rtstart geo)
    (i : Nat) (h0 : 0 < i) (hi : i < (znr_xfs_get_blockgroups geo).2.length) :
    ((znr_xfs_get_blockgroups geo).2.getD (i - 1) default).sector ≤
      ((znr_xfs_get_blockgroups geo).2.getD i default).sector := by
  have hlen : (znr_xfs_get_blockgroups geo).2.length = geo.agcount + geo.rgcount := by
    rw [xfs_blockgroups_eq geo hb hs]
    simp
  rw [hlen] at hi
  have hagm : ∀ j, j < geo.agcount → (j * xfs_bbperag geo) % U64 = j * xfs_bbperag geo := by
    intro j hj
    apply Nat.mod_eq_of_lt
    exact lt_of_le_of_lt (Nat.mul_le_mul_right _ (Nat.le_of_lt hj)) hag
  have hrgm : ∀ r, r < geo.rgcount →
      (xfs_rtstart geo + r * xfs_bbperrg geo) % U64 = xfs_rtstart geo + r * xfs_bbperrg geo := by
    intro r hr
    apply Nat.mod_eq_of_lt
    exact lt_of_le_of_lt
      (Nat.add_le_add_left (Nat.mul_le_mul_right _ (Nat.le_of_lt hr)) _) hrg
  by_cases c1 : i < geo.agcount
  · rw [xfs_blockgroups_ag geo hb hs (i - 1) (by omega), xfs_blockgroups_ag geo hb hs i c1]
    show ((i - 1) * xfs_bbperag geo) % U64 ≤ (i * xfs_bbperag geo) % U64
    rw [hagm (i - 1) (by omega), hagm i c1]
    exact Nat.mul_le_mul_right _ (by omega)
  · obtain ⟨r, rfl⟩ : ∃ r, i = geo.agcount + r := ⟨i - geo.agcount, by omega⟩
    have hr : r < geo.rgcount := by omega
    rw [xfs_blockgroups_rg geo hb hs r hr]
    by_cases c2 : r = 0
    · subst c2
      have e : geo.agcount + 0 - 1 = geo.agcount - 1 := by omega
      rw [e, xfs_blockgroups_ag geo hb hs (geo.agcount - 1) (by omega)]
      show ((geo.agcount - 1) * xfs_bbperag geo) % U64 ≤
        (xfs_rtstart geo + 0 * xfs_bbperrg geo) % U64
      rw [hagm (geo.agcount - 1) (by omega), hrgm 0 hr]
      have := hboundary (by omega) (by omega)
      omega
    · have e : geo.agcount + r - 1 = geo.agcount + (r - 1) := by omega
      rw [e, xfs_blockgroups_rg geo hb hs (r - 1) (by omega)]
      show (xfs_rtstart geo + (r - 1) * xfs_bbperrg geo) % U64 ≤
        (xfs_rtstart geo + r * xfs_bbperrg geo) % U64
      rw [hrgm (r - 1) (by omega), hrgm r hr]
      exact Nat.add_le_add_left (Nat.mul_le_mul_right _ (by omega)) _

/-- C22, witness: the example geometry at the boundary between the last
allocation group and the first realtime group. -/
theorem xfs_blockgroups_ordered_witness :
    (ex_geo.blocksize ≠ 0 ∧ ex_geo.agcount + ex_geo.rgcount ≤ UINT_MAX ∧
      (ex_geo.agcount - 1) * xfs_bbperag ex_geo ≤ xfs_rtstart ex_geo) ∧
    ((znr_xfs_get_blockgroups ex_geo).2.getD (2 - 1) default).sector ≤
      ((znr_xfs_get_blockgroups ex_geo).2.getD 2 default).sector :=
  ⟨⟨by decide, by decide, by decide⟩,
    xfs_blockgroups_ordered ex_geo (by decide) (by decide) (by decide) (by decide)
      (fun _ _ => by decide) 2 (by decide) (by decide)⟩

theorem file_extents_of_length (env : xfs_file_env) (ino : Nat) (is_rt : Bool)
    (bstart bbperag : Int) :
    ∀ (l : List getbmapx) (k : Nat),
      (file_extents_of env ino is_rt bstart bbperag l k).length = l.length := by
  intro l
  induction l with
  | nil => intro k; rfl
  | cons b rest ih => intro k; simp [file_extents_of, ih]

/-- The extent at position `j` of the specification comes from record `j`
and has index `k + j`. -/
theorem file_extents_of_get (env : xfs_file_env) (ino : Nat) (is_rt : Bool)
    (bstart bbperag : Int) :
    ∀ (l : List getbmapx) (k j : Nat) (b : getbmapx), l[j]? = some b →
      (file_extents_of env ino is_rt bstart bbperag l k)[j]? =
        some { type := ZNR_FS_FILE_EXTENT, idx := k + j, ino := ino,
               sector := to_u64 b.bmv_block, nr_sectors := to_u64 b.bmv_length,
               info := env.info (k + j) b is_rt bstart bbperag } := by
  intro l
  induction l with
  | nil => intro k j b h; simp at h
  | cons c rest ih =>
    intro k j b h
    cases j with
    | zero =>
      simp only [List.getElem?_cons_zero, Option.some.injEq] at h
      subst h
      simp [file_extents_of]
    | succ j =>
      simp only [List.getElem?_cons_succ] at h
      have := ih (k + 1) j b h
      simp only [file_extents_of, List.getElem?_cons_succ, this]
      have e : k + 1 + j = k + (j + 1) := by omega
      rw [e]

/-- The counting loop counts the mapped records. -/
theorem file_extents_count_eq :
    ∀ (map : List getbmapx) (n : Nat), n + (mapped_records map).length < U32 →
      file_extents_count map n = n + (mapped_records map).length := by
  intro map
  induction map with
  | nil => intro n _; rfl
  | cons b rest ih =>
    intro n h
    unfold mapped_records at h ⊢
    rw [file_extents_count]
    by_cases hb : b.bmv_block ≠ -1 ∧ b.bmv_block ≠ -2
    · rw [if_pos hb]
      rw [List.filter_cons_of_pos (by simpa using hb)] at h ⊢
      simp only [List.length_cons] at h ⊢
      have hn : (n + 1) % U32 = n + 1 := Nat.mod_eq_of_lt (by omega)
      rw [hn]
      have := ih (n + 1) (by unfold mapped_records; omega)
      unfold mapped_records at this
      rw [this]
      omega
    · rw [if_neg hb]
      rw [List.filter_cons_of_neg (by simpa using hb)] at h ⊢
      have := ih n (by unfold mapped_records; omega)
      unfold mapped_records at this
      exact this

/-- The filling loop writes the extents of the mapped records. -/
theorem file_extents_fill_eq (env : xfs_file_env) (ino nr_ext : Nat) (is_rt : Bool)
    (bstart bbperag : Int) :
    ∀ (map : List getbmapx) (k : Nat), k + (mapped_records map).length ≤ nr_ext →
      file_extents_fill env ino nr_ext is_rt bstart bbperag map k =
        file_extents_of env ino is_rt bstart bbperag (mapped_records map) k := by
  intro map
  induction map with
  | nil =>
    intro k _
    rfl
  | cons b rest ih =>
    intro k h
    unfold mapped_records at h ⊢
    rw [file_extents_fill]
    by_cases hb : b.bmv_block ≠ -1 ∧ b.bmv_block ≠ -2
    · rw [List.filter_cons_of_pos (by simpa using hb)] at h ⊢
      simp only [List.length_cons] at h
      have hk : ¬ k ≥ nr_ext := by omega
      have hb' : ¬ (b.bmv_block = -1 ∨ b.bmv_block = -2) := by
        intro hc
        rcases hc with hc | hc
        · exact hb.1 hc
        · exact hb.2 hc
      rw [if_neg hk, if_neg hb']
      have := ih (k + 1) (by unfold mapped_records; omega)
      unfold mapped_records at this
      rw [this]
      rfl
    · rw [List.filter_cons_of_neg (by simpa using hb)] at h ⊢
      have hb' : b.bmv_block = -1 ∨ b.bmv_block = -2 := by
        by_cases h1 : b.bmv_block = -1
        · exact Or.inl h1
        · by_cases h2 : b.bmv_block = -2
          · exact Or.inr h2
          · exact absurd ⟨h1, h2⟩ hb
      have := ih k (by unfold mapped_records; omega)
      unfold mapped_records at this
      by_cases hk : k ≥ nr_ext
      · rw [if_pos hk]
        have hz : (List.filter (fun b => decide (b.bmv_block ≠ -1 ∧ b.bmv_block ≠ -2))
            rest).length = 0 := by omega
        rw [List.length_eq_zero.mp hz]
        rfl
      · rw [if_neg hk, if_pos hb', this]

/-- What `znr_xfs_get_file_extents` returns when the extent map query hands
back a map: the extents of the records that are neither a hole nor a delayed
allocation, in their order, numbered from 0. -/
theorem file_extents_filter (env : xfs_file_env) (geo : xfs_fsop_geom) (ino : Nat)
    (fsx : fsxattr) (map : List getbmapx) (hx : env.xfsctl_fsgetxattr 0 = .ok fsx)
    (hm : znr_xfs_get_file_extents_map env = some (0, some map)) (hlen : map.length < U32) :
    znr_xfs_get_file_extents env geo ino =
      some (0,
        file_extents_of env ino (decide (fsx.fsx_xflags &&& FS_XFLAG_REALTIME ≠ 0))
          (file_bstart geo (decide (fsx.fsx_xflags &&& FS_XFLAG_REALTIME ≠ 0)))
          (file_bbperag geo (decide (fsx.fsx_xflags &&& FS_XFLAG_REALTIME ≠ 0)))
          (mapped_records map) 0) := by
  have hle : (mapped_records map).length ≤ map.length := List.length_filter_le _ _
  have hcount := file_extents_count_eq map 0 (by omega)
  rw [Nat.zero_add] at hcount
  unfold znr_xfs_get_file_extents
  rw [hx]
  simp only [hm, ne_eq, not_true_eq_false, if_false, hcount]
  by_cases hz : (mapped_records map).length = 0
  · rw [if_pos hz, List.length_eq_zero.mp hz]
    rfl
  · rw [if_neg hz]
    rw [file_extents_fill_eq env ino _ _ _ _ map 0 (by omega), file_extents_of_length,
      Nat.sub_self, List.replicate_zero, List.append_nil]

/-- C23.  When the attributes of a file report one extent and the
extent map comes back with `N = 0` records, `znr_xfs_get_file_extents_map`
returns 0 with a NULL map, and `znr_xfs_get_file_extents` reads
`map[0].bmv_entries` through it instead of returning an empty array.  A map
of three records, the second a hole, gives the two other records as extents
0 and 1, and a map holding only a hole gives the empty array with
success. -/
theorem file_extents_empty_map :
    znr_xfs_get_file_extents_map ex_empty_map_env = some (0, none) ∧
    znr_xfs_get_file_extents ex_empty_map_env ex_geo 77 = none ∧
    (znr_xfs_get_file_extents ex_file_env ex_geo 77).map
        (fun r => (r.1, r.2.map (fun e => (e.type, e.idx, e.ino, e.sector, e.nr_sectors)))) =
      some (0, [(0, 0, 77, 100, 8), (0, 1, 77, 300, 4)]) ∧
    znr_xfs_get_file_extents
        { ex_file_env with
          xfsctl_getbmapx := fun _ _ => .ok [{ bmv_offset := 0, bmv_block := -1, bmv_length := 8 }] }
        ex_geo 77 = some (0, []) := by
  refine ⟨by rfl, by rfl, by rfl, by rfl⟩

/-- C24.  For a file whose attribute probe reports `fsx_nextents = 0`,
`znr_xfs_get_file_extents_map` returns 0 with a NULL map and 0 entries, and
`znr_xfs_get_file_extents` then reads `map[0].bmv_entries` through the NULL
pointer: it does not return the empty array. -/
theorem file_extents_zero_nextents :
    ex_no_extent_env.xfsctl_fsgetxattr 0 = .ok { fsx_xflags := 0, fsx_nextents := 0 } ∧
    znr_xfs_get_file_extents_map ex_no_extent_env = some (0, none) ∧
    znr_xfs_get_file_extents ex_no_extent_env ex_geo 77 = none ∧
    znr_xfs_get_file_extents ex_no_extent_env ex_geo 77 ≠ some (0, []) := by
  refine ⟨by rfl, by rfl, by rfl, ?_⟩
  intro h
  have e : znr_xfs_get_file_extents ex_no_extent_env ex_geo 77 = none := by rfl
  rw [e] at h
  exact Option.noConfusion h

/-- The extent the record loop stores for a record. -/
theorem range_record_emit (env : xfs_range_env) (geo : xfs_fsop_geom)
    (sector sector_end max_extents nr_ext : Nat) (p : fsmap) (ext : znr_extent)
    (h : range_record env geo sector sector_end max_extents nr_ext p = .emit ext) :
    p.fmr_flags &&& FMR_OF_SPECIAL_OWNER = 0 ∧ ext.type = ZNR_FS_ZONE_EXTENT ∧
    ext.sector = p.fmr_physical / 512 ∧ sector ≤ ext.sector ∧ ext.sector < sector_end ∧
    ext.idx = nr_ext ∧ ext.ino = p.fmr_owner ∧ ext.nr_sectors = p.fmr_length / 512 := by
  unfold range_record at h
  split at h
  · exact range_step.noConfusion h
  · split at h
    · exact range_step.noConfusion h
    · split at h
      · exact range_step.noConfusion h
      · split at h
        · exact range_step.noConfusion h
        · split at h
          · exact range_step.noConfusion h
          · split at h
            · exact range_step.noConfusion h
            · rename_i hflags hrange _ _ _ _
              have he := range_step.emit.inj h
              subst he
              have hb : BBSIZE = 512 := rfl
              rw [hb] at hrange
              refine ⟨by simpa using hflags, rfl, by rw [hb], ?_, ?_, rfl, rfl, by rw [hb]⟩
              · show sector ≤ p.fmr_physical / BBSIZE
                rw [hb]
                omega
              · show p.fmr_physical / BBSIZE < sector_end
                rw [hb]
                omega

/-- The record loop keeps the property of the extents stored so far. -/
theorem range_records_inv (env : xfs_range_env) (geo : xfs_fsop_geom)
    (sector sector_end max_extents : Nat) (M : fsmap → Prop) :
    ∀ (recs : List fsmap) (acc acc1 : List znr_extent), (∀ p ∈ recs, M p) →
      (∀ k ext, acc[k]? = some ext → range_extent_ok M sector sector_end k ext) →
      range_records env geo sector sector_end max_extents recs acc = some (.ok acc1) →
      ∀ k ext, acc1[k]? = some ext → range_extent_ok M sector sector_end k ext := by
  intro recs
  induction recs with
  | nil =>
    intro acc acc1 _ hacc h
    simp only [range_records, Option.some.injEq, Except.ok.injEq] at h
    subst h
    exact hacc
  | cons p rest ih =>
    intro acc acc1 hM hacc h
    rw [range_records] at h
    cases hstep : range_record env geo sector sector_end max_extents acc.length p with
    | skip =>
      rw [hstep] at h
      exact ih acc acc1 (fun q hq => hM q (List.mem_cons_of_mem _ hq)) hacc h
    | trap =>
      rw [hstep] at h
      exact Option.noConfusion h
    | too_many =>
      rw [hstep] at h
      simp only [Option.some.injEq] at h
      exact Except.noConfusion h
    | emit ext0 =>
      rw [hstep] at h
      refine ih (acc ++ [ext0]) acc1 (fun q hq => hM q (List.mem_cons_of_mem _ hq)) ?_ h
      intro k ext hk
      by_cases hlt : k < acc.length
      · rw [List.getElem?_append_left hlt] at hk
        exact hacc k ext hk
      · rw [List.getElem?_append_right (by omega)] at hk
        have hk0 : k - acc.length = 0 := by
          by_contra hne
          obtain ⟨j, hj⟩ : ∃ j, k - acc.length = j + 1 := ⟨k - acc.length - 1, by omega⟩
          rw [hj] at hk
          simp at hk
        rw [hk0] at hk
        simp only [List.getElem?_cons_zero, Option.some.injEq] at hk
        subst hk
        obtain ⟨h1, h2, h3, h4, h5, h6, h7, h8⟩ :=
          range_record_emit env geo sector sector_end max_extents acc.length p ext0 hstep
        exact ⟨p, hM p (List.mem_cons_self _ _), h1, h2, h3, h4, h5, by omega, h7, h8⟩

/-- The batch loop keeps the property of the extents stored so far. -/
theorem range_batches_inv (env : xfs_range_env) (geo : xfs_fsop_geom)
    (sector sector_end max_extents map_size : Nat) (M : fsmap → Prop) :
    ∀ (batches : List (Except Int (List fsmap))) (acc acc1 : List znr_extent),
      (∀ b, Except.ok b ∈ batches → ∀ p ∈ b, M p) →
      (∀ k ext, acc[k]? = some ext → range_extent_ok M sector sector_end k ext) →
      range_batches env geo sector sector_end max_extents map_size batches acc =
        some (.ok acc1) →
      ∀ k ext, acc1[k]? = some ext → range_extent_ok M sector sector_end k ext := by
  intro batches
  induction batches with
  | nil =>
    intro acc acc1 _ hacc h
    simp only [range_batches, Option.some.injEq, Except.ok.injEq] at h
    subst h
    exact hacc
  | cons b rest ih =>
    intro acc acc1 hM hacc h
    cases b with
    | error e =>
      simp only [range_batches, Option.some.injEq] at h
      exact Except.noConfusion h
    | ok recs =>
      rw [range_batches] at h
      have hMr : ∀ p ∈ recs.take map_size, M p :=
        fun p hp => hM recs (List.mem_cons_self _ _) p (List.mem_of_mem_take hp)
      cases htake : recs.take map_size with
      | nil =>
        rw [htake] at h
        simp only [Option.some.injEq, Except.ok.injEq] at h
        subst h
        exact hacc
      | cons p ps =>
        rw [htake] at h hMr
        simp only at h
        cases hrec : range_records env geo sector sector_end max_extents (p :: ps) acc with
        | none =>
          rw [hrec] at h
          exact Option.noConfusion h
        | some res =>
          rw [hrec] at h
          cases res with
          | error e =>
            simp only [Option.some.injEq] at h
            exact Except.noConfusion h
          | ok acc2 =>
            simp only at h
            have hacc2 := range_records_inv env geo sector sector_end max_extents M (p :: ps)
              acc acc2 hMr hacc hrec
            split at h
            · simp only [Option.some.injEq, Except.ok.injEq] at h
              subst h
              exact hacc2
            · exact ih acc2 acc1 (fun b hb => hM b (List.mem_cons_of_mem _ hb)) hacc2 h

/-- The device of the keys of a range query on a geometry with a realtime
start and a block size. -/
theorem range_extents_device (env : xfs_range_env) (geo : xfs_fsop_geom)
    (sector nr_sectors : Nat) (r : range_result) (hrt : geo.rtstart ≠ 0)
    (h : znr_xfs_get_range_extents env geo sector nr_sectors = some r) :
    r.device = some (range_device geo sector) := by
  unfold znr_xfs_get_range_extents at h
  simp only [hrt, if_false] at h
  split at h
  · exact Option.noConfusion h
  · split at h
    · simp only [Option.some.injEq] at h
      rw [← h]
    · split at h
      · exact Option.noConfusion h
      · simp only [Option.some.injEq] at h
        rw [← h]
      · simp only [Option.some.injEq] at h
        rw [← h]

/-- C25, counterexample.  A reverse-map record of 256 bytes at sector 17000
passes every test of the record loop and is returned as an extent with
`nr_sectors = 0`. -/
theorem range_extents_counterexample :
    (znr_xfs_get_range_extents ex_short_record_env ex_geo 17000 2000).map
        (fun r => (r.ret, r.extents.map (fun e => (e.type, e.idx, e.ino, e.sector, e.nr_sectors)))) =
      some (0, [(1, 0, 11, 17000, 0)]) := by
  rfl

/-- C25, amended.  For every answer of the filesystem to a query
`(sector, nr_sectors)` on which `znr_xfs_get_range_extents` returns (it
returns extents only together with 0), every returned extent has the type `ZNR_FS_ZONE_EXTENT`, comes from a record of the
answer without the special-owner flag, has `sector` equal to the physical
byte address of the record divided by 512 with
`sector <= ext.sector < sector + nr_sectors` (also below the 64-bit sum the
program compares with), has `idx` equal to its position in the result, and
has `nr_sectors` equal to the length of the record divided by 512, which is
positive for every record of at least 512 bytes. -/
theorem range_extents_filtered (env : xfs_range_env) (geo : xfs_fsop_geom)
    (sector nr_sectors : Nat) (r : range_result)
    (h : znr_xfs_get_range_extents env geo sector nr_sectors = some r)
    (k : Nat) (ext : znr_extent) (hk : r.extents[k]? = some ext) :
    ∃ p batch,
      Except.ok batch ∈ (env.getfsmap (range_device geo sector) ((sector * BBSIZE) % U64)
        (((sector + nr_sectors) % U64 * BBSIZE) % U64)).batches ∧ p ∈ batch ∧
      p.fmr_flags &&& FMR_OF_SPECIAL_OWNER = 0 ∧ ext.type = ZNR_FS_ZONE_EXTENT ∧
      ext.sector = p.fmr_physical / 512 ∧ sector ≤ ext.sector ∧
      ext.sector < (sector + nr_sectors) % U64 ∧ ext.sector < sector + nr_sectors ∧
      ext.idx = k ∧ ext.nr_sectors = p.fmr_length / 512 ∧
      (512 ≤ p.fmr_length → 0 < ext.nr_sectors) := by
  have hfin : range_extent_ok
      (fun p => ∃ batch, Except.ok batch ∈ (env.getfsmap (range_device geo sector)
        ((sector * BBSIZE) % U64) (((sector + nr_sectors) % U64 * BBSIZE) % U64)).batches ∧
        p ∈ batch) sector ((sector + nr_sectors) % U64) k ext := by
    unfold znr_xfs_get_range_extents at h
    split at h
    · simp only [Option.some.injEq] at h
      rw [← h] at hk
      simp at hk
    · split at h
      · exact Option.noConfusion h
      · simp only at h
        split at h
        · simp only [Option.some.injEq] at h
          rw [← h] at hk
          simp at hk
        · split at h
          · exact Option.noConfusion h
          · simp only [Option.some.injEq] at h
            rw [← h] at hk
            simp at hk
          · rename_i exts hb
            simp only [Option.some.injEq] at h
            rw [← h] at hk
            refine range_batches_inv env geo sector _ _ _ _ _ [] exts ?_ ?_ hb k ext hk
            · intro b hbm p hp
              exact ⟨b, hbm, hp⟩
            · intro k0 e0 hk0
              simp at hk0
  obtain ⟨p, ⟨batch, hb, hp⟩, h1, h2, h3, h4, h5, h6, _, h8⟩ := hfin
  refine ⟨p, batch, hb, hp, h1, h2, h3, h4, h5, ?_, h6, h8, ?_⟩
  · exact lt_of_lt_of_le h5 (Nat.mod_le _ _)
  · intro hl
    rw [h8]
    omega

/-- C25, witness: the example reverse map queried for the sectors
`[17000, 19000)` gives the extents of the first and third records. -/
theorem range_extents_filtered_witness :
    (znr_xfs_get_range_extents ex_range_env ex_geo 17000 2000).map
        (fun r => (r.ret, r.extents.map (fun e => (e.type, e.idx, e.ino, e.sector, e.nr_sectors)))) =
      some (0, [(1, 0, 11, 17000, 8), (1, 1, 12, 18000, 16)]) ∧
    ∃ p batch,
      Except.ok batch ∈ (ex_range_env.getfsmap (range_device ex_geo 17000)
        ((17000 * BBSIZE) % U64) (((17000 + 2000) % U64 * BBSIZE) % U64)).batches ∧ p ∈ batch ∧
      p.fmr_flags &&& FMR_OF_SPECIAL_OWNER = 0 ∧
      17000 ≤ p.fmr_physical / 512 ∧ p.fmr_physical / 512 < 17000 + 2000 :=
  ⟨by rfl, by
    obtain ⟨p, batch, hb, hp, h1, _, h3, h4, _, h6, _⟩ :=
      range_extents_filtered ex_range_env ex_geo 17000 2000
        ⟨0, [{ type := 1, idx := 0, ino := 11, sector := 17000, nr_sectors := 8,
               info := List.replicate ZNR_FS_EXT_INFO_SIZE 0 },
             { type := 1, idx := 1, ino := 12, sector := 18000, nr_sectors := 16,
               info := List.replicate ZNR_FS_EXT_INFO_SIZE 0 }], some 3⟩
        (by rfl) 1
        { type := 1, idx := 1, ino := 12, sector := 18000, nr_sectors := 16,
          info := List.replicate ZNR_FS_EXT_INFO_SIZE 0 } rfl
    exact ⟨p, batch, hb, hp, h1, by rw [← h3]; exact h4, by rw [← h3]; exact h6⟩⟩

/-- C30.  On the example geometry the realtime section starts at sector
`2000 * (4096 / 512) = 16000`, where the provider places the first realtime
blockgroup.  A range query that starts at sector 16000 is directed to the
data device (`XFS_DEV_DATA = 1`); a query that starts at sector 16001 is
directed to the realtime device (`XFS_DEV_RT = 3`). -/
theorem range_device_first_rt_sector :
    ex_geo.rtstart ≠ 0 ∧ ex_geo.rtstart * (ex_geo.blocksize / 512) = 16000 ∧
    ((znr_xfs_get_blockgroups ex_geo).2.getD ex_geo.agcount default).sector = 16000 ∧
    range_device ex_geo 16000 = XFS_DEV_DATA ∧
    (znr_xfs_get_range_extents ex_range_env ex_geo 16000 8000).map (fun r => r.device) =
      some (some 1) ∧
    (znr_xfs_get_range_extents ex_range_env ex_geo 16001 8000).map (fun r => r.device) =
      some (some 3) := by
  refine ⟨by decide, by decide, by rfl, by rfl, by rfl, by rfl⟩

/-- The comparison of the device selection: the realtime device is chosen
exactly when the start sector is strictly greater than the first realtime
sector. -/
theorem range_device_rt_iff (geo : xfs_fsop_geom) (sector : Nat) :
    (range_device geo sector = XFS_DEV_RT ↔
      sector > (geo.rtstart * (geo.blocksize / BBSIZE)) % U64) ∧
    (range_device geo sector = XFS_DEV_DATA ↔
      sector ≤ (geo.rtstart * (geo.blocksize / BBSIZE)) % U64) := by
  unfold range_device
  by_cases h : sector > (geo.rtstart * (geo.blocksize / BBSIZE)) % U64
  · rw [if_pos h]
    exact ⟨⟨fun _ => h, fun _ => rfl⟩, ⟨fun hc => absurd hc (by decide), fun hc => by omega⟩⟩
  · rw [if_neg h]
    exact ⟨⟨fun hc => absurd hc (by decide), fun hc => absurd hc h⟩,
      ⟨fun _ => by omega, fun _ => rfl⟩⟩

/-- The geometry `znr_dev_get_info` accepts: the block sizes, as unsigned
32-bit values, and the block counts are not zero. -/
theorem dev_get_info_accepts (env : dev_env) (dev0 dev : znr_device)
    (h : znr_dev_get_info env dev0 = (0, dev)) :
    dev.lblock_size ≠ 0 ∧ dev.pblock_size ≠ 0 ∧ dev.nr_lblocks ≠ 0 ∧ dev.nr_pblocks ≠ 0 := by
  have hne : ∀ d : znr_device, ((-1 : Int), d) ≠ (0, dev) := by
    intro d hc
    have h1 : (-1 : Int) = 0 := congrArg Prod.fst hc
    exact absurd h1 (by decide)
  unfold znr_dev_get_info at h
  split at h
  · exact absurd h (hne _)
  · split at h
    · exact absurd h (hne _)
    · try dsimp only at h
      split at h
      · exact absurd h (hne _)
      · rename_i hl
        split at h
        · exact absurd h (hne _)
        · try dsimp only at h
          split at h
          · exact absurd h (hne _)
          · rename_i hp
            split at h
            · exact absurd h (hne _)
            · try dsimp only at h
              split at h
              · exact absurd h (hne _)
              · rename_i hnl
                split at h
                · exact absurd h (hne _)
                · rename_i hnp
                  split at h
                  · exact absurd h (hne _)
                  · split at h
                    · exact absurd h (hne _)
                    · simp only [Prod.mk.injEq, true_and] at h
                      subst h
                      simp only [Nat.le_zero_eq] at hl hp
                      exact ⟨hl, hp, hnl, hnp⟩

/-- A logical block size of zero is rejected. -/
theorem dev_get_info_zero_lblock (env : dev_env) (dev0 : znr_device) (zoned : Bool)
    (size32 : Int) (hz : env.sysfs_zoned = .ok zoned) (hs : env.blksszget = .ok size32)
    (h0 : to_u32 size32 = 0) : (znr_dev_get_info env dev0).1 = -1 := by
  unfold znr_dev_get_info
  rw [hz, hs]
  simp only [h0, Nat.le_zero_eq, if_true]

/-- A negative value stored by the logical block size ioctl is not rejected
by the test on the block size: it is the unsigned value `2^32 + size32`,
which is not 0. -/
theorem to_u32_negative (size32 : Int) (hneg : size32 < 0) (hlo : -(2 ^ 31 : Int) ≤ size32) :
    to_u32 size32 = (size32 + 2 ^ 32).toNat ∧ ¬ to_u32 size32 ≤ 0 := by
  unfold to_u32 U32
  constructor <;> omega

/-- C27.  With the logical block size ioctl storing `-1` on a device of 1 TiB,
`znr_dev_get_info` returns 0 with `lblock_size = 4294967295`: the test
`dev->lblock_size <= 0` is made on the unsigned field.  With the sysfs value
`chunk_sectors = 0` of a device that is not zoned it returns 0 with
`zone_sectors = 0`, and the whole open sequence returns 0 with that
descriptor. -/
theorem dev_get_info_negative_size :
    (znr_dev_get_info ex_negative_size_env default).1 = 0 ∧
    (znr_dev_get_info ex_negative_size_env default).2.lblock_size = 4294967295 ∧
    (znr_dev_get_info ex_negative_size_env default).2.nr_lblocks = 256 ∧
    (znr_dev_get_info ex_plain_dev_env default).1 = 0 ∧
    (znr_dev_get_info ex_plain_dev_env default).2.zone_sectors = 0 ∧
    (znr_open ex_open_env ex_env znr_init).1 = some 0 ∧
    (znr_open ex_open_env ex_env znr_init).2.dev.zone_sectors = 0 := by
  refine ⟨by rfl, by rfl, by rfl, by rfl, by rfl, by rfl, by rfl⟩

theorem get_file_fs_success (env : open_env) (s : znr_session) (hv : errnos_set env)
    (h : (znr_fs_get_file_fs env s).1 = 0) :
    (znr_fs_get_file_fs env s).2 = { s with mnt_fs := some ZNR_FS_XFS } := by
  unfold znr_fs_get_file_fs at h ⊢
  cases h7 : env.statfs_xfs with
  | error e =>
    rw [h7] at h
    exact absurd (Int.neg_eq_zero.mp h) (hv.2.2.2.1 e h7)
  | ok b =>
    cases b with
    | false =>
      rw [h7] at h
      have hT : (-ENOTSUP : Int) ≠ 0 := by decide
      exact absurd h hT
    | true => rfl

theorem open_file_success (env : open_env) (s : znr_session) (hv : errnos_set env)
    (h : (znr_fs_open_file env s).1 = 0) :
    ∃ fd, env.open_dir = .ok fd ∧
      (znr_fs_open_file env s).2 =
        { s with mnt_fd := fd, open_fds := fd :: s.open_fds, mnt_fs := some ZNR_FS_XFS } := by
  unfold znr_fs_open_file at h ⊢
  cases h5 : env.open_dir with
  | error e =>
    rw [h5] at h
    exact absurd (Int.neg_eq_zero.mp h) (hv.2.1 e h5)
  | ok fd =>
    cases h6 : env.fstat_dir with
    | error e =>
      rw [h5, h6] at h
      exact absurd (Int.neg_eq_zero.mp h) (hv.2.2.1 e h6)
    | ok u =>
      rw [h5, h6] at h
      simp only at h ⊢
      by_cases hr : (znr_fs_get_file_fs env
          { s with mnt_fd := fd, open_fds := fd :: s.open_fds }).1 ≠ 0
      · rw [if_pos hr] at h
        exact absurd h hr
      · rw [if_neg hr]
        exact ⟨fd, rfl, get_file_fs_success env _ hv (not_not.mp hr)⟩

theorem init_fs_success (env : open_env) (s : znr_session) (hv : errnos_set env)
    (h : (znr_xfs_init_fs env s).1 = 0) :
    ∃ geo, (znr_xfs_init_fs env s).2 = { s with fs_geo := geo } := by
  unfold znr_xfs_init_fs at h ⊢
  cases h8 : env.fsgeometry with
  | error e =>
    rw [h8] at h
    exact absurd (Int.neg_eq_zero.mp h) (hv.2.2.2.2 e h8)
  | ok geo => exact ⟨geo, rfl⟩

/-- What a successful `znr_fs_open` leaves in the session: the mount
directory is open, and the mount path, the device path and the provider
reference are set. -/
theorem fs_open_success (env : open_env) (s : znr_session) (hv : errnos_set env)
    (h : (znr_fs_open env s).1 = 0) :
    ∃ fd mnt_dir mnt_fsname geo, env.open_dir = .ok fd ∧
      env.mnt_entry = some (mnt_dir, mnt_fsname) ∧
      (znr_fs_open env s).2 =
        { s with mnt_path := some mnt_dir, dev_path := some mnt_fsname, mnt_fd := fd,
                 open_fds := fd :: s.open_fds, mnt_fs := some ZNR_FS_XFS, fs_geo := geo } := by
  have hE : (-EINVAL : Int) ≠ 0 := by decide
  unfold znr_fs_open at h ⊢
  cases h1 : env.stat_path with
  | error e => rw [h1] at h; exact absurd h hE
  | ok b1 =>
    cases b1 with
    | false => rw [h1] at h; exact absurd h hE
    | true =>
      cases h2 : env.setmntent with
      | error e =>
        rw [h1, h2] at h
        exact absurd (Int.neg_eq_zero.mp h) (hv.1 e h2)
      | ok u =>
        cases h3 : env.mnt_entry with
        | none => rw [h1, h2, h3] at h; exact absurd h hE
        | some pr =>
          obtain ⟨mnt_dir, mnt_fsname⟩ := pr
          cases h4 : env.stat_fsname with
          | error e => rw [h1, h2, h3, h4] at h; exact absurd h hE
          | ok b4 =>
            cases b4 with
            | false => rw [h1, h2, h3, h4] at h; exact absurd h hE
            | true =>
              rw [h1, h2, h3, h4] at h
              simp only at h ⊢
              by_cases c1 : (znr_fs_open_file env
                  { s with mnt_path := some mnt_dir, dev_path := some mnt_fsname }).1 ≠ 0
              · rw [if_pos c1] at h
                exact absurd h c1
              · rw [if_neg c1] at h ⊢
                obtain ⟨fd, hfd, e1⟩ := open_file_success env _ hv (not_not.mp c1)
                rw [e1] at h ⊢
                by_cases c2 : (znr_fs_get_file_fs env
                    { s with mnt_path := some mnt_dir, dev_path := some mnt_fsname, mnt_fd := fd,
                             open_fds := fd :: s.open_fds, mnt_fs := some ZNR_FS_XFS }).1 ≠ 0
                · rw [if_pos c2] at h
                  exact absurd h c2
                · rw [if_neg c2] at h ⊢
                  have e2 := get_file_fs_success env _ hv (not_not.mp c2)
                  rw [e2] at h ⊢
                  by_cases c3 : (znr_xfs_init_fs env
                      { s with mnt_path := some mnt_dir, dev_path := some mnt_fsname,
                               mnt_fd := fd, open_fds := fd :: s.open_fds,
                               mnt_fs := some ZNR_FS_XFS }).1 ≠ 0
                  · rw [if_pos c3] at h
                    exact absurd h c3
                  · rw [if_neg c3]
                    obtain ⟨geo, e3⟩ := init_fs_success env _ hv (not_not.mp c3)
                    rw [e3]
                    exact ⟨fd, mnt_dir, mnt_fsname, geo, hfd, rfl, rfl⟩

/-- A failing `znr_dev_open` changes neither the mount directory nor the
paths, the provider reference, the arrays or the open descriptors. -/
theorem dev_open_failure (env : open_env) (s : znr_session)
    (h : (znr_dev_open env s).1 ≠ 0) :
    (znr_dev_open env s).2.mnt_fd = s.mnt_fd ∧ (znr_dev_open env s).2.open_fds = s.open_fds ∧
    (znr_dev_open env s).2.mnt_path = s.mnt_path ∧
    (znr_dev_open env s).2.dev_path = s.dev_path ∧
    (znr_dev_open env s).2.mnt_fs = s.mnt_fs ∧
    (znr_dev_open env s).2.blk_zones = s.blk_zones ∧
    (znr_dev_open env s).2.blockgroups = s.blockgroups := by
  unfold znr_dev_open at h ⊢
  cases h1 : env.realpath with
  | none => exact ⟨rfl, rfl, rfl, rfl, rfl, rfl, rfl⟩
  | some p =>
    cases h2 : env.open_dev with
    | error e => exact ⟨rfl, rfl, rfl, rfl, rfl, rfl, rfl⟩
    | ok fd =>
      rw [h1, h2] at h
      simp only at h ⊢
      by_cases hr : (znr_dev_get_info env.dev s.dev).1 ≠ 0
      · rw [if_pos hr]
        exact ⟨rfl, rfl, rfl, rfl, rfl, rfl, rfl⟩
      · rw [if_neg hr] at h
        exact absurd rfl h

/-- When the filesystem open succeeds and the device open fails, `znr_open`
returns the error of the device open without any teardown: the mount
directory stays open, and the mount path, the device path and the provider
reference stay set.  The session holds no more arrays than before. -/
theorem open_dev_failure (env : open_env) (renv : report_env) (s : znr_session)
    (hv : errnos_set env) (hfs : (znr_fs_open env s).1 = 0)
    (hdev : (znr_dev_open env (znr_fs_open env s).2).1 ≠ 0) :
    (znr_open env renv s).1 = some (znr_dev_open env (znr_fs_open env s).2).1 ∧
    ∃ fd mnt_dir mnt_fsname, env.open_dir = .ok fd ∧
      env.mnt_entry = some (mnt_dir, mnt_fsname) ∧
      (znr_open env renv s).2.mnt_fd = fd ∧
      (znr_open env renv s).2.open_fds = fd :: s.open_fds ∧
      (znr_open env renv s).2.mnt_path = some mnt_dir ∧
      (znr_open env renv s).2.dev_path = some mnt_fsname ∧
      (znr_open env renv s).2.mnt_fs = some ZNR_FS_XFS ∧
      (znr_open env renv s).2.blk_zones = s.blk_zones ∧
      (znr_open env renv s).2.blockgroups = s.blockgroups := by
  have e : znr_open env renv s = (some (znr_dev_open env (znr_fs_open env s).2).1,
      (znr_dev_open env (znr_fs_open env s).2).2) := by
    unfold znr_open
    simp only [hfs, ne_eq, not_true_eq_false, if_false]
    rw [if_pos hdev]
  obtain ⟨fd, d, f, geo, h1, h2, h3⟩ := fs_open_success env s hv hfs
  obtain ⟨g1, g2, g3, g4, g5, g6, g7⟩ := dev_open_failure env (znr_fs_open env s).2 hdev
  rw [e]
  refine ⟨rfl, fd, d, f, h1, h2, ?_, ?_, ?_, ?_, ?_, ?_, ?_⟩
  · rw [g1, h3]
  · rw [g2, h3]
  · rw [g3, h3]
  · rw [g4, h3]
  · rw [g5, h3]
  · rw [g6, h3]
  · rw [g7, h3]

/-- C26.  The filesystem open and the provider initialisation succeed and
the device path cannot be resolved: `znr_open` returns -1 with the mount
directory descriptor 3 still open and the mount path, the device path and the
provider reference still set; no array is held.  When the failure comes one
step later (a zoned device that reports no zone) the teardown runs: the
descriptor is closed and the mount path and the provider reference are
cleared, the device path is not. -/
theorem open_dev_failure_leaks :
    (znr_fs_open ex_no_dev_env znr_init).1 = 0 ∧
    (znr_dev_open ex_no_dev_env (znr_fs_open ex_no_dev_env znr_init).2).1 = -1 ∧
    (znr_open ex_no_dev_env ex_env znr_init).1 = some (-1) ∧
    (znr_open ex_no_dev_env ex_env znr_init).2.mnt_fd = 3 ∧
    (znr_open ex_no_dev_env ex_env znr_init).2.open_fds = [3] ∧
    (znr_open ex_no_dev_env ex_env znr_init).2.mnt_path = some [47, 109] ∧
    (znr_open ex_no_dev_env ex_env znr_init).2.dev_path = some [47, 100] ∧
    (znr_open ex_no_dev_env ex_env znr_init).2.mnt_fs = some ZNR_FS_XFS ∧
    (znr_open ex_no_dev_env ex_env znr_init).2.blk_zones = .null ∧
    (znr_open ex_no_dev_env ex_env znr_init).2.blockgroups = .null ∧
    (znr_open ex_no_zone_env ex_env znr_init).1 = some (-EINVAL) ∧
    (znr_open ex_no_zone_env ex_env znr_init).2.mnt_fd = 0 ∧
    (znr_open ex_no_zone_env ex_env znr_init).2.open_fds = [] ∧
    (znr_open ex_no_zone_env ex_env znr_init).2.mnt_path = none ∧
    (znr_open ex_no_zone_env ex_env znr_init).2.mnt_fs = none ∧
    (znr_open ex_no_zone_env ex_env znr_init).2.dev_path = some [47, 100] := by
  refine ⟨by rfl, by rfl, by rfl, by rfl, by rfl, by rfl, by rfl, by rfl, by rfl, by rfl,
    by rfl, by rfl, by rfl, by rfl, by rfl, by rfl⟩

/-- When the last blockgroup ends on a zone boundary and no blockgroup starts
before the first or ends after the last, every zone number `k` whose zone
`[k * zone_sectors, (k + 1) * zone_sectors)` overlaps a blockgroup lies in the
span `[z0, z1)` that `znr_bg_to_zno` computes. -/
theorem span_covers_aligned (dev : znr_device) (blockgroups : List znr_bg) (bg : znr_bg)
    (k : Nat) (hzs : 0 < dev.zone_sectors)
    (hfirst : (blockgroups.getD 0 default).sector ≤ bg.sector)
    (hlast : bg.sector + bg.nr_sectors ≤
      (blockgroups.getD (blockgroups.length - 1) default).sector +
        (blockgroups.getD (blockgroups.length - 1) default).nr_sectors)
    (h64 : (blockgroups.getD (blockgroups.length - 1) default).sector +
      (blockgroups.getD (blockgroups.length - 1) default).nr_sectors < U64)
    (h32 : ((blockgroups.getD (blockgroups.length - 1) default).sector +
      (blockgroups.getD (blockgroups.length - 1) default).nr_sectors) / dev.zone_sectors < U32)
    (halign : dev.zone_sectors ∣ (blockgroups.getD (blockgroups.length - 1) default).sector +
      (blockgroups.getD (blockgroups.length - 1) default).nr_sectors)
    (hov : k * dev.zone_sectors < bg.sector + bg.nr_sectors ∧
      bg.sector < (k + 1) * dev.zone_sectors) :
    span_start dev blockgroups ≤ k ∧ k < span_end dev blockgroups := by
  unfold span_start span_end
  rw [Nat.mod_eq_of_lt h64, Nat.mod_eq_of_lt h32]
  constructor
  · have h1 : (blockgroups.getD 0 default).sector / dev.zone_sectors ≤
        bg.sector / dev.zone_sectors := Nat.div_le_div_right hfirst
    have h2 : bg.sector / dev.zone_sectors < k + 1 := (Nat.div_lt_iff_lt_mul hzs).mpr hov.2
    have h3 := Nat.mod_le ((blockgroups.getD 0 default).sector / dev.zone_sectors) U32
    omega
  · obtain ⟨q, hq⟩ := halign
    rw [hq, Nat.mul_div_cancel_left q hzs]
    have h1 : k * dev.zone_sectors < dev.zone_sectors * q := by
      rw [← hq]
      exact lt_of_lt_of_le hov.1 hlast
    rw [Nat.mul_comm] at h1
    exact Nat.lt_of_mul_lt_mul_left h1

/-- C29.  On the example device with zones of 100 sectors, for the
blockgroups `[0, 100)` and `[100, 250)`, `znr_bg_to_zno` computes the span
`[0, 2)`: the refresh reports zones 0 and 1, succeeds, and gives each
blockgroup one zone.  Zone 2, the sectors `[200, 300)`, overlaps the second
blockgroup and is neither in the span nor in the zone list of that
blockgroup. -/
theorem span_misses_last_zone :
    span_start ex_dev ex_unaligned_blockgroups = 0 ∧
    span_end ex_dev ex_unaligned_blockgroups = 2 ∧
    (znr_bg_refresh ex_env ex_session ex_dev ex_blank_zones 4 ex_unaligned_blockgroups 0).ret =
      some 2 ∧
    (znr_bg_refresh ex_env ex_session ex_dev ex_blank_zones 4
      ex_unaligned_blockgroups 0).reports = [(0, 2)] ∧
    (znr_bg_refresh ex_env ex_session ex_dev ex_blank_zones 4
      ex_unaligned_blockgroups 0).blockgroups.map (fun bg => (bg.nr_zones, bg.zones.take 3)) =
      [(1, [some 0, none, none]), (1, [some 1, none, none])] ∧
    zone_overlaps (ex_zones.getD 2 default) (ex_unaligned_blockgroups.getD 1 default) = true ∧
    ¬ (2 < span_end ex_dev ex_unaligned_blockgroups) := by
  refine ⟨by rfl, by rfl, by rfl, by rfl, by rfl, by rfl, by decide⟩

/-- The element at index `i` after consecutive stores. -/
theorem store_zones_getElem? (w : List blk_zone) :
    ∀ (zones : List blk_zone) (pos i : Nat),
      (store_zones zones pos w)[i]? =
        if pos ≤ i ∧ i < pos + w.length ∧ i < zones.length then w[i - pos]? else zones[i]? := by
  induction w with
  | nil =>
    intro zones pos i
    simp only [store_zones, List.length_nil, Nat.add_zero]
    rw [if_neg (by omega)]
  | cons z rest ih =>
    intro zones pos i
    rw [store_zones, ih, List.getElem?_set, List.length_set, List.length_cons]
    by_cases h1 : pos = i
    · subst h1
      rw [if_neg (by omega), if_pos rfl]
      by_cases h2 : pos < zones.length
      · rw [if_pos h2, if_pos ⟨le_refl _, by omega, h2⟩, Nat.sub_self, List.getElem?_cons_zero]
      · rw [if_neg h2, if_neg (by omega)]
        exact (List.getElem?_eq_none (by omega)).symm
    · rw [if_neg h1]
      by_cases h3 : pos + 1 ≤ i ∧ i < pos + 1 + rest.length ∧ i < zones.length
      · rw [if_pos h3, if_pos ⟨by omega, by omega, h3.2.2⟩]
        obtain ⟨j, hj⟩ : ∃ j, i - pos = j + 1 := ⟨i - pos - 1, by omega⟩
        have e : i - (pos + 1) = j := by omega
        rw [hj, e, List.getElem?_cons_succ]
      · rw [if_neg h3, if_neg (by omega)]

theorem store_zones_length (w : List blk_zone) :
    ∀ (zones : List blk_zone) (pos : Nat), (store_zones zones pos w).length = zones.length := by
  induction w with
  | nil => intro zones pos; rfl
  | cons z rest ih =>
    intro zones pos
    rw [store_zones, ih, List.length_set]

/-- Stores that fill a whole array give the stored zones. -/
theorem store_zones_full (w zones : List blk_zone) (h : w.length = zones.length) :
    store_zones zones 0 w = w := by
  apply List.ext_getElem?
  intro i
  rw [store_zones_getElem?]
  by_cases hi : i < zones.length
  · rw [if_pos ⟨Nat.zero_le _, by omega, hi⟩, Nat.sub_zero]
  · rw [if_neg (by omega), List.getElem?_eq_none (by omega), List.getElem?_eq_none (by omega)]

/-- Two updates of the same range amount to one update by the composition. -/
theorem update_range_twice (f g : blk_zone → blk_zone) (zones : List blk_zone)
    (start count : Nat) :
    update_range g (update_range f zones start count) start count =
      update_range (fun z => g (f z)) zones start count := by
  unfold update_range
  by_cases hs : start ≤ zones.length
  · have hl : (zones.take start).length = start := by
      rw [List.length_take]
      omega
    have e1 : ∀ X Y : List blk_zone,
        ((zones.take start ++ X ++ Y).take start) = zones.take start := by
      intro X Y
      rw [List.append_assoc]
      exact List.take_left' hl
    have e2 : ∀ X Y : List blk_zone, ((zones.take start ++ X ++ Y).drop start) = X ++ Y := by
      intro X Y
      rw [List.append_assoc]
      exact List.drop_left' hl
    rw [e1, e2]
    have hB : (((zones.drop start).take count).map f).length ≤ count := by
      rw [List.length_map, List.length_take]
      omega
    by_cases hc : (((zones.drop start).take count).map f).length = count
    · rw [List.take_left' hc, List.drop_left' hc, List.map_map]
      rfl
    · have hD : (zones.drop start).length ≤ count := by
        rw [List.length_map, List.length_take] at hc
        omega
      rw [List.drop_of_length_le hD, List.append_nil, List.take_of_length_le hB,
        List.drop_of_length_le hB, List.append_nil, List.map_map, List.append_nil]
      rfl
  · have h1 : zones.take start = zones := List.take_of_length_le (by omega)
    have h2 : zones.drop start = [] := List.drop_of_length_le (by omega)
    simp only [h1, h2, List.take_nil, List.map_nil, List.drop_nil, List.append_nil]

/-- An update that changes no zone of the range leaves the array as it is. -/
theorem update_range_id (f : blk_zone → blk_zone) (zones : List blk_zone) (start count : Nat)
    (h : ∀ z ∈ (zones.drop start).take count, f z = z) :
    update_range f zones start count = zones := by
  unfold update_range
  have e : ((zones.drop start).take count).map f = (zones.drop start).take count := by
    conv_rhs => rw [← List.map_id ((zones.drop start).take count)]
    exact List.map_congr_left (fun z hz => by rw [h z hz]; rfl)
  rw [e, List.append_assoc, List.take_append_drop, List.take_append_drop]

/-- An update of a whole array is the map. -/
theorem update_range_full (f : blk_zone → blk_zone) (zones : List blk_zone) (count : Nat)
    (h : zones.length ≤ count) : update_range f zones 0 count = zones.map f := by
  unfold update_range
  simp only [List.take_zero, List.drop_zero, List.nil_append]
  rw [List.take_of_length_le h, List.drop_of_length_le h, List.append_nil]

/-- The restore undoes the conversion of a zone whose fields are 64-bit
values. -/
theorem blk_zone_conv_undo (le : Bool) (z : blk_zone) (h1 : z.start < U64) (h2 : z.len < U64)
    (h3 : z.wp < U64) (h4 : z.capacity < U64) :
    blk_zone_conv (ntohll le) (blk_zone_conv (htonll le) z) = z := by
  unfold blk_zone_conv
  simp only [ntohll_eq_htonll, htonll_htonll le _ h1, htonll_htonll le _ h2,
    htonll_htonll le _ h3, htonll_htonll le _ h4]

/-- What the zone report handler does for a request that passes the range
check when the device reports as many zones as asked. -/
theorem dev_rep_zones_sent (le : Bool) (env : report_env) (g : znr) (dev : znr_device)
    (zones : List blk_zone) (req : znr_net_req)
    (hcheck : rep_zones_check_fails dev.nr_zones (req.zno % U32) (req.nr_zones % U32) = false)
    (hret : (znr_dev_report_zones env g dev (req.zno % U32) (req.nr_zones % U32)).1 =
      ((req.nr_zones % U32 : Nat) : Int)) :
    znr_net_send_dev_rep_zones_rep le env g dev zones req =
      ⟨znr_net_send_rep le ZNR_NET_DEV_REP_ZONES 0
          (blk_zones_bytes le ((update_range (blk_zone_conv (htonll le))
            (store_zones zones (req.zno % U32)
              (znr_dev_report_zones env g dev (req.zno % U32) (req.nr_zones % U32)).2)
            (req.zno % U32) (req.nr_zones % U32)).drop (req.zno % U32)))
          ((req.nr_zones % U32 * sizeof_blk_zone) % U32),
        if (req.nr_zones % U32 * sizeof_blk_zone) % U32 ≠ 0 then
          update_range (blk_zone_conv (ntohll le))
            (update_range (blk_zone_conv (htonll le))
              (store_zones zones (req.zno % U32)
                (znr_dev_report_zones env g dev (req.zno % U32) (req.nr_zones % U32)).2)
              (req.zno % U32) (req.nr_zones % U32))
            (req.zno % U32) (req.nr_zones % U32)
        else
          update_range (blk_zone_conv (htonll le))
            (store_zones zones (req.zno % U32)
              (znr_dev_report_zones env g dev (req.zno % U32) (req.nr_zones % U32)).2)
            (req.zno % U32) (req.nr_zones % U32),
        [(req.zno % U32, req.nr_zones % U32)]⟩ := by
  unfold rep_zones_check_fails at hcheck
  simp only [Bool.or_eq_false_iff, decide_eq_false_iff_not] at hcheck
  obtain ⟨h1, h2, h3⟩ := hcheck
  have h23 : ¬ (req.nr_zones % U32 = 0 ∨
      (req.zno % U32 + req.nr_zones % U32 + U32 - 1) % U32 ≥ dev.nr_zones) :=
    fun hc => hc.elim h2 h3
  have hnn : ¬ (znr_dev_report_zones env g dev (req.zno % U32) (req.nr_zones % U32)).1 < 0 := by
    rw [hret]
    omega
  have hu : ¬ to_u32 (znr_dev_report_zones env g dev (req.zno % U32) (req.nr_zones % U32)).1 ≠
      req.nr_zones % U32 := by
    rw [hret, to_u32_natCast _ (Nat.mod_lt _ (by decide))]
    exact fun hc => hc rfl
  unfold znr_net_send_dev_rep_zones_rep
  simp only [h1, if_false, h23, hnn, hu]

/-- The zone array after the handler when the 32-bit payload size is not 0:
the zones the device reported are stored from `zno` on in host order, and
every other zone is as before. -/
theorem dev_rep_zones_restored (le : Bool) (env : report_env) (g : znr) (dev : znr_device)
    (zones : List blk_zone) (req : znr_net_req)
    (hcheck : rep_zones_check_fails dev.nr_zones (req.zno % U32) (req.nr_zones % U32) = false)
    (hret : (znr_dev_report_zones env g dev (req.zno % U32) (req.nr_zones % U32)).1 =
      ((req.nr_zones % U32 : Nat) : Int))
    (hsize : (req.nr_zones % U32 * sizeof_blk_zone) % U32 ≠ 0)
    (h64 : ∀ z ∈ (store_zones zones (req.zno % U32)
        (znr_dev_report_zones env g dev (req.zno % U32) (req.nr_zones % U32)).2),
      z.start < U64 ∧ z.len < U64 ∧ z.wp < U64 ∧ z.capacity < U64) :
    (znr_net_send_dev_rep_zones_rep le env g dev zones req).zones =
      store_zones zones (req.zno % U32)
        (znr_dev_report_zones env g dev (req.zno % U32) (req.nr_zones % U32)).2 := by
  rw [dev_rep_zones_sent le env g dev zones req hcheck hret]
  simp only [hsize, ne_eq, not_false_eq_true, if_true]
  rw [update_range_twice]
  apply update_range_id
  intro z hz
  have hm := h64 z (List.mem_of_mem_drop (List.mem_of_mem_take hz))
  exact blk_zone_conv_undo le z hm.1 hm.2.1 hm.2.2.1 hm.2.2.2

/-- The zone array after the handler when the 32-bit payload size is 0: the
reply carries no zone and the zones of the request are left converted. -/
theorem dev_rep_zones_unrestored (le : Bool) (env : report_env) (g : znr) (dev : znr_device)
    (zones : List blk_zone) (req : znr_net_req)
    (hcheck : rep_zones_check_fails dev.nr_zones (req.zno % U32) (req.nr_zones % U32) = false)
    (hret : (znr_dev_report_zones env g dev (req.zno % U32) (req.nr_zones % U32)).1 =
      ((req.nr_zones % U32 : Nat) : Int))
    (hsize : (req.nr_zones % U32 * sizeof_blk_zone) % U32 = 0) :
    (znr_net_send_dev_rep_zones_rep le env g dev zones req).zones =
      update_range (blk_zone_conv (htonll le))
        (store_zones zones (req.zno % U32)
          (znr_dev_report_zones env g dev (req.zno % U32) (req.nr_zones % U32)).2)
        (req.zno % U32) (req.nr_zones % U32) ∧
    (znr_net_send_dev_rep_zones_rep le env g dev zones req).wire =
      be32 ZNR_NET_MAGIC ++ (be32 ZNR_NET_DEV_REP_ZONES ++ (be32 0 ++ be32 0)) := by
  rw [dev_rep_zones_sent le env g dev zones req hcheck hret]
  simp only [hsize, ne_eq, not_true_eq_false, if_false, true_and]
  rw [send_rep_bytes le _ _ _ _ (by decide) (by decide)]
  have e0 : to_u32 0 = 0 := rfl
  simp [e0]

/-- The copy loop on a batch of the large example device copies the whole
batch. -/
theorem big_report_copy (end_sector : Nat) :
    ∀ (m k n : Nat), n + m ≤ big_nr_zones → 8 * (k + m) ≤ end_sector → end_sector < U64 →
      report_copy big_nr_zones end_sector ((List.range' k m).map big_zone) n (8 * k) =
        (n + m, 8 * (k + m), (List.range' k m).map big_zone) := by
  intro m
  induction m with
  | zero =>
    intro k n _ _ _
    rfl
  | succ m ih =>
    intro k n hn hk hE
    rw [List.range'_succ, List.map_cons, report_copy, if_neg (by omega)]
    have e : ((big_zone k).start + (big_zone k).len) % U64 = 8 * (k + 1) := by
      show (8 * k + 8) % U64 = 8 * (k + 1)
      unfold U64 at hE ⊢
      omega
    simp only [e]
    rw [ih (k + 1) (n + 1) (by omega) (by omega) hE]
    have e1 : n + 1 + m = n + (m + 1) := by omega
    have e2 : k + 1 + m = k + (m + 1) := by omega
    simp only [e1, e2]

/-- One report of the large example device away from its end gives a full
batch of 8192 zones. -/
theorem big_report_ioctl (k : Nat) (hk : k + 8192 ≤ big_nr_zones) :
    report_ioctl big_env (8 * k) 8192 =
      .ok (big_zone k :: (List.range' (k + 1) 8191).map big_zone) := by
  have e1 : 8 * k / 8 = k := by omega
  have e2 : min 8192 (big_nr_zones - k) = 8192 := by
    unfold big_nr_zones at hk ⊢
    omega
  have e3 : (List.range' k 8192).map big_zone =
      big_zone k :: (List.range' (k + 1) 8191).map big_zone := by
    rw [show (8192 : Nat) = 8191 + 1 from rfl, List.range'_succ, List.map_cons]
  have e4 : List.take 8192 ((List.range' k 8192).map big_zone) =
      (List.range' k 8192).map big_zone :=
    List.take_of_length_le (by rw [List.length_map, List.length_range'])
  have e5 : big_env.ioctl_v2 (8 * k) 8192 = .ok ((List.range' k 8192).map big_zone) := by
    show Except.ok ((List.range' (8 * k / 8) (min 8192 (big_nr_zones - 8 * k / 8))).map
      big_zone) = _
    rw [e1, e2]
  rw [report_ioctl, e5]
  show Except.ok (List.take 8192 ((List.range' k 8192).map big_zone)) = _
  rw [e4, e3]

/-- The report loop on the large example device with `j` batches left returns
the zone count of the device and copies every zone that is left. -/
theorem big_report_loop :
    ∀ (j fuel k : Nat), j ≤ fuel → k + 8192 * j = big_nr_zones →
      report_loop big_env big_nr_zones 8192 (8 * big_nr_zones) fuel k (8 * k) =
        ((big_nr_zones : Int), (List.range' k (8192 * j)).map big_zone) := by
  intro j
  induction j with
  | zero =>
    intro fuel k _ hk
    have hk1 : k = big_nr_zones := by omega
    subst hk1
    cases fuel with
    | zero => rfl
    | succ fuel =>
      rw [report_loop, if_neg (by omega)]
      rfl
  | succ j ih =>
    intro fuel k hf hk
    obtain ⟨fuel1, rfl⟩ : ∃ f, fuel = f + 1 := ⟨fuel - 1, by omega⟩
    have hlt : k < big_nr_zones ∧ 8 * k < 8 * big_nr_zones := by omega
    have hE : 8 * big_nr_zones < U64 := by decide
    have hcopy := big_report_copy (8 * big_nr_zones) 8192 k k (by omega) (by omega) hE
    have e8 : (List.range' k 8192).map big_zone =
        big_zone k :: (List.range' (k + 1) 8191).map big_zone := by
      rw [show (8192 : Nat) = 8191 + 1 from rfl, List.range'_succ, List.map_cons]
    rw [e8] at hcopy
    rw [report_loop, if_pos hlt, big_report_ioctl k (by omega)]
    simp only [hcopy]
    rw [ih fuel1 (k + 8192) (by omega) (by omega), ← List.map_cons, ← List.range'_succ,
      ← List.map_append]
    have e9 : List.range' k (8191 + 1) ++ List.range' (k + 8192) (8192 * j) =
        List.range' k (8192 * (j + 1)) := by
      have h := List.range'_append k 8192 (8192 * j) 1
      rw [Nat.one_mul] at h
      rw [show 8192 * (j + 1) = 8192 * j + 8192 by omega]
      exact h
    rw [e9]

/-- The report of all zones of the large example device returns the zone
count and writes every zone. -/
theorem big_report_zones :
    znr_dev_report_zones big_env big_session big_dev 0 67108864 =
      ((67108864 : Int), big_zones) := by
  have hend : Nat.land ((0 + 536870912 + 7) % U64) (U64 - 1 - 7) = 536870912 := by decide
  have h := big_report_loop 8192 big_nr_zones 0 (by decide) (by decide)
  unfold znr_dev_report_zones
  rw [if_neg (by decide), if_neg (by decide)]
  exact h

/-- The zones of the large example device are as many as the device has. -/
theorem big_zones_length : big_zones.length = 67108864 := by
  unfold big_zones
  rw [List.length_map, List.length_range']
  rfl

/-- C28.  On a little-endian server of the example device of `2^26` zones of 8
sectors, the request for all zones (`zno = 0`, `nr_zones = 67108864`) passes
the range check and the device reports 67108864 zones, but the 32-bit payload
size `67108864 * 64` is 0: the reply announces no payload and the restore loop
is skipped, so the session zone array is left with `start`, `len`, `wp` and
`capacity` byte-swapped.  Zone 1, which the device reported at sector 8 with 8
sectors, is left with `start = len = wp = capacity = 8 * 2^56`. -/
theorem dev_rep_zones_not_restored :
    rep_zones_check_fails big_dev.nr_zones (big_req.zno % U32) (big_req.nr_zones % U32) = false ∧
    znr_dev_report_zones big_env big_session big_dev (big_req.zno % U32)
      (big_req.nr_zones % U32) = ((67108864 : Int), big_zones) ∧
    big_zones[1]? = some (big_zone 1) ∧
    (big_req.nr_zones % U32 * sizeof_blk_zone) % U32 = 0 ∧
    (znr_net_send_dev_rep_zones_rep true big_env big_session big_dev big_zones big_req).wire =
      [122, 111, 110, 101, 0, 0, 0, 3, 0, 0, 0, 0, 0, 0, 0, 0] ∧
    (znr_net_send_dev_rep_zones_rep true big_env big_session big_dev big_zones big_req).zones =
      big_zones.map (blk_zone_conv (htonll true)) ∧
    (znr_net_send_dev_rep_zones_rep true big_env big_session big_dev big_zones big_req).zones[1]? =
      some { start := 576460752303423488, len := 576460752303423488,
             wp := 576460752303423488, type := 2, cond := 1, non_seq := 0, reset := 0,
             capacity := 576460752303423488 } := by
  have hcheck : rep_zones_check_fails big_dev.nr_zones (big_req.zno % U32)
      (big_req.nr_zones % U32) = false := by decide
  have hrep : znr_dev_report_zones big_env big_session big_dev (big_req.zno % U32)
      (big_req.nr_zones % U32) = ((67108864 : Int), big_zones) := big_report_zones
  have hret : (znr_dev_report_zones big_env big_session big_dev (big_req.zno % U32)
      (big_req.nr_zones % U32)).1 = ((big_req.nr_zones % U32 : Nat) : Int) := by
    rw [hrep]
    rfl
  have hsize : (big_req.nr_zones % U32 * sizeof_blk_zone) % U32 = 0 := by decide
  have h1 : big_zones[1]? = some (big_zone 1) := by
    unfold big_zones
    rw [List.getElem?_map, List.getElem?_range' 0 1 (by decide)]
    rfl
  have h := dev_rep_zones_unrestored true big_env big_session big_dev big_zones big_req hcheck
    hret hsize
  have hz : (znr_net_send_dev_rep_zones_rep true big_env big_session big_dev big_zones
      big_req).zones = big_zones.map (blk_zone_conv (htonll true)) := by
    rw [h.1, hrep]
    show update_range (blk_zone_conv (htonll true)) (store_zones big_zones 0 big_zones) 0
      67108864 = _
    rw [store_zones_full big_zones big_zones rfl,
      update_range_full _ _ _ (le_of_eq big_zones_length)]
  refine ⟨hcheck, hrep, h1, hsize, ?_, hz, ?_⟩
  · rw [h.2]
    rfl
  · rw [hz, List.getElem?_map, h1]
    rfl

/-- The copy loop on a batch of consecutive device zones that starts at zone
`i`: it copies the zones of the batch the output buffer has room for. -/
theorem report_copy_batch (zone_sectors nr_zones_dev count : Nat) (hz : 0 < zone_sectors)
    (hE : zone_sectors * nr_zones_dev < U64) :
    ∀ (l : List blk_zone) (i n : Nat),
      (∀ j z, l[j]? = some z → z.start = zone_sectors * (i + j) ∧ z.len = zone_sectors) →
      i + l.length ≤ nr_zones_dev →
      report_copy count (zone_sectors * nr_zones_dev) l n (zone_sectors * i) =
        (n + min l.length (count - n), zone_sectors * (i + min l.length (count - n)),
          l.take (min l.length (count - n))) := by
  intro l
  induction l with
  | nil =>
    intro i n _ _
    simp [report_copy]
  | cons z rest ih =>
    intro i n hl hi
    rw [List.length_cons] at hi
    rw [report_copy]
    have hlt : zone_sectors * i < zone_sectors * nr_zones_dev :=
      Nat.mul_lt_mul_of_pos_left (by omega) hz
    by_cases hn : n ≥ count
    · rw [if_pos (Or.inl hn)]
      have e : min (z :: rest).length (count - n) = 0 := by omega
      rw [e]
      rfl
    · rw [if_neg (by omega)]
      obtain ⟨h1, h2⟩ := hl 0 z (List.getElem?_cons_zero)
      have hle : zone_sectors * (i + 1) ≤ zone_sectors * nr_zones_dev :=
        Nat.mul_le_mul_left _ (by omega)
      have e : (z.start + z.len) % U64 = zone_sectors * (i + 1) := by
        rw [h1, h2, Nat.add_zero, Nat.mul_add, Nat.mul_one]
        rw [Nat.mul_add, Nat.mul_one] at hle
        exact Nat.mod_eq_of_lt (by omega)
      have hrest : ∀ j y, rest[j]? = some y →
          y.start = zone_sectors * (i + 1 + j) ∧ y.len = zone_sectors := by
        intro j y hj
        have := hl (j + 1) y (by rw [List.getElem?_cons_succ]; exact hj)
        have e2 : i + 1 + j = i + (j + 1) := by omega
        rw [e2]
        exact this
      simp only [e]
      rw [ih (i + 1) (n + 1) hrest (by omega)]
      have e3 : min (z :: rest).length (count - n) = min rest.length (count - (n + 1)) + 1 := by
        rw [List.length_cons]
        omega
      rw [e3, List.take_succ_cons]
      have e4 : n + 1 + min rest.length (count - (n + 1)) =
          n + (min rest.length (count - (n + 1)) + 1) := by omega
      have e5 : i + 1 + min rest.length (count - (n + 1)) =
          i + (min rest.length (count - (n + 1)) + 1) := by omega
      rw [e4, e5]

/-- The report loop on a device whose kernel reports its zones: from zone `i`
with `n` zones written, it writes the zones from zone `i` on, as many as the
output buffer has room for and the device has, and returns the number of zones
written in all. -/
theorem report_loop_device (env : report_env) (dev : znr_device) (zs : List blk_zone)
    (count rep : Nat) (hdz : device_zones dev zs) (hk : kernel_reports env dev zs)
    (hrep : 0 < rep) :
    ∀ (fuel i n : Nat), i ≤ dev.nr_zones → n ≤ count →
      min (count - n) (dev.nr_zones - i) ≤ fuel →
      report_loop env count rep dev.nr_sectors fuel n (dev.zone_sectors * i) =
        (((n + min (count - n) (dev.nr_zones - i) : Nat) : Int),
          (zs.drop i).take (min (count - n) (dev.nr_zones - i))) := by
  obtain ⟨hlen, hz, hE, h64, hzs⟩ := hdz
  intro fuel
  induction fuel with
  | zero =>
    intro i n _ _ hf
    have e : min (count - n) (dev.nr_zones - i) = 0 := by omega
    rw [e]
    rfl
  | succ fuel ih =>
    intro i n hi hn hf
    rw [report_loop]
    by_cases hc : n < count ∧ dev.zone_sectors * i < dev.nr_sectors
    · rw [if_pos hc]
      have hiN : i < dev.nr_zones := by
        have := hc.2
        rw [hE] at this
        exact Nat.lt_of_mul_lt_mul_left this
      have hLlen : ((zs.drop i).take rep).length = min rep (dev.nr_zones - i) := by
        rw [List.length_take, List.length_drop, hlen]
      obtain ⟨z, rest, hL⟩ : ∃ z rest, (zs.drop i).take rep = z :: rest :=
        List.exists_cons_of_ne_nil (List.ne_nil_of_length_pos (by omega))
      have hio : report_ioctl env (dev.zone_sectors * i) rep = .ok (z :: rest) := by
        unfold report_ioctl
        rw [hk i rep hiN]
        simp only
        rw [List.take_take, Nat.min_self, hL]
      have hLz : ∀ j y, (z :: rest)[j]? = some y →
          y.start = dev.zone_sectors * (i + j) ∧ y.len = dev.zone_sectors := by
        intro j y hj
        rw [← hL, List.getElem?_take] at hj
        by_cases hjr : j < rep
        · rw [if_pos hjr, List.getElem?_drop] at hj
          exact hzs (i + j) y hj
        · rw [if_neg hjr] at hj
          exact Option.noConfusion hj
      have hcopy := report_copy_batch dev.zone_sectors dev.nr_zones count hz (hE ▸ h64)
        (z :: rest) i n hLz (by rw [← hL, hLlen]; omega)
      rw [← hE] at hcopy
      rw [hio]
      simp only [hcopy]
      have hm : (z :: rest).length = min rep (dev.nr_zones - i) := by rw [← hL, hLlen]
      rw [hm]
      rw [ih (i + min (min rep (dev.nr_zones - i)) (count - n))
        (n + min (min rep (dev.nr_zones - i)) (count - n)) (by omega) (by omega) (by omega)]
      have e1 : n + min (min rep (dev.nr_zones - i)) (count - n) +
          min (count - (n + min (min rep (dev.nr_zones - i)) (count - n)))
            (dev.nr_zones - (i + min (min rep (dev.nr_zones - i)) (count - n))) =
          n + min (count - n) (dev.nr_zones - i) := by omega
      have e2 : min (count - n) (dev.nr_zones - i) =
          min (min rep (dev.nr_zones - i)) (count - n) +
            min (count - (n + min (min rep (dev.nr_zones - i)) (count - n)))
              (dev.nr_zones - (i + min (min rep (dev.nr_zones - i)) (count - n))) := by omega
      rw [e1]
      conv_rhs => rw [e2, List.take_add, List.drop_drop]
      rw [← hL, List.take_take]
      have e3 : min (min (min rep (dev.nr_zones - i)) (count - n)) rep =
          min (min rep (dev.nr_zones - i)) (count - n) := by omega
      rw [e3, ← e2]
    · rw [if_neg hc]
      have e : min (count - n) (dev.nr_zones - i) = 0 := by
        by_cases h1 : n < count
        · have h2 : ¬ dev.zone_sectors * i < dev.nr_sectors := fun h => hc ⟨h1, h⟩
          rw [hE] at h2
          have h3 : dev.nr_zones ≤ i := by
            by_contra hlt
            exact h2 (Nat.mul_lt_mul_of_pos_left (by omega) hz)
          omega
        · omega
      rw [e]
      rfl

/-- Masking `2^k * q + (2^k - 1)` with the 64-bit complement of `2^k - 1`
gives `2^k * q`. -/
theorem land_round_down (k q : Nat) (hx : 2 ^ k * q + (2 ^ k - 1) < 2 ^ 64) :
    Nat.land (2 ^ k * q + (2 ^ k - 1)) (2 ^ 64 - 1 - (2 ^ k - 1)) = 2 ^ k * q := by
  have hpos : 0 < 2 ^ k := Nat.two_pow_pos k
  have hb : 2 ^ k - 1 < 2 ^ k := by omega
  have hb64 : 2 ^ k - 1 < 2 ^ 64 := by omega
  have e : 2 ^ 64 - 1 - (2 ^ k - 1) = 2 ^ 64 - ((2 ^ k - 1) + 1) := by omega
  show (2 ^ k * q + (2 ^ k - 1)) &&& (2 ^ 64 - 1 - (2 ^ k - 1)) = 2 ^ k * q
  apply Nat.eq_of_testBit_eq
  intro i
  rw [Nat.testBit_and, e, Nat.testBit_two_pow_sub_succ hb64, Nat.testBit_mul_pow_two_add q hb,
    Nat.testBit_two_pow_sub_one, Nat.testBit_mul_pow_two]
  by_cases hi : i < k
  · simp [hi]
  · have hge : i ≥ k := by omega
    simp only [hi, if_false, decide_False, Bool.not_false, Bool.and_true, hge, decide_True,
      Bool.true_and]
    by_cases h64 : i < 64
    · simp [h64]
    · have hq : q.testBit (i - k) = false := by
        apply Nat.testBit_lt_two_pow
        by_cases hk64 : k ≤ 64
        · have h1 : 2 ^ k * q < 2 ^ k * 2 ^ (64 - k) := by
            rw [← Nat.pow_add, Nat.add_sub_cancel' hk64]
            omega
          have h2 : q < 2 ^ (64 - k) := Nat.lt_of_mul_lt_mul_left h1
          exact lt_of_lt_of_le h2 (Nat.pow_le_pow_right (by decide) (by omega))
        · have h3 : (2 : Nat) ^ 64 ≤ 2 ^ k := Nat.pow_le_pow_right (by decide) (by omega)
          have hq0 : q = 0 := by
            by_contra hne
            have : 2 ^ k * 1 ≤ 2 ^ k * q := Nat.mul_le_mul_left _ (by omega)
            omega
          rw [hq0]
          exact Nat.two_pow_pos _
      simp [hq]

/-- The sector at which the report loop stops is the capacity of the device
when the zone size is a power of two and the capacity is a whole number of
zones. -/
theorem report_end_sector_pow2 (dev : znr_device) (k start : Nat)
    (hZ : dev.zone_sectors = 2 ^ k) (hk : k < 32)
    (hE : dev.nr_sectors = dev.zone_sectors * dev.nr_zones) (h2 : 2 * dev.nr_sectors ≤ U64)
    (hs : start < dev.nr_zones) : report_end_sector dev start = dev.nr_sectors := by
  have hpos : 0 < 2 ^ k := Nat.two_pow_pos k
  have hlt : 2 ^ k < U32 := Nat.pow_lt_pow_right (by decide) hk
  have hmask : (2 ^ k + U32 - 1) % U32 = 2 ^ k - 1 := by
    have e : 2 ^ k + U32 - 1 = (2 ^ k - 1) + U32 := by omega
    rw [e, Nat.add_mod_right, Nat.mod_eq_of_lt (by omega)]
  have hm : 2 ^ k * (start + 1) ≤ 2 ^ k * dev.nr_zones := Nat.mul_le_mul_left _ (by omega)
  rw [Nat.mul_add, Nat.mul_one] at hm
  rw [hZ] at hE
  have hsum : 2 ^ k * start + dev.nr_sectors + (2 ^ k - 1) =
      2 ^ k * (start + dev.nr_zones) + (2 ^ k - 1) := by
    rw [hE, Nat.mul_add]
  have hx : 2 ^ k * (start + dev.nr_zones) + (2 ^ k - 1) < 2 ^ 64 := by
    rw [Nat.mul_add]
    unfold U64 at h2
    omega
  unfold report_end_sector
  simp only [hZ, hmask]
  rw [hsum, Nat.mod_eq_of_lt (by unfold U64; exact hx)]
  have hU : U64 - 1 - (2 ^ k - 1) = 2 ^ 64 - 1 - (2 ^ k - 1) := rfl
  rw [hU, land_round_down k (start + dev.nr_zones) hx]
  by_cases hgt : 2 ^ k * (start + dev.nr_zones) > dev.nr_sectors
  · rw [if_pos hgt]
  · rw [if_neg hgt]
    rw [Nat.mul_add] at hgt ⊢
    omega

/-- What `znr_dev_report_zones` does on a local session for a call that is
not rejected, on a device whose kernel reports its zones: it returns the
number of zones the device has from `start` on, at most `count`, and writes
exactly those zones. -/
theorem report_zones_device (env : report_env) (g : znr) (dev : znr_device)
    (zs : List blk_zone) (start count : Nat) (hc : count ≠ 0) (hs : start < dev.nr_zones)
    (hg : g.is_net_client = false) (hdz : device_zones dev zs)
    (hk : kernel_reports env dev zs) (hend : report_end_sector dev start = dev.nr_sectors) :
    znr_dev_report_zones env g dev start count =
      (((min count (dev.nr_zones - start) : Nat) : Int), (zs.drop start).take count) := by
  have hloop := report_loop_device env dev zs count (report_rep_nr_zones count) hdz hk
    (by unfold report_rep_nr_zones ZNR_DEV_REPORT_MAX_NR_ZONES; split <;> omega)
    count start 0 (by omega) (by omega) (by omega)
  have htake : (zs.drop start).take (min (count - 0) (dev.nr_zones - start)) =
      (zs.drop start).take count := by
    have hl : (zs.drop start).length = dev.nr_zones - start := by
      rw [List.length_drop, hdz.1]
    rw [Nat.sub_zero, ← hl, ← List.take_take, List.take_length]
  rw [htake, Nat.sub_zero, Nat.zero_add, ← hend] at hloop
  unfold znr_dev_report_zones
  rw [if_neg (by omega), hg]
  simp only [Bool.false_eq_true, if_false]
  exact hloop

/-- The example zones are the zones of the example device. -/
theorem ex_device_zones : device_zones ex_dev ex_zones := by
  refine ⟨rfl, by decide, by decide, by decide, ?_⟩
  intro i z h
  rcases i with _ | _ | _ | _ | i
  · simp only [ex_zones, List.getElem?_cons_zero, Option.some.injEq] at h
    subst h
    exact ⟨rfl, rfl⟩
  · simp only [ex_zones, List.getElem?_cons_succ, List.getElem?_cons_zero,
      Option.some.injEq] at h
    subst h
    exact ⟨rfl, rfl⟩
  · simp only [ex_zones, List.getElem?_cons_succ, List.getElem?_cons_zero,
      Option.some.injEq] at h
    subst h
    exact ⟨rfl, rfl⟩
  · simp only [ex_zones, List.getElem?_cons_succ, List.getElem?_cons_zero,
      Option.some.injEq] at h
    subst h
    exact ⟨rfl, rfl⟩
  · simp [ex_zones] at h

/-- The example kernel reports the example zones. -/
theorem ex_kernel_reports : kernel_reports ex_env ex_dev ex_zones := by
  intro i nr _
  show Except.ok ((ex_zones.drop (100 * i / 100)).take nr) = _
  rw [Nat.mul_div_cancel_left i (by decide)]

/-- C20, amended.  For every device and every `(start, count)`,
`znr_dev_report_zones` returns `-EINVAL` when `count = 0` and when
`start >= zone_count`, whatever the kernel and the server would answer, and
writes nothing to the output buffer.  A call with `count >= 1` and
`start < zone_count` is not rejected, also when `start + count > zone_count`:
on a local session of a device whose kernel reports its zones it returns
`min count (zone_count - start)` and writes exactly the zones the device has
from `start` on, at most `count`; this needs the end sector the function
computes to be the capacity of the device, which it is for every zone size
that is a power of two.  For every kernel, the first zone of the first report
is written and no call writes more than `count` zones. -/
theorem report_zones_bounds (env : report_env) (g : znr) (dev : znr_device)
    (zs : List blk_zone) (start count : Nat) :
    (count = 0 ∨ start ≥ dev.nr_zones →
      ∀ env1 : report_env, znr_dev_report_zones env1 g dev start count = (-EINVAL, [])) ∧
    (count ≠ 0 → start < dev.nr_zones → g.is_net_client = false →
      device_zones dev zs → kernel_reports env dev zs →
      report_end_sector dev start = dev.nr_sectors →
      znr_dev_report_zones env g dev start count =
        (((min count (dev.nr_zones - start) : Nat) : Int), (zs.drop start).take count)) ∧
    (∀ k, dev.zone_sectors = 2 ^ k → k < 32 →
      dev.nr_sectors = dev.zone_sectors * dev.nr_zones → 2 * dev.nr_sectors ≤ U64 →
      start < dev.nr_zones → report_end_sector dev start = dev.nr_sectors) ∧
    (count ≠ 0 → start < dev.nr_zones → g.is_net_client = false →
      dev.zone_sectors * start < report_end_sector dev start →
      ∀ z rest, report_ioctl env (dev.zone_sectors * start) (report_rep_nr_zones count) =
          .ok (z :: rest) →
        ∃ tail, (znr_dev_report_zones env g dev start count).2 = z :: tail) ∧
    (g.is_net_client = false → (znr_dev_report_zones env g dev start count).2.length ≤ count) := by
  refine ⟨?_, ?_, ?_, ?_, ?_⟩
  · intro h env1
    unfold znr_dev_report_zones
    rw [if_pos h]
  · intro hc hs hg hdz hk hend
    exact report_zones_device env g dev zs start count hc hs hg hdz hk hend
  · intro k hZ hk hE h2 hs
    exact report_end_sector_pow2 dev k start hZ hk hE h2 hs
  · intro hc hs hg hend z rest hio
    unfold znr_dev_report_zones
    rw [if_neg (by omega), hg]
    simp only [Bool.false_eq_true, if_false]
    obtain ⟨k, rfl⟩ : ∃ k, count = k + 1 := ⟨count - 1, by omega⟩
    have hio1 : report_ioctl env (dev.zone_sectors * start)
        (if k + 1 < ZNR_DEV_REPORT_MAX_NR_ZONES then k + 1 else ZNR_DEV_REPORT_MAX_NR_ZONES) =
        .ok (z :: rest) := hio
    have hend1 : dev.zone_sectors * start <
        (if Nat.land ((dev.zone_sectors * start + dev.nr_sectors +
              (dev.zone_sectors + U32 - 1) % U32) % U64)
            (U64 - 1 - (dev.zone_sectors + U32 - 1) % U32) > dev.nr_sectors
          then dev.nr_sectors
          else Nat.land ((dev.zone_sectors * start + dev.nr_sectors +
              (dev.zone_sectors + U32 - 1) % U32) % U64)
            (U64 - 1 - (dev.zone_sectors + U32 - 1) % U32)) := hend
    rw [report_loop, if_pos ⟨by omega, hend1⟩, hio1]
    obtain ⟨tail, ht, _⟩ := report_copy_first (k + 1) _ z rest 0 (dev.zone_sectors * start)
      ⟨by omega, hend1⟩
    simp only
    rw [ht]
    exact ⟨_, rfl⟩
  · intro hg
    unfold znr_dev_report_zones
    by_cases h : count = 0 ∨ start ≥ dev.nr_zones
    · rw [if_pos h]
      simp
    · rw [if_neg h, hg]
      simp only [Bool.false_eq_true, if_false]
      have := report_loop_written env count
        (if count < ZNR_DEV_REPORT_MAX_NR_ZONES then count else ZNR_DEV_REPORT_MAX_NR_ZONES)
        (if Nat.land ((dev.zone_sectors * start + dev.nr_sectors +
              (dev.zone_sectors + U32 - 1) % U32) % U64)
            (U64 - 1 - (dev.zone_sectors + U32 - 1) % U32) > dev.nr_sectors
          then dev.nr_sectors
          else Nat.land ((dev.zone_sectors * start + dev.nr_sectors +
              (dev.zone_sectors + U32 - 1) % U32) % U64)
            (U64 - 1 - (dev.zone_sectors + U32 - 1) % U32))
        count 0 (dev.zone_sectors * start) (Nat.zero_le _)
      omega

/-- C20, witness: the example device with `start = 4` (rejected) and with
`start = 3`, `count = 2`, for which `start + count > zone_count`: the call
returns 1 and writes the last zone of the device; and the end sector of a
device with zones of 8 sectors. -/
theorem report_zones_bounds_witness :
    ((2 = 0 ∨ 4 ≥ ex_dev.nr_zones) ∧
      znr_dev_report_zones ex_env ex_session ex_dev 4 2 = (-EINVAL, [])) ∧
    ((2 ≠ 0 ∧ 3 < ex_dev.nr_zones ∧ ex_session.is_net_client = false ∧
        3 + 2 > ex_dev.nr_zones ∧ device_zones ex_dev ex_zones ∧
        kernel_reports ex_env ex_dev ex_zones ∧
        report_end_sector ex_dev 3 = ex_dev.nr_sectors) ∧
      znr_dev_report_zones ex_env ex_session ex_dev 3 2 =
        (1, [{ start := 300, len := 100, wp := 300, type := 2, cond := 1, non_seq := 0,
               reset := 0, capacity := 90 }])) ∧
    ((ex_pow2_dev.zone_sectors = 2 ^ 3 ∧ 3 < 32 ∧
        ex_pow2_dev.nr_sectors = ex_pow2_dev.zone_sectors * ex_pow2_dev.nr_zones ∧
        2 * ex_pow2_dev.nr_sectors ≤ U64 ∧ 1 < ex_pow2_dev.nr_zones) ∧
      report_end_sector ex_pow2_dev 1 = ex_pow2_dev.nr_sectors) :=
  ⟨⟨by decide, (report_zones_bounds ex_env ex_session ex_dev ex_zones 4 2).1 (by decide) ex_env⟩,
    ⟨⟨by decide, by decide, rfl, by decide, ex_device_zones, ex_kernel_reports, by decide⟩,
      (report_zones_bounds ex_env ex_session ex_dev ex_zones 3 2).2.1 (by decide) (by decide) rfl
        ex_device_zones ex_kernel_reports (by decide)⟩,
    ⟨⟨rfl, by decide, by decide, by decide, by decide⟩,
      (report_zones_bounds ex_env ex_session ex_pow2_dev [] 1 1).2.2.1 3 rfl (by decide)
        (by decide) (by decide) (by decide)⟩⟩

/-- A zoned device whose zone size reads 0 passes `znr_dev_get_info`; the
open sequence reports its four zones and then does not return: the refresh
divides by the zone size in `znr_bg_to_zno`. -/
theorem open_zero_zone_size_traps :
    (znr_dev_get_info ex_zero_zone_size_env.dev default).1 = 0 ∧
    (znr_dev_get_info ex_zero_zone_size_env.dev default).2.is_zoned = true ∧
    (znr_dev_get_info ex_zero_zone_size_env.dev default).2.zone_sectors = 0 ∧
    (znr_open ex_zero_zone_size_env ex_env znr_init).1 = none ∧
    (znr_open ex_zero_zone_size_env ex_env znr_init).2.blk_zones = .live ex_zones := by
  refine ⟨by rfl, by rfl, by rfl, by rfl, by rfl⟩

/-- An extent map that comes back with more entries than the buffer holds has
been written past the end of the buffer: the map query does not return
normally. -/
theorem file_extents_map_overrun :
    znr_xfs_get_file_extents_map ex_full_map_env = none ∧
    znr_xfs_get_file_extents ex_full_map_env ex_geo 77 = none := by
  refine ⟨by rfl, by rfl⟩

end Zonar
